import Mathlib

/-!
# Verification of the exsited-csv-scripts generators

A shallow embedding of the row-generation logic of the CSV dummy-data
scripts (`account_csv_generator.py`, `invoice_csv_generator.py`,
`order_csv_generator.py`, `payment_csv_generator.py`), together with
proofs of the data-shape invariants the scripts are meant to satisfy.

Modelling conventions, used throughout:

* Python's `random` module is modelled by a supply of natural numbers
  (`List Nat`); every primitive (`randint`, `random`, `choice`,
  `sample`, `uniform`) deterministically consumes draws from the front
  of the supply.  A property proved for every supply holds for every
  possible sequence of random draws.
* Python exceptions (`ValueError`, `IndexError`) are modelled with
  `Except String`; the carried string is the exception's message.
* Python floats are modelled by `PyFloat` (exact unnormalized
  rationals); the claims proved here never depend on binary
  floating-point rounding.
* `datetime.now()` is passed in explicitly, as a day ordinal (for the
  generators that only shift dates by whole days) or as a
  year/month/day triple (for the account generator, which builds dates
  from calendar fields).
* Faker-generated filler text (`fake.word()`, `fake.sentence()`) is
  modelled as a draw-indexed placeholder string; no claim depends on
  its content.
-/

namespace CsvScripts

/-! ## Python scalar values and dict rows -/

/-- An exact rational kept as an unnormalised numerator/denominator
pair.  Every value the generators build has a positive denominator; no
`gcd` normalisation is performed, so the kernel can evaluate all
arithmetic on concrete runs.  Python floats are modelled by these exact
fractions: no claim proved here depends on binary rounding. -/
structure PyFloat where
  num : Int
  den : Int
deriving DecidableEq, Repr

def PyFloat.add (a b : PyFloat) : PyFloat :=
  ⟨a.num * b.den + b.num * a.den, a.den * b.den⟩

def PyFloat.sub (a b : PyFloat) : PyFloat :=
  ⟨a.num * b.den - b.num * a.den, a.den * b.den⟩

def PyFloat.mul (a b : PyFloat) : PyFloat :=
  ⟨a.num * b.num, a.den * b.den⟩

/-- `a < b` by cross-multiplication (exact for the positive
denominators the generators produce). -/
def PyFloat.lt (a b : PyFloat) : Bool :=
  decide (a.num * b.den < b.num * a.den)

/-- A scalar value as stored in a generated row dict: string, int,
float (modelled as an exact `PyFloat` fraction) or bool. -/
inductive PyVal where
  | s (v : String)
  | i (v : Int)
  | q (v : PyFloat)
  | b (v : Bool)
deriving DecidableEq, Repr

/-- A row is a Python dict from column name to scalar, modelled as an
insertion-ordered association list (Python dicts preserve insertion
order; keys are unique). -/
abbrev Row := List (String × PyVal)

/-- `d[k] = v`: update in place if the key is present (keeping its
position), else append — exactly Python dict assignment. -/
def Row.setk : Row → String → PyVal → Row
  | [], k, v => [(k, v)]
  | (k', v') :: r, k, v =>
      if k' = k then (k', v) :: r else (k', v') :: Row.setk r k v

/-- `d.get(k)`: the value at a key, if present. -/
def Row.getk : Row → String → Option PyVal
  | [], _ => none
  | (k', v') :: r, k => if k' = k then some v' else Row.getk r k

/-- `list(d.keys())`. -/
def Row.keys (r : Row) : List String := r.map Prod.fst

/-! ## The randomness/exception monad -/

/-- A computation in a Python generator script: reads draws off a random
supply, may raise (modelled as `Except.error` carrying the message). -/
def Gen (α : Type) := List Nat → Except String (α × List Nat)

instance : Monad Gen where
  pure a := fun s => .ok (a, s)
  bind m f := fun s =>
    match m s with
    | .ok (a, s') => f a s'
    | .error e => .error e

/-- Raise an exception (a Python `raise`). -/
def Gen.raiseErr {α : Type} (msg : String) : Gen α := fun _ => .error msg

/-- Take one raw draw off the supply (0 if exhausted — an infinite
random stream is modelled by an arbitrarily long supply). -/
def Gen.draw : Gen Nat := fun s => .ok (s.headD 0, s.tail)

/-- `random.randint(a, b)`: uniform integer in `[a, b]`; raises
`ValueError` when the range is empty (`a > b`), exactly as Python does. -/
def Gen.randint (a b : Int) : Gen Int :=
  if a ≤ b then do
    let n ← Gen.draw
    pure (a + (n : Int) % (b - a + 1))
  else Gen.raiseErr "ValueError: empty range in randrange"

/-- `random.random()`: a value in `[0, 1)`, modelled on a `1/1000000`
grid (the claims only branch on threshold comparisons). -/
def Gen.randomFloat : Gen PyFloat := do
  let n ← Gen.draw
  pure ⟨((n % 1000000 : Nat) : Int), 1000000⟩

/-- `random.choice(seq)`: a uniformly chosen element; `IndexError` on an
empty sequence. -/
def Gen.choice {α : Type} (l : List α) : Gen α := do
  let n ← Gen.draw
  match l.get? (n % l.length) with
  | some x => pure x
  | none => Gen.raiseErr "IndexError: list index out of range"

/-- `random.uniform(a, b)`: `a + (b - a) * random()`. -/
def Gen.uniform (a b : PyFloat) : Gen PyFloat := do
  let q ← Gen.randomFloat
  pure (a.add ((b.sub a).mul q))

/-- Draw `k` elements without replacement (the core of `random.sample`
once the size check has passed). -/
def Gen.sampleAux {α : Type} : List α → Nat → Gen (List α)
  | _, 0 => pure []
  | l, k + 1 => do
      let n ← Gen.draw
      match l.get? (n % l.length) with
      | some x => do
          let rest ← Gen.sampleAux (l.eraseIdx (n % l.length)) k
          pure (x :: rest)
      | none => Gen.raiseErr "IndexError: list index out of range"

/-- `random.sample(population, k)`: `k` distinct positions; raises
`ValueError` when `k` exceeds the population size. -/
def Gen.sample {α : Type} (l : List α) (k : Nat) : Gen (List α) :=
  if k ≤ l.length then Gen.sampleAux l k
  else Gen.raiseErr "ValueError: Sample larger than population or is negative"

/-- Nearest integer to `n / d` for `d > 0` (ties upward; Python rounds
ties to even, but no property proved here depends on the tie rule). -/
def roundDiv (n d : Int) : Int := (2 * n + d).fdiv (2 * d)

/-- Python `round(x, 2)`: to-nearest on the `1/100` grid. -/
def round2 (x : PyFloat) : PyFloat := ⟨roundDiv (x.num * 100) x.den, 100⟩

/-! ## Postcondition reasoning -/

/-- `GenSat m P`: every successful run of `m` (any supply) returns a
value satisfying `P`. -/
def GenSat {α : Type} (m : Gen α) (P : α → Prop) : Prop :=
  ∀ s a s', m s = .ok (a, s') → P a

/-- `GenTotal m`: `m` succeeds on every supply (raises nothing). -/
def GenTotal {α : Type} (m : Gen α) : Prop :=
  ∀ s, ∃ a s', m s = .ok (a, s')

/-- `GenFails m msg`: `m` raises with message `msg` on every supply. -/
def GenFails {α : Type} (m : Gen α) (msg : String) : Prop :=
  ∀ s, m s = .error msg

/-- `GenAvoids m msg`: no run of `m` raises with message `msg`. -/
def GenAvoids {α : Type} (m : Gen α) (msg : String) : Prop :=
  ∀ s, m s ≠ .error msg

/-! ## Decimal rendering (Python `str` / f-string interpolation) -/

/-- Digit-rendering worker, structurally recursive on a fuel bound (so
the kernel can evaluate it); `fuel ≥ n` always suffices. -/
def natDigitsGo : Nat → Nat → List Char → List Char
  | 0, n, acc => Char.ofNat ('0'.toNat + n % 10) :: acc
  | fuel + 1, n, acc =>
      if n < 10 then Char.ofNat ('0'.toNat + n % 10) :: acc
      else natDigitsGo fuel (n / 10) (Char.ofNat ('0'.toNat + n % 10) :: acc)

/-- The decimal digit characters of `n`, most significant first (the
digits Python's `str(n)` produces for a non-negative integer). -/
def natDigits (n : Nat) : List Char := natDigitsGo n n []

/-- Python `str(n)` for a natural number. -/
def natToStr (n : Nat) : String := String.mk (natDigits n)

/-- Python `str(i)` for an integer. -/
def intToStr (i : Int) : String :=
  (if i < 0 then "-" else "") ++ natToStr i.natAbs

/-- Python `str.zfill(w)`: left-pad with `'0'` up to width `w`. -/
def zfill (s : String) (w : Nat) : String :=
  if w ≤ s.length then s
  else String.mk (List.replicate (w - s.length) '0') ++ s

/-! ## Calendar (the slice of `datetime` the generators use) -/

/-- `calendar.isleap` / the Gregorian leap rule. -/
def isLeapYear (y : Int) : Bool :=
  (y % 4 == 0 && y % 100 != 0) || y % 400 == 0

/-- `calendar.monthrange(y, m)[1]`: days in month `m` of year `y`. -/
def daysInMonth (y m : Int) : Int :=
  if m = 2 then (if isLeapYear y then 29 else 28)
  else if m = 4 ∨ m = 6 ∨ m = 9 ∨ m = 11 then 30
  else 31

/-- Days in year `y` strictly before month `m` (for `1 ≤ m ≤ 12`). -/
def daysBeforeMonth (y m : Int) : Int :=
  (if m ≤ 1 then 0
   else if m ≤ 2 then 31
   else (if m ≤ 3 then 59
         else if m ≤ 4 then 90
         else if m ≤ 5 then 120
         else if m ≤ 6 then 151
         else if m ≤ 7 then 181
         else if m ≤ 8 then 212
         else if m ≤ 9 then 243
         else if m ≤ 10 then 273
         else if m ≤ 11 then 304
         else 334) + (if isLeapYear y then 1 else 0))

/-- The ordinal of a date within its year (`1` = January 1st). -/
def dayOfYear (y m d : Int) : Int := daysBeforeMonth y m + d

/-- Civil date from a day ordinal (days since 1970-01-01, negatives
included) — the standard era-based Gregorian conversion, used only to
render ordinals; no theorem depends on its internals. -/
def civilFromDays (z0 : Int) : Int × Int × Int :=
  let z := z0 + 719468
  let era := (if 0 ≤ z then z else z - 146096) / 146097
  let doe := z - era * 146097
  let yoe := (doe - doe / 1460 + doe / 36524 - doe / 146096) / 365
  let y := yoe + era * 400
  let doy := doe - (365 * yoe + yoe / 4 - yoe / 100)
  let mp := (5 * doy + 2) / 153
  let d := doy - (153 * mp + 2) / 5 + 1
  let m := mp + (if mp < 10 then 3 else -9)
  (y + (if m ≤ 2 then 1 else 0), m, d)

/-- `strftime("%Y-%m-%d")` on a year/month/day triple. -/
def isoDate (y m d : Int) : String :=
  zfill (intToStr y) 4 ++ "-" ++ zfill (intToStr m) 2 ++ "-" ++
    zfill (intToStr d) 2

/-- `strftime("%Y-%m-%d")` on a day ordinal. -/
def isoOfOrdinal (t : Int) : String :=
  let ymd := civilFromDays t
  isoDate ymd.1 ymd.2.1 ymd.2.2

/-! ## Custom attribute specs and `_random_value_for_attr`

The function `_random_value_for_attr` is duplicated verbatim in
`invoice_csv_generator.py`, `order_csv_generator.py` and
`payment_csv_generator.py` (and the purchase variants); it is embedded
once here as `random_value_for_attr`. -/

/-- A custom attribute spec dict (`column_name`, `type`, `constant`,
`value`, `options`, `quantity_min`, `quantity_max`). -/
structure Attr where
  column_name : String
  type : String
  constant : Bool := false
  value : Option PyVal := none
  options : List String := []
  quantity_min : Option Int := none
  quantity_max : Option Int := none
deriving Repr

/-- Python `x or d` on an optional int (`None` and `0` are falsy). -/
def pyOrInt (v : Option Int) (d : Int) : Int :=
  match v with
  | some x => if x ≠ 0 then x else d
  | none => d

/-- A Python `a < b` float comparison, as a `Bool`. -/
def pyLt (a b : PyFloat) : Bool := PyFloat.lt a b

/-- `fake.word()`: Faker filler text modelled as a draw-indexed string. -/
def fake_word : Gen String := do
  let n ← Gen.draw
  pure ("lorem" ++ natToStr n)

/-- `fake.sentence(nb_words=6)`: Faker filler text modelled as a
draw-indexed string. -/
def fake_sentence : Gen String := do
  let n ← Gen.draw
  pure ("Lorem ipsum filler sentence " ++ natToStr n ++ ".")

/-- `_random_value_for_attr(attr)` (shared across the invoice / order /
payment generator files): type-dispatched random value generation.  It
never consults `attr["constant"]` or `attr["value"]`. -/
def random_value_for_attr (today : Int) (attr : Attr) : Gen PyVal :=
  let options := attr.options
  if attr.type = "bool" then do
    let b ← Gen.choice [true, false]
    pure (.b b)
  else if attr.type = "checkboxes" then
    if options ≠ [] then do
      let k ← Gen.randint 1 options.length
      let chosen ← Gen.sample options k.toNat
      pure (.s (String.intercalate "," chosen))
    else pure (.s "")
  else if attr.type = "date" then do
    let off ← Gen.randint (-365) 365
    pure (.s (isoOfOrdinal (today + off)))
  else if attr.type = "dropdown" then
    if options ≠ [] then do
      let c ← Gen.choice options
      pure (.s c)
    else pure (.s "")
  else if attr.type = "dropdown_multi" then
    if options ≠ [] then do
      let k ← Gen.randint 1 options.length
      let chosen ← Gen.sample options k.toNat
      pure (.s (String.intercalate "," chosen))
    else pure (.s "")
  else if attr.type = "money" then do
    let q ← Gen.uniform ⟨1, 1⟩ ⟨10000, 1⟩
    pure (.q (round2 q))
  else if attr.type = "quantity" then do
    let qmin := pyOrInt attr.quantity_min 1
    let qmax := pyOrInt attr.quantity_max 50
    let lo := if qmax < qmin then qmax else qmin
    let hi := if qmax < qmin then qmin else qmax
    let v ← Gen.randint lo hi
    pure (.i v)
  else if attr.type = "number" then do
    let v ← Gen.randint 0 1000
    pure (.i v)
  else if attr.type = "string" then do
    let w ← fake_word
    pure (.s w)
  else if attr.type = "radio" then
    if options ≠ [] then do
      let c ← Gen.choice options
      pure (.s c)
    else pure (.s "")
  else if attr.type = "text" then do
    let t ← fake_sentence
    pure (.s t)
  else pure (.s "")

/-- Apply a list of attribute specs to a row, one `row[col] = value`
assignment per attribute (the `for attr in ...` loops of the fan-out
generators). -/
def apply_attrs (today : Int) : List Attr → Row → Gen Row
  | [], r => pure r
  | attr :: rest, r => do
      let v ← random_value_for_attr today attr
      apply_attrs today rest (Row.setk r attr.column_name v)

/-! ## The invoice generator (`invoice_csv_generator.py`) -/

/-- `generate_invoice_id()`: `f"CSV-INV-{random.randint(100000, 999999)}"`. -/
def generate_invoice_id : Gen String := do
  let n ← Gen.randint 100000 999999
  pure ("CSV-INV-" ++ intToStr n)

/-- The fixed pool of `generate_invoice_note()`. -/
def invoice_note_pool : List String := [
  "Payment due upon receipt. Thank you for your business.",
  "Please remit payment within the specified terms.",
  "Contact our billing department for any queries.",
  "Early payment discount available - contact us for details.",
  "This invoice reflects services rendered as per agreement.",
  "Net payment terms apply as specified in contract.",
  "Please reference invoice number when making payment.",
  "All amounts shown in the specified currency.",
  "Late fees may apply for overdue payments.",
  "Thank you for choosing our services."]

/-- `generate_invoice_note()`. -/
def generate_invoice_note : Gen String := Gen.choice invoice_note_pool

/-- `generate_issue_date()`: today shifted by `randint(-90, 0)` days.
Returns the day ordinal alongside the rendered string — the source
returns only the string, and `generate_due_date` re-parses it with
`strptime`; the model carries the ordinal instead of re-parsing. -/
def generate_issue_date (today : Int) : Gen (Int × String) := do
  let off ← Gen.randint (-90) 0
  pure (today + off, isoOfOrdinal (today + off))

/-- `generate_due_date(issue_date_str)`: issue date plus
`randint(7, 90)` days (the `strptime` round-trip is modelled by taking
the issue ordinal directly). -/
def generate_due_date (issueOrd : Int) : Gen String := do
  let d ← Gen.randint 7 90
  pure (isoOfOrdinal (issueOrd + d))

/-- Python `str.strip()`: drop ASCII whitespace from both ends (defined
on character lists so the kernel can evaluate it). -/
def pyStrip (s : String) : String :=
  let ws : Char → Bool := fun c => c = ' ' || c = '\t' || c = '\n' || c = '\r'
  String.mk (((s.toList.dropWhile ws).reverse.dropWhile ws).reverse)

/-- `_derive_account_choices(account_ids, default_currency)` of
`invoice_csv_generator.py`: strip each id, keep the non-empty ones,
pair with the default currency. -/
def derive_account_choices (account_ids : Option (List String))
    (default_currency : String) : List (String × String) :=
  match account_ids with
  | none => []
  | some ids =>
      (ids.map (fun a => pyStrip a)).filterMap
        (fun a => if a = "" then none else some (a, default_currency))

/-- `generate_line_item_name()` adjective pool. -/
def line_item_adjective_pool : List String :=
  ["Premium", "Standard", "Professional", "Enterprise", "Basic",
   "Advanced", "Custom"]

/-- `generate_line_item_name()` service pool. -/
def line_item_service_pool : List String :=
  ["Service", "Product", "Consultation", "Package", "Bundle",
   "Solution", "Support"]

/-- `generate_line_item_name()`. -/
def generate_line_item_name : Gen String := do
  let a ← Gen.choice line_item_adjective_pool
  let s ← Gen.choice line_item_service_pool
  pure (a ++ " " ++ s)

/-- `generate_line_item_quantity()`: `randint(1, 100)`. -/
def generate_line_item_quantity : Gen Int := Gen.randint 1 100

/-- `generate_line_item_price()`: `round(uniform(10, 5000), 2)`. -/
def generate_line_item_price : Gen PyFloat := do
  let q ← Gen.uniform ⟨10, 1⟩ ⟨5000, 1⟩
  pure (round2 q)

/-- The fixed pool of `generate_line_item_note()`. -/
def line_item_note_pool : List String := [
  "Standard terms apply.",
  "As per service agreement.",
  "Monthly subscription fee.",
  "One-time setup charge.",
  "Prorated for partial period.",
  "Annual license renewal.",
  "Volume discount applied.",
  "Special promotion pricing."]

/-- `generate_line_item_note()`. -/
def generate_line_item_note : Gen String := Gen.choice line_item_note_pool

/-- `LINE_ITEM_ACCOUNTING_CODES`. -/
def LINE_ITEM_ACCOUNTING_CODES : List String := [
  "Account Receivable",
  "Cash and Cash Equivalent",
  "Inventory",
  "Sales Revenue",
  "Event Charge",
  "Deduction",
  "Alteration",
  "Cancellation",
  "Chargeback"]

/-- `_fallback_system_identifiers(count)`: `count` ids of the form
`ITEM-{randint(1000, 9999)}`. -/
def fallback_ids_loop : Nat → Gen (List String)
  | 0 => pure []
  | k + 1 => do
      let n ← Gen.randint 1000 9999
      let rest ← fallback_ids_loop k
      pure (("ITEM-" ++ intToStr n) :: rest)

/-- `_fallback_system_identifiers()` with the default `count=5`. -/
def fallback_system_identifiers : Gen (List String) := fallback_ids_loop 5

/-- `if include_system and not system_identifiers: ... = _fallback...`:
the effective system identifier pool. -/
def resolve_system_identifiers (include_system : Bool)
    (sys0 : List String) : Gen (List String) :=
  if include_system && sys0.isEmpty then fallback_system_identifiers
  else pure sys0

/-- The `item_config` dict: absent keys modelled as `none` (the source
reads every key with `dict.get` and a default). -/
structure ItemConfig where
  include_system_items : Option Bool := none
  include_line_items : Option Bool := none
  system_identifiers : Option (List String) := none
  min_items_per_invoice : Option Int := none
  max_items_per_invoice : Option Int := none

/-- `default_item_config()`. -/
def default_item_config : ItemConfig :=
  { include_system_items := some true
    include_line_items := some true
    system_identifiers := some []
    min_items_per_invoice := some 1
    max_items_per_invoice := some 5 }

/-- The `tax_config` dict (`tax_codes` list + `tax_rates` mapping). -/
structure TaxConfig where
  tax_codes : List String := []
  tax_rates : List (String × PyVal) := []

/-- `tax_rates.get(code, "")`. -/
def lookupRate (rates : List (String × PyVal)) (code : String) : PyVal :=
  match rates.find? (fun kv => kv.1 = code) with
  | some kv => kv.2
  | none => .s ""

/-- The per-run constants of `generate_invoice_rows`, fixed before the
main loop (account choices already derived, flags already forced,
fallback identifiers already drawn). -/
structure InvoiceCtx where
  today : Int
  default_currency : String
  custom_form_template : String
  account_choices : List (String × String)
  include_system : Bool
  include_line : Bool
  system_identifiers : List String
  tax_codes : List String
  tax_rates : List (String × PyVal)
  custom_attrs : List Attr
  line_attrs : List Attr
  min_items_opt : Option Int
  max_items_opt : Option Int

/-- `p.toList.isPrefixOf s.toList`: Python's `s.startswith(p)` (defined
on character lists so literal instances evaluate). -/
def strHasPre (p s : String) : Bool := p.toList.isPrefixOf s.toList

/-- The keys the `if item_idx > 0` blanking loop of
`generate_invoice_rows` skips (`continue`s over): the parent identifier
columns and the two line-item prefixes. -/
def invoice_parent_exempt (k : String) : Bool :=
  k = "invoice_id" || k = "invoice_account_id" ||
    strHasPre "invoice_line_item_" k || strHasPre "ca_invoice_item_attr_" k

/-- The `if item_idx > 0` blanking loop of `generate_invoice_rows`:
every existing key that is not a parent identifier
(`invoice_id`, `invoice_account_id`) and not line-item-prefixed
(`invoice_line_item_`, `ca_invoice_item_attr_`) is set to `""`. -/
def blank_parent_fields (r : Row) : Row :=
  r.map (fun kv =>
    if invoice_parent_exempt kv.1 then kv else (kv.1, PyVal.s ""))

/-- The `is_system_item` decision of the item loop: coin-flip when both
kinds are enabled, else forced by the single enabled kind. -/
def draw_is_system (ctx : InvoiceCtx) : Gen Bool :=
  if ctx.include_system && ctx.include_line then do
    let q ← Gen.randomFloat
    pure (pyLt q ⟨1, 2⟩)
  else if ctx.include_system then pure true
  else pure false

/-- The `if is_system_item / elif include_line_items` block: set the
line-item id/name pair accordingly. -/
def set_line_item_identity (ctx : InvoiceCtx) (r0 : Row)
    (is_system : Bool) : Gen Row :=
  if is_system then do
    let identifier ← Gen.choice ctx.system_identifiers
    pure (Row.setk (Row.setk r0 "invoice_line_item_id" (.s identifier))
      "invoice_line_item_name" (.s ""))
  else if ctx.include_line then do
    let nm ← generate_line_item_name
    pure (Row.setk (Row.setk r0 "invoice_line_item_id" (.s ""))
      "invoice_line_item_name" (.s nm))
  else pure r0

/-- The 15%-gated flat-discount block (`max_discount` is
`item_row["invoice_line_item_price"] * 0.8`; the model reads the
just-stored `price` value, which is that entry). -/
def set_flat_discount (r2 : Row) (price : PyFloat) : Gen Row := do
  let q1 ← Gen.randomFloat
  if pyLt q1 ⟨15, 100⟩ then do
    let disc ← Gen.uniform ⟨5, 1⟩ (price.mul ⟨8, 10⟩)
    pure (Row.setk r2 "invoice_line_item_flat_discount" (.q (round2 disc)))
  else pure (Row.setk r2 "invoice_line_item_flat_discount" (.s ""))

/-- The tax code/rate block. -/
def set_tax_fields (ctx : InvoiceCtx) (r3 : Row) : Gen Row :=
  if ctx.tax_codes ≠ [] then do
    let code ← Gen.choice ctx.tax_codes
    pure (Row.setk (Row.setk r3 "invoice_line_item_tax_code" (.s code))
      "invoice_line_item_tax_rate" (lookupRate ctx.tax_rates code))
  else
    pure (Row.setk (Row.setk r3 "invoice_line_item_tax_code" (.s ""))
      "invoice_line_item_tax_rate" (.s ""))

/-- The body of the `for item_idx in range(total_items)` loop of
`generate_invoice_rows`: build one item row from the parent template. -/
def build_invoice_item_row (ctx : InvoiceCtx) (template : Row)
    (item_idx : Nat) : Gen Row := do
  let is_system ← draw_is_system ctx
  let r1 ← set_line_item_identity ctx template is_system
  let qty ← generate_line_item_quantity
  let price ← generate_line_item_price
  let note ← generate_line_item_note
  let acct ← Gen.choice LINE_ITEM_ACCOUNTING_CODES
  let r2 := Row.setk (Row.setk (Row.setk (Row.setk r1
    "invoice_line_item_quantity" (.i qty))
    "invoice_line_item_price" (.q price))
    "invoice_line_item_invoice_note" (.s note))
    "invoice_line_item_accounting_code" (.s acct)
  let r3 ← set_flat_discount r2 price
  let r4 ← set_tax_fields ctx r3
  let q2 ← Gen.randomFloat
  let r5 := Row.setk r4 "invoice_line_item_tax_exempt"
    (.s (if pyLt q2 ⟨1, 10⟩ then "TRUE" else ""))
  let q3 ← Gen.randomFloat
  let r6 := Row.setk r5 "invoice_line_item_tax_inclusive_based_on"
    (.s (if pyLt q3 ⟨2, 10⟩ then "TRUE" else ""))
  let r7 ← apply_attrs ctx.today ctx.line_attrs r6
  let r8 ← apply_attrs ctx.today ctx.custom_attrs r7
  pure (if 0 < item_idx then blank_parent_fields r8 else r8)

/-- The parent template row of one invoice (the dict literal plus the
30% `invoice_price_tax_inclusive = "TRUE"` update). -/
def build_invoice_template (ctx : InvoiceCtx) (idx : Nat) : Gen Row := do
  let ac ← Gen.choice ctx.account_choices
  let issue ← generate_issue_date ctx.today
  let due ← generate_due_date issue.1
  let inv_id ← generate_invoice_id
  let note ← generate_invoice_note
  let row : Row := [
    ("invoice_id", .s inv_id),
    ("invoice_origin", .s ("CSV IMPORT - " ++ natToStr (idx + 1))),
    ("invoice_currency", .s (if ac.2 = "" then ctx.default_currency else ac.2)),
    ("invoice_account_id", .s ac.1),
    ("invoice_issue_date", .s issue.2),
    ("invoice_due_date", .s due),
    ("invoice_price_tax_inclusive", .s ""),
    ("invoice_invoice_note", .s note),
    ("invoice_custom_form_template", .s ctx.custom_form_template)]
  let q ← Gen.randomFloat
  pure (if pyLt q ⟨3, 10⟩
    then Row.setk row "invoice_price_tax_inclusive" (.s "TRUE")
    else row)

/-- `for item_idx in range(total_items)`. -/
def invoice_items_loop (ctx : InvoiceCtx) (template : Row) :
    Nat → Nat → Gen (List Row)
  | _, 0 => pure []
  | item_idx, k + 1 => do
      let r ← build_invoice_item_row ctx template item_idx
      let rest ← invoice_items_loop ctx template (item_idx + 1) k
      pure (r :: rest)

/-- One iteration of the main `for idx in range(invoice_count)` loop:
template, item-count clamping, item fan-out. -/
def gen_one_invoice (ctx : InvoiceCtx) (idx : Nat) : Gen (List Row) := do
  let template ← build_invoice_template ctx idx
  let min_items := max 1 (ctx.min_items_opt.getD 1)
  let max_items := max min_items (ctx.max_items_opt.getD min_items)
  let total ← Gen.randint min_items max_items
  invoice_items_loop ctx template 0 total.toNat

/-- The main loop of `generate_invoice_rows`, appending each invoice's
item rows in order. -/
def invoice_rows_loop (ctx : InvoiceCtx) : Nat → Nat → Gen (List Row)
  | _, 0 => pure []
  | idx, k + 1 => do
      let block ← gen_one_invoice ctx idx
      let rest ← invoice_rows_loop ctx (idx + 1) k
      pure (block ++ rest)

/-- `generate_invoice_rows(...)`: derive account choices (raising
`ValueError` when none), default the optional arguments, force
`include_line_items` when both include flags are off, draw fallback
system identifiers when needed, then run the main loop. -/
def generate_invoice_rows (today : Int) (invoice_count : Nat)
    (account_ids : Option (List String))
    (default_currency : String)
    (custom_form_template : String)
    (tax_config : Option TaxConfig)
    (custom_attributes : Option (List Attr))
    (item_config : Option ItemConfig)
    (line_item_custom_attributes : Option (List Attr)) :
    Gen (List Row) := do
  let account_choices := derive_account_choices account_ids default_currency
  if account_choices = [] then
    Gen.raiseErr "No account IDs available to associate with invoices."
  else do
    let custom_attrs := custom_attributes.getD []
    let line_attrs := line_item_custom_attributes.getD []
    let cfg := item_config.getD default_item_config
    let tax := tax_config.getD {}
    let include_system := cfg.include_system_items.getD true
    let include_line0 := cfg.include_line_items.getD true
    let include_line :=
      if !include_system && !include_line0 then true else include_line0
    let sys0 := (cfg.system_identifiers.getD [])
    let sys ← resolve_system_identifiers include_system sys0
    invoice_rows_loop
      { today := today
        default_currency := default_currency
        custom_form_template := custom_form_template
        account_choices := account_choices
        include_system := include_system
        include_line := include_line
        system_identifiers := sys
        tax_codes := tax.tax_codes
        tax_rates := tax.tax_rates
        custom_attrs := custom_attrs
        line_attrs := line_attrs
        min_items_opt := cfg.min_items_per_invoice
        max_items_opt := cfg.max_items_per_invoice }
      0 invoice_count

/-! ### Postconditions of the invoice pipeline -/

/-- Every present non-exempt column of the row is blank — the shape of a
continuation row. -/
def item_blanked (r : Row) : Prop :=
  ∀ k ∈ r.keys, invoice_parent_exempt k = false → r.getk k = some (PyVal.s "")

/-- The item-row builder only writes line-item-prefixed and
`ca_`-prefixed columns before the blanking pass, so every other column
still reads the template's value. -/
def preserves_parent (template r : Row) : Prop :=
  ∀ k : String, strHasPre "invoice_line_item_" k = false →
    strHasPre "ca_" k = false → r.getk k = template.getk k

/-- The clamped per-invoice minimum item count, as computed inside the
generator from the `item_config` argument. -/
def invoice_min_items (item_config : Option ItemConfig) : Int :=
  max 1 ((item_config.getD default_item_config).min_items_per_invoice.getD 1)

/-- The clamped per-invoice maximum item count. -/
def invoice_max_items (item_config : Option ItemConfig) : Int :=
  max (invoice_min_items item_config)
    ((item_config.getD default_item_config).max_items_per_invoice.getD
      (invoice_min_items item_config))

/-- Whether the row has a non-blank entry at column `k` (absent counts
as blank — the spec's `row[parent_field] != ""` presumes presence). -/
def row_nonblank (r : Row) (k : String) : Bool :=
  match r.getk k with
  | some v => decide (v ≠ PyVal.s "")
  | none => false

/-- `sum(row[k] != "" for row in rows)` of the spec's invariant. -/
def count_nonblank (rows : List Row) (k : String) : Nat :=
  (rows.filter (fun r => row_nonblank r k)).length

/-- A concrete `item_config`: line items only, exactly two items per
invoice. -/
def demo_item_config : ItemConfig :=
  { include_system_items := some false
    include_line_items := some true
    system_identifiers := some []
    min_items_per_invoice := some 2
    max_items_per_invoice := some 2 }

/-- A concrete random supply; every draw is `999999`, so every
`random.random() < p` gate (thresholds ≤ 0.999999) comes out false. -/
def demo_supply : List Nat := List.replicate 60 999999

/-! ## The payment generator (`payment_csv_generator.py`) -/

/-- `generate_payment_id(row_num)`:
`f"CSV-PMT-{str(row_num).zfill(3)}"` — derived from the row number, not
from a random draw. -/
def generate_payment_id (row_num : Nat) : String :=
  "CSV-PMT-" ++ zfill (natToStr row_num) 3

/-- `generate_payment_origin()`. -/
def generate_payment_origin : Gen String := do
  let t ← Gen.choice ["ACC", "ORD"]
  let n ← Gen.randint 1 999
  pure ("CSV-" ++ t ++ "-" ++ zfill (intToStr n) 3)

/-- `generate_payment_date()`: always today, no draw. -/
def generate_payment_date (today : Int) : String := isoOfOrdinal today

/-- `generate_payment_alternate_date(payment_date)`: 50% blank,
otherwise the payment date plus `randint(7, 30)` days (the `strptime`
round-trip is modelled by taking the ordinal directly). -/
def generate_payment_alternate_date (today : Int) : Gen String := do
  let q ← Gen.randomFloat
  if pyLt q ⟨1, 2⟩ then pure ""
  else do
    let d ← Gen.randint 7 30
    pure (isoOfOrdinal (today + d))

/-- `generate_payment_amount(min, max)`: `round(uniform(min, max), 2)`. -/
def generate_payment_amount (min_amount max_amount : PyFloat) :
    Gen PyFloat := do
  let q ← Gen.uniform min_amount max_amount
  pure (round2 q)

/-- The fixed pool of `generate_payment_note()`. -/
def payment_note_pool : List String := [
  "Payment received via bank transfer",
  "Credit card payment processed successfully",
  "Wire transfer completed",
  "Electronic funds transfer confirmed",
  "Check payment cleared",
  "Payment applied to outstanding invoices",
  "Advance payment for future services",
  "Partial payment - balance pending",
  "Direct debit payment processed",
  "Cash payment received and recorded",
  "Payment received - thank you for your business",
  "Online payment gateway transaction completed",
  "ACH transfer processed successfully",
  "Mobile payment app transaction confirmed",
  "Payment reconciliation completed"]

/-- `generate_payment_note()`. -/
def generate_payment_note : Gen String := Gen.choice payment_note_pool

/-- `_get_invoice_choices(invoice_csv_path, invoice_ids_param)`: a
truthy (non-`None`, non-empty) parameter list is used exclusively
(each entry stripped, blank entries dropped); only otherwise is the CSV
consulted.  `invoice_csv_ids` is `none` when no CSV path was given, and
`some l` when a path was given and `load_invoice_ids_from_csv` returned
`l` (a missing file yields `some []`). -/
def get_invoice_choices (invoice_csv_ids : Option (List String))
    (invoice_ids_param : Option (List String)) : List String :=
  match invoice_ids_param with
  | some (p :: ps) =>
      ((p :: ps).map pyStrip).filter (fun x => x ≠ "")
  | _ =>
      match invoice_csv_ids with
      | some (c :: cs) => c :: cs
      | _ => []

/-- The per-attribute branch of the payment loop: the fixed `value` when
`constant` is set and the value is not `None`, a random draw otherwise. -/
def payment_attr_value (today : Int) (attr : Attr) : Gen PyVal :=
  if attr.constant && attr.value.isSome then pure (attr.value.getD (.s ""))
  else random_value_for_attr today attr

/-- The `custom_attrs` dict built once per payment (shared by all of the
payment's rows). -/
def gen_payment_attrs (today : Int) : List Attr → Row → Gen Row
  | [], acc => pure acc
  | attr :: rest, acc => do
      let v ← payment_attr_value today attr
      gen_payment_attrs today rest (Row.setk acc attr.column_name v)

/-- `row.update(upd)`: apply each key of `upd` in order. -/
def row_update (r upd : Row) : Row :=
  upd.foldl (fun acc kv => Row.setk acc kv.1 kv.2) r

/-- The invoice selection of one payment: `randint(2, min(5, n))`
distinct invoices when multi-invoice is enabled (an uncaught
`ValueError` when `n < 2` makes that range empty), a single choice
otherwise. -/
def select_invoices (multi : Bool) (invoice_choices : List String) :
    Gen (List String) :=
  if multi then do
    let num ← Gen.randint 2 (min 5 (invoice_choices.length : Int))
    Gen.sample invoice_choices num.toNat
  else do
    let c ← Gen.choice invoice_choices
    pure [c]

/-- The per-run constants of `generate_payment_rows`. -/
structure PaymentCtx where
  today : Int
  invoice_choices : List String
  custom_attributes : List Attr
  multi : Bool
  min_amount : PyFloat
  max_amount : PyFloat
  payment_processors : List String

/-- One iteration of the `for payment_num in range(1, payment_count+1)`
loop: one payment, one output row per selected invoice, all sharing the
payment's id, origin, dates, processor, amount, note and attributes. -/
def gen_one_payment (ctx : PaymentCtx) (payment_num : Nat) :
    Gen (List Row) := do
  let payment_id := generate_payment_id payment_num
  let payment_origin ← generate_payment_origin
  let payment_date := generate_payment_date ctx.today
  let alt ← generate_payment_alternate_date ctx.today
  let processor ← Gen.choice ctx.payment_processors
  let amount ← generate_payment_amount ctx.min_amount ctx.max_amount
  let note ← generate_payment_note
  let attrs ← gen_payment_attrs ctx.today ctx.custom_attributes []
  let selected ← select_invoices ctx.multi ctx.invoice_choices
  pure (selected.map (fun invoice_id =>
    row_update [
      ("payment_id", .s payment_id),
      ("payment_origin", .s payment_origin),
      ("payment_date", .s payment_date),
      ("payment_alternate_date", .s alt),
      ("payment_processor", .s processor),
      ("payment_amount", .q amount),
      ("payment_invoice_id", .s invoice_id),
      ("payment_note", .s note)] attrs))

/-- The main payment loop. -/
def payments_loop (ctx : PaymentCtx) : Nat → Nat → Gen (List Row)
  | _, 0 => pure []
  | num, k + 1 => do
      let block ← gen_one_payment ctx num
      let rest ← payments_loop ctx (num + 1) k
      pure (block ++ rest)

/-- `generate_payment_rows(...)`: derive the invoice choices (raising
`ValueError` when none), default the processors and attributes, then run
the main loop from `payment_num = 1`. -/
def generate_payment_rows (today : Int) (payment_count : Nat)
    (invoice_csv_ids : Option (List String))
    (invoice_ids : Option (List String))
    (custom_attributes : Option (List Attr))
    (multi_invoice_enabled : Bool)
    (min_amount max_amount : PyFloat)
    (payment_processors : Option (List String)) : Gen (List Row) := do
  let invoice_choices := get_invoice_choices invoice_csv_ids invoice_ids
  if invoice_choices = [] then
    Gen.raiseErr "No invoice IDs available for payment generation."
  else
    let processors :=
      match payment_processors with
      | some (p :: ps) => p :: ps
      | _ => ["Cash"]
    payments_loop
      { today := today
        invoice_choices := invoice_choices
        custom_attributes := custom_attributes.getD []
        multi := multi_invoice_enabled
        min_amount := min_amount
        max_amount := max_amount
        payment_processors := processors }
      1 payment_count

/-! ## Decimal digit facts (shared by the identifier and JSON proofs) -/

/-- The numeric value read back from a digit run, most significant
first. -/
def digitsVal (cs : List Char) : Nat :=
  cs.foldl (fun a c => a * 10 + (c.toNat - '0'.toNat)) 0

/-! ### Which messages the random primitives can raise -/

/-- The only exception messages the `random` primitives themselves can
raise. -/
def prim_msgs : List String :=
  ["ValueError: empty range in randrange",
   "IndexError: list index out of range",
   "ValueError: Sample larger than population or is negative"]

/-- Every error a computation can raise carries one of the primitives'
messages (so it is not one of the generators' own `ValueError`s). -/
def GenErrIn {α : Type} (m : Gen α) : Prop :=
  ∀ s e, m s = .error e → e ∈ prim_msgs

/-! ## Account id generation (`account_csv_generator.py`) -/

/-- `generate_account_id()`: `randint(10000, 99999)` plus a
`CUS`/`SUP` suffix. -/
def generate_account_id : Gen String := do
  let number ← Gen.randint 10000 99999
  let suffix ← Gen.choice ["CUS", "SUP"]
  pure ("CSV-ACC-" ++ intToStr number ++ "-" ++ suffix)

/-- The `while True` generate-and-retry loop of `generate_account_data`
(lines 951-957), with explicit fuel standing in for the unbounded loop:
`none` means the loop did not terminate within `fuel` iterations. -/
def account_id_retry (used : List String) : Nat → Gen (Option String)
  | 0 => pure none
  | fuel + 1 => do
      let id ← generate_account_id
      if id ∈ used then account_id_retry used fuel
      else pure (some id)

/-- The id-generation slice of `generate_account_data`'s row loop: one
fresh id per row, each added to `used_account_ids`. -/
def account_ids_loop (fuel : Nat) : List String → Nat →
    Gen (Option (List String))
  | _, 0 => pure (some [])
  | used, k + 1 => do
      let r ← account_id_retry used fuel
      match r with
      | none => pure none
      | some id => do
          let rest ← account_ids_loop fuel (id :: used) k
          match rest with
          | none => pure none
          | some ids => pure (some (id :: ids))

/-! ## The account generator's date-attribute branch -/

/-- The `date` branch of `generate_account_data`'s custom-attribute
loop (lines 1188-1200): a random date in the current year — the current
month when `num_rows ≤ 30` or the month is January, otherwise a
uniformly drawn month from January through the current month — with a
uniformly drawn valid day. -/
def account_date_attr_value (num_rows : Nat) (ty tm : Int) :
    Gen String := do
  let month ← (if num_rows ≤ 30 ∨ tm = 1 then pure tm
               else Gen.randint 1 tm)
  let day ← Gen.randint 1 (daysInMonth ty month)
  pure (isoDate ty month day)

/-! ## JSON config round-trip (`save_generation_config` /
`load_generation_config`)

`json.dump` / `json.load` on a generation-config mapping.  Numbers are
modelled by their serialized decimal form: an integer, or a float
`m × 10^-(e+1)` — `repr` of a finite Python float always prints a
shortest decimal that reparses to the same float, with at least one
fractional digit (`repr(10.0) = "10.0"`), so distinct floats have
distinct decimal forms and the dump/load identity on floats is exactly
the identity on these decimals.  (The exponent notation `repr` uses
below `1e-4` / above `1e16` is outside the range config values — tax
rates, amounts, counts — take.)  `json.dump(..., indent=2)` only
inserts inter-token whitespace, which `json.load` skips; the renderer
here is the compact form and the parser skips whitespace wherever the
Python parser does.  `ensure_ascii` affects only how `dump` writes
non-ASCII characters (`\uXXXX` vs raw); `json.load` accepts either
spelling, so rendering code points raw preserves the round-trip
property being checked. -/

/-- A JSON value.  `f m e` is the float whose serialized decimal form
is `m × 10^-(e+1)`: `e + 1` fractional digits, at least one, as
`repr` prints every finite non-integer-notated float. -/
inductive Json where
  | null
  | b (v : Bool)
  | i (v : Int)
  | f (m : Int) (e : Nat)
  | s (v : String)
  | arr (vs : List Json)
  | obj (kvs : List (String × Json))
deriving Repr

/-- The short escapes of `json.dump`'s `ESCAPE_DCT` (the characters it
must quote; other code points are rendered raw, a spelling `json.load`
accepts just as it accepts `\uXXXX`). -/
def escapeChar (c : Char) : List Char :=
  if c = '"' then ['\\', '"']
  else if c = '\\' then ['\\', '\\']
  else if c = '\n' then ['\\', 'n']
  else if c = '\t' then ['\\', 't']
  else if c = '\r' then ['\\', 'r']
  else if c = '\x08' then ['\\', 'b']
  else if c = '\x0C' then ['\\', 'f']
  else [c]

def escapeString : List Char → List Char
  | [] => []
  | c :: cs => escapeChar c ++ escapeString cs

/-- A rendered JSON string literal. -/
def renderString (s : String) : List Char :=
  '"' :: (escapeString s.data ++ ['"'])

/-- The `e + 1` fractional digits of a float's decimal form,
zero-padded on the left to full width. -/
def fracDigits (b e : Nat) : List Char :=
  List.replicate ((e + 1) - (natDigits b).length) '0' ++ natDigits b

/-- The serialized decimal form of the float `m × 10^-(e+1)`: sign,
integer digits, `'.'`, `e + 1` fractional digits — what `repr` prints
and `json.dump` writes. -/
def renderFloat (m : Int) (e : Nat) : List Char :=
  (if m < 0 then ['-'] else []) ++
    (natDigits (m.natAbs / 10 ^ (e + 1)) ++
      ('.' :: fracDigits (m.natAbs % 10 ^ (e + 1)) e))

mutual
/-- `json.dumps` (compact form). -/
def renderJson : Json → List Char
  | .null => ['n', 'u', 'l', 'l']
  | .b true => ['t', 'r', 'u', 'e']
  | .b false => ['f', 'a', 'l', 's', 'e']
  | .i v => (intToStr v).data
  | .f m e => renderFloat m e
  | .s v => renderString v
  | .arr vs => '[' :: (renderArr vs ++ [']'])
  | .obj kvs => '{' :: (renderObj kvs ++ ['}'])

/-- Comma-separated array elements. -/
def renderArr : List Json → List Char
  | [] => []
  | [v] => renderJson v
  | v :: vs => renderJson v ++ (',' :: renderArr vs)

/-- Comma-separated `"key": value` members. -/
def renderObj : List (String × Json) → List Char
  | [] => []
  | [(k, v)] => renderString k ++ (':' :: renderJson v)
  | (k, v) :: kvs =>
      renderString k ++ (':' :: renderJson v) ++ (',' :: renderObj kvs)
end

/-- JSON insignificant whitespace. -/
def isWs (c : Char) : Bool :=
  if c = ' ' ∨ c = '\n' ∨ c = '\t' ∨ c = '\r' then true else false

def skipWs : List Char → List Char
  | [] => []
  | c :: cs => if isWs c then skipWs cs else c :: cs

def isDigitChar (c : Char) : Bool :=
  if 48 ≤ c.toNat ∧ c.toNat ≤ 57 then true else false

/-- Leading digit run and remainder. -/
def takeDigits : List Char → List Char × List Char
  | [] => ([], [])
  | c :: cs =>
      if isDigitChar c then
        let p := takeDigits cs
        (c :: p.1, p.2)
      else ([], c :: cs)

/-- Consume an expected literal. -/
def dropPrefix : List Char → List Char → Option (List Char)
  | [], cs => some cs
  | _ :: _, [] => none
  | p :: ps, c :: cs => if c = p then dropPrefix ps cs else none

/-- Decode one escape code. -/
def escDecode (c : Char) : Option Char :=
  if c = '"' then some '"'
  else if c = '\\' then some '\\'
  else if c = 'n' then some '\n'
  else if c = 't' then some '\t'
  else if c = 'r' then some '\r'
  else if c = 'b' then some '\x08'
  else if c = 'f' then some '\x0C'
  else none

/-- Parse a string body (after the opening quote) up to the closing
quote. -/
def parseStringBody : Nat → List Char → Option (List Char × List Char)
  | 0, _ => none
  | fuel + 1, cs =>
      match cs with
      | [] => none
      | c :: rest =>
          if c = '"' then some ([], rest)
          else if c = '\\' then
            match rest with
            | [] => none
            | e :: rest2 =>
                match escDecode e with
                | none => none
                | some d =>
                    match parseStringBody fuel rest2 with
                    | none => none
                    | some (b, r) => some (d :: b, r)
          else
            match parseStringBody fuel rest with
            | none => none
            | some (b, r) => some (c :: b, r)

/-- Negate a parsed number (the leading `'-'` of a JSON number). -/
def negNum : Json → Json
  | .i v => .i (-v)
  | .f m e => .f (-m) e
  | v => v

/-- Parse an unsigned JSON number: a digit run, optionally followed by
`'.'` and a fractional digit run (then a float). -/
def parseUNum (cs : List Char) : Option (Json × List Char) :=
  let p := takeDigits cs
  if p.1 = [] then none
  else
    match p.2 with
    | [] => some (.i (digitsVal p.1 : Int), [])
    | c2 :: cs2 =>
        if c2 = '.' then
          let q := takeDigits cs2
          if q.1 = [] then none
          else some (.f ((digitsVal p.1 * 10 ^ q.1.length
              + digitsVal q.1 : Nat) : Int) (q.1.length - 1), q.2)
        else some (.i (digitsVal p.1 : Int), c2 :: cs2)

/-- Parse a JSON number (integer or decimal float). -/
def parseNum (cs : List Char) : Option (Json × List Char) :=
  match cs with
  | [] => none
  | c :: rest =>
      if c = '-' then
        match parseUNum rest with
        | none => none
        | some (v, r) => some (negNum v, r)
      else parseUNum (c :: rest)

mutual
/-- `json.loads`, fueled (the fuel bounds the value's nesting-weighted
size; `load_generation_config` passes the text length). -/
def parseJson : Nat → List Char → Option (Json × List Char)
  | 0, _ => none
  | fuel + 1, cs =>
      match skipWs cs with
      | [] => none
      | c :: rest =>
          if c = 'n' then
            match dropPrefix ['u', 'l', 'l'] rest with
            | none => none
            | some r => some (.null, r)
          else if c = 't' then
            match dropPrefix ['r', 'u', 'e'] rest with
            | none => none
            | some r => some (.b true, r)
          else if c = 'f' then
            match dropPrefix ['a', 'l', 's', 'e'] rest with
            | none => none
            | some r => some (.b false, r)
          else if c = '"' then
            match parseStringBody (rest.length + 1) rest with
            | none => none
            | some (b, r) => some (.s (String.mk b), r)
          else if c = '[' then
            match skipWs rest with
            | [] => none
            | c2 :: r2 =>
                if c2 = ']' then some (.arr [], r2)
                else
                  match parseArrElems fuel rest with
                  | none => none
                  | some (vs, r3) => some (.arr vs, r3)
          else if c = '{' then
            match skipWs rest with
            | [] => none
            | c2 :: r2 =>
                if c2 = '}' then some (.obj [], r2)
                else
                  match parseObjMembers fuel rest with
                  | none => none
                  | some (kvs, r3) => some (.obj kvs, r3)
          else parseNum (c :: rest)

/-- Array elements after `[`, through the closing `]`. -/
def parseArrElems : Nat → List Char → Option (List Json × List Char)
  | 0, _ => none
  | fuel + 1, cs =>
      match parseJson fuel cs with
      | none => none
      | some (v, r) =>
          match skipWs r with
          | [] => none
          | c :: r2 =>
              if c = ',' then
                match parseArrElems fuel r2 with
                | none => none
                | some (vs, r3) => some (v :: vs, r3)
              else if c = ']' then some ([v], r2)
              else none

/-- Object members after `{`, through the closing `}`. -/
def parseObjMembers : Nat → List Char →
    Option (List (String × Json) × List Char)
  | 0, _ => none
  | fuel + 1, cs =>
      match skipWs cs with
      | [] => none
      | c :: r =>
          if c = '"' then
            match parseStringBody (r.length + 1) r with
            | none => none
            | some (k, r2) =>
                match skipWs r2 with
                | [] => none
                | c2 :: r3 =>
                    if c2 = ':' then
                      match parseJson fuel r3 with
                      | none => none
                      | some (v, r4) =>
                          match skipWs r4 with
                          | [] => none
                          | c3 :: r5 =>
                              if c3 = ',' then
                                match parseObjMembers fuel r5 with
                                | none => none
                                | some (kvs, r6) =>
                                    some ((String.mk k, v) :: kvs, r6)
                              else if c3 = '}' then
                                some ([(String.mk k, v)], r5)
                              else none
                    else none
          else none
end

/-- `save_generation_config(path, config)`: `json.dump` the config into
the file store at `path`. -/
def save_generation_config (path : String) (config : Json)
    (store : String → Option String) : String → Option String :=
  fun p => if p = path then some (String.mk (renderJson config)) else store p

/-- `load_generation_config(path)`: read the file store at `path`
(`none` = missing file, the propagated `OSError`) and `json.load` it,
rejecting trailing non-whitespace. -/
def load_generation_config (path : String)
    (store : String → Option String) : Option Json :=
  match store path with
  | none => none
  | some text =>
      match parseJson (text.data.length + 1) text.data with
      | none => none
      | some (v, r) => if skipWs r = [] then some v else none

/-- Head-of-remainder guard for a maximal-munch digit run. -/
def headNotDigit : List Char → Bool
  | [] => true
  | c :: _ => !isDigitChar c

/-- Head-of-remainder guard for a whole number token: the next
character may neither extend a digit run nor start a fraction. -/
def numBoundary : List Char → Bool
  | [] => true
  | c :: _ => if isDigitChar c = true ∨ c = '.' then false else true

theorem Row.getk_setk_self (r : Row) (k : String) (v : PyVal) :
    (Row.setk r k v).getk k = some v := by
  induction r with
  | nil => simp [Row.setk, Row.getk]
  | cons hd t ih =>
      obtain ⟨k0, v0⟩ := hd
      by_cases hk : k0 = k
      · simp [Row.setk, Row.getk, hk]
      · simp [Row.setk, Row.getk, hk, ih]

theorem Row.getk_setk_ne (r : Row) {k k' : String} (v : PyVal) (h : k' ≠ k) :
    (Row.setk r k' v).getk k = r.getk k := by
  induction r with
  | nil => simp [Row.setk, Row.getk, h]
  | cons hd t ih =>
      obtain ⟨k0, v0⟩ := hd
      by_cases hk : k0 = k'
      · subst hk
        simp [Row.setk, Row.getk, h]
      · have hset : Row.setk ((k0, v0) :: t) k' v = (k0, v0) :: Row.setk t k' v := by
          simp [Row.setk, hk]
        rw [hset]
        simp only [Row.getk]
        rw [ih]

theorem Row.mem_keys_setk (r : Row) (k k' : String) (v : PyVal) :
    k ∈ (Row.setk r k' v).keys ↔ k ∈ r.keys ∨ k = k' := by
  induction r with
  | nil => simp [Row.setk, Row.keys, eq_comm]
  | cons hd t ih =>
      obtain ⟨k0, v0⟩ := hd
      by_cases hk : k0 = k'
      · subst hk
        have hset : Row.setk ((k0, v0) :: t) k0 v = (k0, v) :: t := by
          simp [Row.setk]
        rw [hset]
        simp only [Row.keys, List.map_cons, List.mem_cons]
        tauto
      · have hset : Row.setk ((k0, v0) :: t) k' v = (k0, v0) :: Row.setk t k' v := by
          simp [Row.setk, hk]
        rw [hset]
        simp only [Row.keys, List.map_cons, List.mem_cons]
        have ih' : k ∈ Row.keys (Row.setk t k' v) ↔ k ∈ Row.keys t ∨ k = k' := ih
        simp only [Row.keys] at ih'
        rw [ih']
        tauto

theorem GenSat.pure_intro {α : Type} {P : α → Prop} {a : α} (h : P a) :
    GenSat (pure a : Gen α) P := by
  intro s b s' hb
  cases hb
  exact h

theorem GenSat.bind_intro {α β : Type} {m : Gen α} {f : α → Gen β}
    {Q : α → Prop} {P : β → Prop}
    (hm : GenSat m Q) (hf : ∀ a, Q a → GenSat (f a) P) :
    GenSat (m >>= f) P := by
  intro s b s' hb
  show P b
  have hb' : (Bind.bind m f) s = .ok (b, s') := hb
  unfold Bind.bind instMonadGen at hb'
  simp only at hb'
  cases hma : m s with
  | error e => rw [hma] at hb'; cases hb'
  | ok v =>
      rw [hma] at hb'
      exact hf v.1 (hm s v.1 v.2 hma) v.2 b s' hb'

/-- `GenSat.bind_intro` with the intermediate postcondition explicit,
for `refine`-style proofs. -/
theorem GenSat.bind_post {α β : Type} (Q : α → Prop) {m : Gen α}
    {f : α → Gen β} {P : β → Prop}
    (hm : GenSat m Q) (hf : ∀ a, Q a → GenSat (f a) P) :
    GenSat (m >>= f) P :=
  GenSat.bind_intro hm hf

theorem GenSat.bind_any {α β : Type} {m : Gen α} {f : α → Gen β}
    {P : β → Prop} (hf : ∀ a, GenSat (f a) P) :
    GenSat (m >>= f) P :=
  GenSat.bind_post (fun _ => True) (fun _ _ _ _ => trivial)
    (fun a _ => hf a)

theorem GenSat.mono {α : Type} {m : Gen α} {P Q : α → Prop}
    (hm : GenSat m P) (h : ∀ a, P a → Q a) : GenSat m Q :=
  fun s a s' hr => h a (hm s a s' hr)

theorem GenSat.draw_intro : GenSat Gen.draw (fun _ => True) :=
  fun _ _ _ _ => trivial

theorem GenSat.randint_intro {a b : Int} (hab : a ≤ b) :
    GenSat (Gen.randint a b) (fun x => a ≤ x ∧ x ≤ b) := by
  intro s x s' hx
  unfold Gen.randint at hx
  rw [if_pos hab] at hx
  have hx' : (Gen.draw >>= fun n => pure (a + (n : Int) % (b - a + 1))) s
      = .ok (x, s') := hx
  unfold Bind.bind Pure.pure instMonadGen Gen.draw at hx'
  simp only at hx'
  cases hx'
  constructor
  · have := Int.emod_nonneg ((s.headD 0 : Nat) : Int)
      (by omega : (b - a + 1) ≠ 0)
    omega
  · have := Int.emod_lt_of_pos ((s.headD 0 : Nat) : Int)
      (by omega : (0 : Int) < b - a + 1)
    omega

theorem GenSat.choice_intro {α : Type} (l : List α) :
    GenSat (Gen.choice l) (fun x => x ∈ l) := by
  intro s x s' hx
  unfold Gen.choice at hx
  have hx' : (Gen.draw >>= fun n =>
      match l.get? (n % l.length) with
      | some x => pure x
      | none => Gen.raiseErr "IndexError: list index out of range") s
      = .ok (x, s') := hx
  unfold Bind.bind Pure.pure instMonadGen Gen.draw Gen.raiseErr at hx'
  simp only at hx'
  cases hg : l.get? (s.headD 0 % l.length) with
  | none => rw [hg] at hx'; cases hx'
  | some y =>
      rw [hg] at hx'
      cases hx'
      exact List.get?_mem hg

theorem GenSat.raise_intro {α : Type} {P : α → Prop} (msg : String) :
    GenSat (Gen.raiseErr msg) P := by
  intro s a s' h
  cases h

theorem GenSat.and_intro {α : Type} {m : Gen α} {P Q : α → Prop}
    (hp : GenSat m P) (hq : GenSat m Q) : GenSat m (fun a => P a ∧ Q a) :=
  fun s a s' h => ⟨hp s a s' h, hq s a s' h⟩

/-- An element looked up by index is a member. -/
theorem mem_of_eraseIdx {α : Type} :
    ∀ (l : List α) (i : Nat) (x : α), x ∈ l.eraseIdx i → x ∈ l
  | [], _, _, h => by cases h
  | _ :: _, 0, _, h => List.mem_cons_of_mem _ h
  | a :: t, i + 1, x, h => by
      rcases List.mem_cons.mp h with h | h
      · exact h ▸ List.mem_cons_self a t
      · exact List.mem_cons_of_mem a (mem_of_eraseIdx t i x h)

theorem not_mem_eraseIdx_of_nodup {α : Type} :
    ∀ (l : List α) (i : Nat) (x : α), l.Nodup → l.get? i = some x →
      x ∉ l.eraseIdx i
  | [], _, _, _, hg => by cases hg
  | a :: t, 0, x, hnd, hg => by
      cases hg
      simpa using (List.nodup_cons.mp hnd).1
  | a :: t, i + 1, x, hnd, hg => by
      have hx : x ∈ t := List.get?_mem hg
      have hnd' := List.nodup_cons.mp hnd
      intro hmem
      rcases List.mem_cons.mp hmem with h | h
      · exact hnd'.1 (h ▸ hx)
      · exact not_mem_eraseIdx_of_nodup t i x hnd'.2 hg h

theorem nodup_eraseIdx {α : Type} :
    ∀ (l : List α) (i : Nat), l.Nodup → (l.eraseIdx i).Nodup
  | [], _, _ => List.nodup_nil
  | _ :: t, 0, hnd => (List.nodup_cons.mp hnd).2
  | a :: t, i + 1, hnd => by
      have hnd' := List.nodup_cons.mp hnd
      exact List.nodup_cons.mpr
        ⟨fun h => hnd'.1 (mem_of_eraseIdx t i a h),
         nodup_eraseIdx t i hnd'.2⟩

theorem GenSat.sampleAux_intro {α : Type} :
    ∀ (k : Nat) (l : List α), l.Nodup →
      GenSat (Gen.sampleAux l k)
        (fun r => r.length = k ∧ r.Nodup ∧ ∀ x ∈ r, x ∈ l)
  | 0, l, _ => GenSat.pure_intro (by simp)
  | k + 1, l, hnd => by
      unfold Gen.sampleAux
      refine GenSat.bind_any (fun n => ?_)
      cases hg : l.get? (n % l.length) with
      | none => exact GenSat.raise_intro _
      | some x =>
          refine GenSat.bind_intro
            (GenSat.sampleAux_intro k (l.eraseIdx (n % l.length))
              (nodup_eraseIdx l _ hnd)) (fun rest hrest => ?_)
          refine GenSat.pure_intro ?_
          refine ⟨by simp [hrest.1], ?_, ?_⟩
          · exact List.nodup_cons.mpr
              ⟨fun hmem => not_mem_eraseIdx_of_nodup l _ x hnd hg
                  (hrest.2.2 x hmem),
               hrest.2.1⟩
          · intro y hy
            rcases List.mem_cons.mp hy with h | h
            · exact h ▸ List.get?_mem hg
            · exact mem_of_eraseIdx _ _ _ (hrest.2.2 y h)

theorem GenSat.sample_intro {α : Type} (l : List α) (k : Nat)
    (hnd : l.Nodup) :
    GenSat (Gen.sample l k)
      (fun r => r.length = k ∧ r.Nodup ∧ ∀ x ∈ r, x ∈ l) := by
  unfold Gen.sample
  by_cases hk : k ≤ l.length
  · rw [if_pos hk]; exact GenSat.sampleAux_intro k l hnd
  · rw [if_neg hk]; exact GenSat.raise_intro _

/-! ### Totality and failure composition -/

theorem GenTotal.pure_tot {α : Type} (a : α) : GenTotal (pure a : Gen α) :=
  fun s => ⟨a, s, rfl⟩

theorem GenTotal.bind_sat {α β : Type} {m : Gen α} {f : α → Gen β}
    {Q : α → Prop} (hm : GenTotal m) (hq : GenSat m Q)
    (hf : ∀ a, Q a → GenTotal (f a)) : GenTotal (m >>= f) := by
  intro s
  obtain ⟨a, s', ha⟩ := hm s
  obtain ⟨b, s'', hb⟩ := hf a (hq s a s' ha) s'
  refine ⟨b, s'', ?_⟩
  show (Bind.bind m f) s = .ok (b, s'')
  unfold Bind.bind instMonadGen
  simp only
  rw [ha]
  exact hb

theorem GenTotal.bind_tot {α β : Type} {m : Gen α} {f : α → Gen β}
    (hm : GenTotal m) (hf : ∀ a, GenTotal (f a)) : GenTotal (m >>= f) :=
  GenTotal.bind_sat hm (fun _ _ _ _ => trivial) (fun a _ => hf a)

theorem GenTotal.draw_tot : GenTotal Gen.draw :=
  fun s => ⟨s.headD 0, s.tail, rfl⟩

theorem GenTotal.randint_tot {a b : Int} (hab : a ≤ b) :
    GenTotal (Gen.randint a b) := by
  unfold Gen.randint
  rw [if_pos hab]
  exact GenTotal.bind_tot GenTotal.draw_tot (fun n => GenTotal.pure_tot _)

theorem GenTotal.randomFloat_tot : GenTotal Gen.randomFloat :=
  GenTotal.bind_tot GenTotal.draw_tot (fun n => GenTotal.pure_tot _)

theorem GenTotal.uniform_tot (a b : PyFloat) : GenTotal (Gen.uniform a b) :=
  GenTotal.bind_tot GenTotal.randomFloat_tot (fun n => GenTotal.pure_tot _)

theorem GenTotal.choice_tot {α : Type} {l : List α} (hl : l ≠ []) :
    GenTotal (Gen.choice l) := by
  refine GenTotal.bind_tot GenTotal.draw_tot (fun n => ?_)
  cases hg : l.get? (n % l.length) with
  | some x => exact GenTotal.pure_tot x
  | none =>
      exfalso
      rw [List.get?_eq_none] at hg
      have hpos : 0 < l.length := List.length_pos.mpr hl
      exact absurd hg (by push_neg; exact Nat.mod_lt _ hpos)

theorem GenTotal.sampleAux_tot {α : Type} :
    ∀ (k : Nat) (l : List α), k ≤ l.length → GenTotal (Gen.sampleAux l k)
  | 0, l, _ => GenTotal.pure_tot []
  | k + 1, l, hk => by
      unfold Gen.sampleAux
      refine GenTotal.bind_tot GenTotal.draw_tot (fun n => ?_)
      have hpos : 0 < l.length := by omega
      cases hg : l.get? (n % l.length) with
      | none =>
          exfalso
          rw [List.get?_eq_none] at hg
          exact absurd hg (by push_neg; exact Nat.mod_lt _ hpos)
      | some x =>
          refine GenTotal.bind_tot
            (GenTotal.sampleAux_tot k (l.eraseIdx (n % l.length)) ?_)
            (fun rest => GenTotal.pure_tot _)
          have := List.length_eraseIdx (l := l) (i := n % l.length)
          rw [this]
          simp only [if_pos (Nat.mod_lt _ hpos)]
          omega

theorem GenTotal.sample_tot {α : Type} {l : List α} {k : Nat}
    (hk : k ≤ l.length) : GenTotal (Gen.sample l k) := by
  unfold Gen.sample
  rw [if_pos hk]
  exact GenTotal.sampleAux_tot k l hk

theorem GenFails.raise_fail (msg : String) {α : Type} :
    GenFails (Gen.raiseErr msg : Gen α) msg :=
  fun _ => rfl

theorem GenFails.bind_total {α β : Type} {m : Gen α} {f : α → Gen β}
    {msg : String} (hm : GenTotal m) (hf : ∀ a, GenFails (f a) msg) :
    GenFails (m >>= f) msg := by
  intro s
  obtain ⟨a, s', ha⟩ := hm s
  show (Bind.bind m f) s = .error msg
  unfold Bind.bind instMonadGen
  simp only
  rw [ha]
  exact hf a s'

theorem GenAvoids.of_total {α : Type} {m : Gen α} (h : GenTotal m)
    (msg : String) : GenAvoids m msg := by
  intro s hc
  obtain ⟨a, s', ha⟩ := h s
  rw [ha] at hc
  cases hc

theorem GenAvoids.pure_av {α : Type} (a : α) (msg : String) :
    GenAvoids (pure a : Gen α) msg :=
  fun _ hc => by cases hc

theorem GenAvoids.raise_av {α : Type} {m1 m2 : String} (h : m1 ≠ m2) :
    GenAvoids (Gen.raiseErr m1 : Gen α) m2 :=
  fun _ hc => h (by cases hc; rfl)

theorem GenAvoids.bind_av {α β : Type} {m : Gen α} {f : α → Gen β}
    {msg : String} (hm : GenAvoids m msg) (hf : ∀ a, GenAvoids (f a) msg) :
    GenAvoids (m >>= f) msg := by
  intro s hc
  have hc' : (Bind.bind m f) s = .error msg := hc
  unfold Bind.bind instMonadGen at hc'
  simp only at hc'
  cases hma : m s with
  | error e =>
      rw [hma] at hc'
      cases hc'
      exact hm s hma
  | ok v =>
      rw [hma] at hc'
      exact hf v.1 v.2 hc'

/-! ### Pure facts about rows and the blanking pass -/

theorem Row.getk_isSome_of_mem_keys {r : Row} {k : String}
    (h : k ∈ r.keys) : ∃ v, r.getk k = some v := by
  induction r with
  | nil => cases h
  | cons hd t ih =>
      obtain ⟨k0, v0⟩ := hd
      by_cases hk : k0 = k
      · exact ⟨v0, by simp [Row.getk, hk]⟩
      · simp only [Row.keys, List.map_cons, List.mem_cons] at h
        have h' : k ∈ Row.keys t := by
          rcases h with h1 | h1
          · exact absurd h1.symm hk
          · exact h1
        obtain ⟨v, hv⟩ := ih h'
        exact ⟨v, by simp [Row.getk, hk, hv]⟩

theorem blank_parent_fields_keys (r : Row) :
    (blank_parent_fields r).keys = r.keys := by
  unfold blank_parent_fields Row.keys
  rw [List.map_map]
  congr 1
  funext kv
  by_cases h : invoice_parent_exempt kv.1 <;> simp [h]

theorem blank_parent_fields_getk (r : Row) (k : String) :
    (blank_parent_fields r).getk k =
      (r.getk k).map
        (fun v => if invoice_parent_exempt k then v else PyVal.s "") := by
  induction r with
  | nil => simp [blank_parent_fields, Row.getk]
  | cons hd t ih =>
      obtain ⟨k0, v0⟩ := hd
      have hmap : blank_parent_fields ((k0, v0) :: t)
          = (if invoice_parent_exempt k0 then (k0, v0) else (k0, PyVal.s ""))
              :: blank_parent_fields t := by
        simp [blank_parent_fields]
      rw [hmap]
      by_cases he : invoice_parent_exempt k0 = true
      · rw [if_pos he]
        by_cases hk : k0 = k
        · subst hk; simp [Row.getk, he]
        · simp [Row.getk, hk, ih]
      · rw [if_neg he]
        have he' : invoice_parent_exempt k0 = false := by
          simpa using he
        by_cases hk : k0 = k
        · subst hk; simp [Row.getk, he']
        · simp [Row.getk, hk, ih]

/-- After the blanking pass, every present non-exempt column is `""`. -/
theorem blank_parent_fields_blanks (r : Row) (k : String)
    (hmem : k ∈ (blank_parent_fields r).keys)
    (hex : invoice_parent_exempt k = false) :
    (blank_parent_fields r).getk k = some (PyVal.s "") := by
  rw [blank_parent_fields_keys] at hmem
  obtain ⟨v, hv⟩ := Row.getk_isSome_of_mem_keys hmem
  rw [blank_parent_fields_getk, hv]
  simp [hex]

/-- A string with prefix `p` is distinct from any string without it. -/
theorem ne_of_pre {a k p : String}
    (ha : strHasPre p a = true) (hk : strHasPre p k = false) : a ≠ k := by
  intro h
  rw [h] at ha
  rw [ha] at hk
  cases hk

theorem preserves_parent_rfl (t : Row) : preserves_parent t t :=
  fun _ _ _ => rfl

theorem preserves_parent.setk_line {t r : Row} (h : preserves_parent t r)
    {key : String} (hkey : strHasPre "invoice_line_item_" key = true)
    (v : PyVal) : preserves_parent t (Row.setk r key v) := by
  intro k h1 h2
  rw [Row.getk_setk_ne _ _ (ne_of_pre hkey h1)]
  exact h k h1 h2

theorem preserves_parent.setk_ca {t r : Row} (h : preserves_parent t r)
    {key : String} (hkey : strHasPre "ca_" key = true)
    (v : PyVal) : preserves_parent t (Row.setk r key v) := by
  intro k h1 h2
  rw [Row.getk_setk_ne _ _ (ne_of_pre hkey h2)]
  exact h k h1 h2

/-- Applying attributes only touches the attributes' own columns. -/
theorem apply_attrs_getk (today : Int) :
    ∀ (attrs : List Attr) (r : Row),
      GenSat (apply_attrs today attrs r)
        (fun r' => ∀ k : String, (∀ a ∈ attrs, a.column_name ≠ k) →
          r'.getk k = r.getk k)
  | [], _ => GenSat.pure_intro (fun _ _ => rfl)
  | attr :: rest, r => by
      unfold apply_attrs
      refine GenSat.bind_any (fun v => ?_)
      refine GenSat.mono
        (apply_attrs_getk today rest (Row.setk r attr.column_name v)) ?_
      intro r' h k hk
      rw [h k (fun a ha => hk a (List.mem_cons_of_mem _ ha)),
        Row.getk_setk_ne _ _ (hk attr (List.mem_cons_self _ _))]

/-- Applying `ca_`-prefixed attributes preserves parent columns. -/
theorem apply_attrs_preserves (today : Int) {attrs : List Attr}
    (hca : ∀ a ∈ attrs, strHasPre "ca_" a.column_name = true)
    {t r : Row} (h : preserves_parent t r) :
    GenSat (apply_attrs today attrs r) (preserves_parent t) := by
  refine GenSat.mono (apply_attrs_getk today attrs r) ?_
  intro r' hg k h1 h2
  rw [hg k (fun a ha => ne_of_pre (hca a ha) h2)]
  exact h k h1 h2

/-- The parent template of one invoice carries its identifier, its
account, the form-template parameter and the index-stamped origin. -/
theorem build_invoice_template_sat (ctx : InvoiceCtx) (idx : Nat) :
    GenSat (build_invoice_template ctx idx) (fun t =>
      (∃ iv, t.getk "invoice_id" = some (.s iv)) ∧
      (∃ av, t.getk "invoice_account_id" = some (.s av)) ∧
      t.getk "invoice_custom_form_template"
        = some (.s ctx.custom_form_template) ∧
      t.getk "invoice_origin"
        = some (.s ("CSV IMPORT - " ++ natToStr (idx + 1)))) := by
  unfold build_invoice_template
  refine GenSat.bind_any (fun ac => ?_)
  refine GenSat.bind_any (fun issue => ?_)
  refine GenSat.bind_any (fun due => ?_)
  refine GenSat.bind_any (fun inv_id => ?_)
  refine GenSat.bind_any (fun note => ?_)
  refine GenSat.bind_any (fun q => ?_)
  refine GenSat.pure_intro ?_
  by_cases hq : pyLt q ⟨3, 10⟩ = true
  · rw [if_pos hq]
    refine ⟨⟨inv_id, ?_⟩, ⟨ac.1, ?_⟩, ?_, ?_⟩ <;>
      · rw [Row.getk_setk_ne _ _ (by decide)]
        simp [Row.getk]
  · rw [if_neg hq]
    exact ⟨⟨inv_id, by simp [Row.getk]⟩, ⟨ac.1, by simp [Row.getk]⟩,
      by simp [Row.getk], by simp [Row.getk]⟩

/-- Blanking leaves exempt columns untouched. -/
theorem blank_getk_exempt (r : Row) (k : String)
    (he : invoice_parent_exempt k = true) :
    (blank_parent_fields r).getk k = r.getk k := by
  rw [blank_parent_fields_getk, he]
  cases r.getk k <;> simp

/-- `set_line_item_identity` only writes line-item columns. -/
theorem set_line_item_identity_pres (ctx : InvoiceCtx) {t r0 : Row}
    (h : preserves_parent t r0) (is_system : Bool) :
    GenSat (set_line_item_identity ctx r0 is_system) (preserves_parent t) := by
  unfold set_line_item_identity
  cases is_system with
  | true =>
      rw [if_pos rfl]
      refine GenSat.bind_any (fun identifier => ?_)
      exact GenSat.pure_intro
        ((h.setk_line (by decide) _).setk_line (by decide) _)
  | false =>
      rw [if_neg (by simp)]
      by_cases hl : ctx.include_line = true
      · rw [if_pos hl]
        refine GenSat.bind_any (fun nm => ?_)
        exact GenSat.pure_intro
          ((h.setk_line (by decide) _).setk_line (by decide) _)
      · rw [if_neg hl]
        exact GenSat.pure_intro h

/-- `set_flat_discount` only writes the discount column. -/
theorem set_flat_discount_pres {t r2 : Row} (h : preserves_parent t r2)
    (price : PyFloat) :
    GenSat (set_flat_discount r2 price) (preserves_parent t) := by
  unfold set_flat_discount
  refine GenSat.bind_any (fun q1 => ?_)
  by_cases hd : pyLt q1 ⟨15, 100⟩ = true
  · rw [if_pos hd]
    refine GenSat.bind_any (fun disc => ?_)
    exact GenSat.pure_intro (h.setk_line (by decide) _)
  · rw [if_neg hd]
    exact GenSat.pure_intro (h.setk_line (by decide) _)

/-- `set_tax_fields` only writes the tax columns. -/
theorem set_tax_fields_pres (ctx : InvoiceCtx) {t r3 : Row}
    (h : preserves_parent t r3) :
    GenSat (set_tax_fields ctx r3) (preserves_parent t) := by
  unfold set_tax_fields
  by_cases ht : ctx.tax_codes ≠ []
  · rw [if_pos ht]
    refine GenSat.bind_any (fun code => ?_)
    exact GenSat.pure_intro
      ((h.setk_line (by decide) _).setk_line (by decide) _)
  · rw [if_neg ht]
    exact GenSat.pure_intro
      ((h.setk_line (by decide) _).setk_line (by decide) _)

/-- One item row: blanked when `item_idx > 0`, identifier columns always
taken from the template, and (on the first row) every parent column
still reading the template's value. -/
theorem build_invoice_item_row_sat (ctx : InvoiceCtx) (template : Row)
    (item_idx : Nat)
    (hcu : ∀ a ∈ ctx.custom_attrs, strHasPre "ca_" a.column_name = true)
    (hli : ∀ a ∈ ctx.line_attrs, strHasPre "ca_" a.column_name = true) :
    GenSat (build_invoice_item_row ctx template item_idx) (fun r =>
      (0 < item_idx → item_blanked r) ∧
      r.getk "invoice_id" = template.getk "invoice_id" ∧
      r.getk "invoice_account_id" = template.getk "invoice_account_id" ∧
      (item_idx = 0 → preserves_parent template r)) := by
  unfold build_invoice_item_row
  refine GenSat.bind_any (fun is_system => ?_)
  refine GenSat.bind_post (preserves_parent template)
    (set_line_item_identity_pres ctx (preserves_parent_rfl template)
      is_system) (fun r1 hr1 => ?_)
  refine GenSat.bind_any (fun qty => ?_)
  refine GenSat.bind_any (fun price => ?_)
  refine GenSat.bind_any (fun note => ?_)
  refine GenSat.bind_any (fun acct => ?_)
  have hr2 : preserves_parent template
      (Row.setk (Row.setk (Row.setk (Row.setk r1
        "invoice_line_item_quantity" (.i qty))
        "invoice_line_item_price" (.q price))
        "invoice_line_item_invoice_note" (.s note))
        "invoice_line_item_accounting_code" (.s acct)) :=
    (((hr1.setk_line (by decide) _).setk_line (by decide) _).setk_line
      (by decide) _).setk_line (by decide) _
  refine GenSat.bind_post (preserves_parent template)
    (set_flat_discount_pres hr2 price) (fun r3 hr3 => ?_)
  refine GenSat.bind_post (preserves_parent template)
    (set_tax_fields_pres ctx hr3) (fun r4 hr4 => ?_)
  refine GenSat.bind_any (fun q2 => ?_)
  refine GenSat.bind_any (fun q3 => ?_)
  have hr6 : preserves_parent template
      (Row.setk (Row.setk r4 "invoice_line_item_tax_exempt"
        (.s (if pyLt q2 ⟨1, 10⟩ then "TRUE" else "")))
        "invoice_line_item_tax_inclusive_based_on"
        (.s (if pyLt q3 ⟨2, 10⟩ then "TRUE" else ""))) :=
    (hr4.setk_line (by decide) _).setk_line (by decide) _
  refine GenSat.bind_post (preserves_parent template)
    (apply_attrs_preserves ctx.today hli hr6) (fun r7 hr7 => ?_)
  refine GenSat.bind_post (preserves_parent template)
    (apply_attrs_preserves ctx.today hcu hr7) (fun r8 hr8 => ?_)
  refine GenSat.pure_intro ?_
  refine ⟨?_, ?_, ?_, ?_⟩
  · intro hpos
    rw [if_pos hpos]
    exact fun k hk hex => blank_parent_fields_blanks r8 k hk hex
  · by_cases hpos : 0 < item_idx
    · rw [if_pos hpos, blank_getk_exempt _ _ (by decide)]
      exact hr8 "invoice_id" (by decide) (by decide)
    · rw [if_neg hpos]
      exact hr8 "invoice_id" (by decide) (by decide)
  · by_cases hpos : 0 < item_idx
    · rw [if_pos hpos, blank_getk_exempt _ _ (by decide)]
      exact hr8 "invoice_account_id" (by decide) (by decide)
    · rw [if_neg hpos]
      exact hr8 "invoice_account_id" (by decide) (by decide)
  · intro h0
    rw [if_neg (by omega)]
    exact hr8

/-- Index-wise postcondition of the item loop. -/
theorem invoice_items_loop_sat (ctx : InvoiceCtx) (template : Row)
    (P : Nat → Row → Prop)
    (h : ∀ i, GenSat (build_invoice_item_row ctx template i) (P i)) :
    ∀ (k start : Nat),
      GenSat (invoice_items_loop ctx template start k)
        (fun rows => rows.length = k ∧
          ∀ j (hj : j < rows.length), P (start + j) (rows.get ⟨j, hj⟩))
  | 0, _ => GenSat.pure_intro (by simp)
  | k + 1, start => by
      unfold invoice_items_loop
      refine GenSat.bind_post (P start) (h start) (fun r hr => ?_)
      refine GenSat.bind_post _
        (invoice_items_loop_sat ctx template P h k (start + 1))
        (fun rest hrest => ?_)
      refine GenSat.pure_intro ?_
      refine ⟨by simp [hrest.1], ?_⟩
      intro j hj
      cases j with
      | zero => simpa using hr
      | succ j' =>
          have hj' : j' < rest.length := by
            simpa using Nat.lt_of_succ_lt_succ (by simpa using hj)
          have hp := hrest.2 j' hj'
          have harith : start + (j' + 1) = start + 1 + j' := by omega
          rw [harith]
          simpa using hp

/-- Postcondition of one full invoice (template + fan-out). -/
theorem gen_one_invoice_sat (ctx : InvoiceCtx) (idx : Nat)
    (hcu : ∀ a ∈ ctx.custom_attrs, strHasPre "ca_" a.column_name = true)
    (hli : ∀ a ∈ ctx.line_attrs, strHasPre "ca_" a.column_name = true) :
    GenSat (gen_one_invoice ctx idx) (fun block =>
      (max 1 (ctx.min_items_opt.getD 1)).toNat ≤ block.length ∧
      block.length ≤ (max (max 1 (ctx.min_items_opt.getD 1))
        (ctx.max_items_opt.getD (max 1 (ctx.min_items_opt.getD 1)))).toNat ∧
      (∃ iv av : PyVal,
        ∀ j (hj : j < block.length),
          (block.get ⟨j, hj⟩).getk "invoice_id" = some iv ∧
          (block.get ⟨j, hj⟩).getk "invoice_account_id" = some av) ∧
      (∀ j (hj : j < block.length), 0 < j → item_blanked (block.get ⟨j, hj⟩)) ∧
      (∀ h0 : 0 < block.length,
        (block.get ⟨0, h0⟩).getk "invoice_custom_form_template"
          = some (.s ctx.custom_form_template) ∧
        (block.get ⟨0, h0⟩).getk "invoice_origin"
          = some (.s ("CSV IMPORT - " ++ natToStr (idx + 1))))) := by
  unfold gen_one_invoice
  refine GenSat.bind_post _ (build_invoice_template_sat ctx idx)
    (fun template htem => ?_)
  have hmm : max 1 (ctx.min_items_opt.getD 1)
      ≤ max (max 1 (ctx.min_items_opt.getD 1))
          (ctx.max_items_opt.getD (max 1 (ctx.min_items_opt.getD 1))) :=
    le_max_left _ _
  refine GenSat.bind_post _ (GenSat.randint_intro hmm) (fun total htotal => ?_)
  refine GenSat.mono
    (invoice_items_loop_sat ctx template _
      (fun i => build_invoice_item_row_sat ctx template i hcu hli)
      total.toNat 0) ?_
  intro rows hrows
  obtain ⟨hlen, hall⟩ := hrows
  obtain ⟨⟨iv, hiv⟩, ⟨av, hav⟩, hcf, hor⟩ := htem
  have hmin1 : (1 : Int) ≤ max 1 (ctx.min_items_opt.getD 1) := le_max_left _ _
  refine ⟨?_, ?_, ?_, ?_, ?_⟩
  · rw [hlen]
    exact Int.toNat_le_toNat htotal.1
  · rw [hlen]
    exact Int.toNat_le_toNat htotal.2
  · refine ⟨.s iv, .s av, ?_⟩
    intro j hj
    have hp := hall j hj
    simp only [Nat.zero_add] at hp
    exact ⟨hp.2.1.trans hiv, hp.2.2.1.trans hav⟩
  · intro j hj hpos
    have hp := hall j hj
    simp only [Nat.zero_add] at hp
    exact hp.1 hpos
  · intro h0
    have hp := hall 0 h0
    simp only [Nat.add_zero] at hp
    have hpres := hp.2.2.2 (by trivial)
    constructor
    · rw [hpres "invoice_custom_form_template" (by decide) (by decide)]
      exact hcf
    · rw [hpres "invoice_origin" (by decide) (by decide)]
      exact hor

/-- Blockwise postcondition of the main invoice loop. -/
theorem invoice_rows_loop_sat (ctx : InvoiceCtx) (P : Nat → List Row → Prop)
    (h : ∀ idx, GenSat (gen_one_invoice ctx idx) (P idx)) :
    ∀ (k start : Nat),
      GenSat (invoice_rows_loop ctx start k)
        (fun rows => ∃ blocks : List (List Row),
          rows = blocks.flatten ∧ blocks.length = k ∧
          ∀ j (hj : j < blocks.length), P (start + j) (blocks.get ⟨j, hj⟩))
  | 0, _ => GenSat.pure_intro ⟨[], by simp⟩
  | k + 1, start => by
      unfold invoice_rows_loop
      refine GenSat.bind_post (P start) (h start) (fun block hblock => ?_)
      refine GenSat.bind_post _
        (invoice_rows_loop_sat ctx P h k (start + 1)) (fun rest hrest => ?_)
      refine GenSat.pure_intro ?_
      obtain ⟨blocks, hflat, hblen, hball⟩ := hrest
      refine ⟨block :: blocks, by simp [hflat], by simp [hblen], ?_⟩
      intro j hj
      cases j with
      | zero => simpa using hblock
      | succ j' =>
          have hj' : j' < blocks.length := by
            simpa using Nat.lt_of_succ_lt_succ (by simpa using hj)
          have hp := hball j' hj'
          have harith : start + (j' + 1) = start + 1 + j' := by omega
          rw [harith]
          simpa using hp

/-- Master postcondition of `generate_invoice_rows`: the output is a
concatenation of `invoice_count` per-invoice blocks; each block's length
is within the clamped `[min, max]` item range, its rows all share one
`invoice_id` / `invoice_account_id` pair, every row after the first is
blank outside the exempt columns, and the first row still carries the
parent template's values. -/
theorem generate_invoice_rows_sat (today : Int) (invoice_count : Nat)
    (account_ids : Option (List String)) (default_currency : String)
    (custom_form_template : String) (tax_config : Option TaxConfig)
    (custom_attributes : Option (List Attr))
    (item_config : Option ItemConfig)
    (line_item_custom_attributes : Option (List Attr))
    (hcu : ∀ a ∈ custom_attributes.getD [],
      strHasPre "ca_" a.column_name = true)
    (hli : ∀ a ∈ line_item_custom_attributes.getD [],
      strHasPre "ca_" a.column_name = true) :
    GenSat (generate_invoice_rows today invoice_count account_ids
        default_currency custom_form_template tax_config custom_attributes
        item_config line_item_custom_attributes)
      (fun rows => ∃ blocks : List (List Row),
        rows = blocks.flatten ∧ blocks.length = invoice_count ∧
        ∀ j (hj : j < blocks.length),
          (invoice_min_items item_config).toNat ≤ (blocks.get ⟨j, hj⟩).length ∧
          (blocks.get ⟨j, hj⟩).length ≤ (invoice_max_items item_config).toNat ∧
          (∃ iv av : PyVal,
            ∀ i (hi : i < (blocks.get ⟨j, hj⟩).length),
              ((blocks.get ⟨j, hj⟩).get ⟨i, hi⟩).getk "invoice_id" = some iv ∧
              ((blocks.get ⟨j, hj⟩).get ⟨i, hi⟩).getk "invoice_account_id"
                = some av) ∧
          (∀ i (hi : i < (blocks.get ⟨j, hj⟩).length), 0 < i →
            item_blanked ((blocks.get ⟨j, hj⟩).get ⟨i, hi⟩)) ∧
          (∀ h0 : 0 < (blocks.get ⟨j, hj⟩).length,
            ((blocks.get ⟨j, hj⟩).get ⟨0, h0⟩).getk
              "invoice_custom_form_template" = some (.s custom_form_template) ∧
            ((blocks.get ⟨j, hj⟩).get ⟨0, h0⟩).getk "invoice_origin"
              = some (.s ("CSV IMPORT - " ++ natToStr (j + 1))))) := by
  unfold generate_invoice_rows
  by_cases hac :
      derive_account_choices account_ids default_currency = []
  · rw [if_pos hac]
    exact GenSat.raise_intro _
  · rw [if_neg hac]
    refine GenSat.bind_any (fun sys => ?_)
    refine GenSat.mono
      (invoice_rows_loop_sat _ _
        (fun idx => gen_one_invoice_sat _ idx hcu hli) invoice_count 0) ?_
    intro rows hrows
    obtain ⟨blocks, hflat, hblen, hball⟩ := hrows
    refine ⟨blocks, hflat, hblen, ?_⟩
    intro j hj
    have hp := hball j hj
    simp only [Nat.zero_add] at hp
    exact hp

/-! ## Claim support: non-blank counting and concrete fixtures -/

theorem Row.getk_eq_none_of_not_mem {r : Row} {k : String}
    (h : k ∉ r.keys) : r.getk k = none := by
  induction r with
  | nil => rfl
  | cons hd t ih =>
      obtain ⟨k0, v0⟩ := hd
      simp only [Row.keys, List.map_cons, List.mem_cons] at h
      push_neg at h
      have hk : k0 ≠ k := fun hc => h.1 hc.symm
      simp only [Row.getk, if_neg hk]
      exact ih (by simpa [Row.keys] using h.2)

theorem count_nonblank_le_one (b : List Row) (k : String)
    (h : ∀ j (hj : j < b.length), 0 < j →
      row_nonblank (b.get ⟨j, hj⟩) k = false) :
    count_nonblank b k ≤ 1 := by
  cases b with
  | nil => simp [count_nonblank]
  | cons r rest =>
      have hrest : rest.filter (fun r => row_nonblank r k) = [] := by
        rw [List.filter_eq_nil_iff]
        intro x hx
        obtain ⟨i, hi⟩ := List.mem_iff_get.mp hx
        have h2 := h (i.1 + 1) (by simpa using Nat.succ_lt_succ i.2) (by omega)
        rw [← hi]
        simpa using h2
      unfold count_nonblank
      rw [List.filter_cons]
      by_cases hr : row_nonblank r k = true
      · simp [hr, hrest]
      · simp [hr, hrest]

/-- C1: in `generate_invoice_rows`, the output splits into one block of
rows per invoice; within a block every row carries the same
`invoice_id` / `invoice_account_id` pair, every continuation row
(index > 0) is the empty string in every present column outside the
parent identifiers and the `invoice_line_item_` / `ca_invoice_item_attr_`
prefixes, and row 0 still carries the parent template's values
(witnessed by the pinned `invoice_custom_form_template` and
`invoice_origin` columns).  The attribute-name hypotheses hold for every
attribute the script constructs (all its column names start `ca_`). -/
theorem invoice_continuation_row_shape (today : Int) (invoice_count : Nat)
    (account_ids : Option (List String)) (default_currency : String)
    (custom_form_template : String) (tax_config : Option TaxConfig)
    (custom_attributes : Option (List Attr))
    (item_config : Option ItemConfig)
    (line_item_custom_attributes : Option (List Attr))
    (hcu : ∀ a ∈ custom_attributes.getD [],
      strHasPre "ca_" a.column_name = true)
    (hli : ∀ a ∈ line_item_custom_attributes.getD [],
      strHasPre "ca_" a.column_name = true)
    (s : List Nat) (rows : List Row) (s' : List Nat)
    (hrun : generate_invoice_rows today invoice_count account_ids
        default_currency custom_form_template tax_config custom_attributes
        item_config line_item_custom_attributes s = .ok (rows, s')) :
    ∃ blocks : List (List Row),
      rows = blocks.flatten ∧ blocks.length = invoice_count ∧
      ∀ j (hj : j < blocks.length),
        0 < (blocks.get ⟨j, hj⟩).length ∧
        (∃ iv av : PyVal,
          ∀ i (hi : i < (blocks.get ⟨j, hj⟩).length),
            ((blocks.get ⟨j, hj⟩).get ⟨i, hi⟩).getk "invoice_id" = some iv ∧
            ((blocks.get ⟨j, hj⟩).get ⟨i, hi⟩).getk "invoice_account_id"
              = some av) ∧
        (∀ i (hi : i < (blocks.get ⟨j, hj⟩).length), 0 < i →
          ∀ k ∈ ((blocks.get ⟨j, hj⟩).get ⟨i, hi⟩).keys,
            invoice_parent_exempt k = false →
            ((blocks.get ⟨j, hj⟩).get ⟨i, hi⟩).getk k = some (PyVal.s "")) ∧
        (∀ h0 : 0 < (blocks.get ⟨j, hj⟩).length,
          ((blocks.get ⟨j, hj⟩).get ⟨0, h0⟩).getk
            "invoice_custom_form_template" = some (.s custom_form_template) ∧
          ((blocks.get ⟨j, hj⟩).get ⟨0, h0⟩).getk "invoice_origin"
            = some (.s ("CSV IMPORT - " ++ natToStr (j + 1)))) := by
  obtain ⟨blocks, hflat, hblen, hball⟩ :=
    generate_invoice_rows_sat today invoice_count account_ids
      default_currency custom_form_template tax_config custom_attributes
      item_config line_item_custom_attributes hcu hli s rows s' hrun
  refine ⟨blocks, hflat, hblen, ?_⟩
  intro j hj
  obtain ⟨hmin, hmax, hids, hblank, hrow0⟩ := hball j hj
  have hpos : 0 < (blocks.get ⟨j, hj⟩).length := by
    have h1 : (1 : Int) ≤ invoice_min_items item_config := le_max_left _ _
    have := Int.toNat_le_toNat h1
    omega
  exact ⟨hpos, hids, fun i hi h0 => hblank i hi h0, hrow0⟩

/-- Witness for the continuation-row-shape theorem at a concrete run:
one invoice, two line items, empty attribute lists. -/
theorem invoice_continuation_row_shape_witness :
    ∃ (rows : List Row) (s' : List Nat) (blocks : List (List Row)),
      generate_invoice_rows 20000 1 (some ["ACC1"]) "AUD" "TPL" none none
        (some demo_item_config) none demo_supply = .ok (rows, s') ∧
      rows = blocks.flatten ∧ blocks.length = 1 := by
  obtain ⟨p, hp⟩ : ∃ p, generate_invoice_rows 20000 1 (some ["ACC1"]) "AUD"
      "TPL" none none (some demo_item_config) none demo_supply
        = Except.ok p := ⟨_, rfl⟩
  obtain ⟨blocks, h1, h2, _⟩ :=
    invoice_continuation_row_shape 20000 1 (some ["ACC1"]) "AUD" "TPL"
      none none (some demo_item_config) none (by simp) (by simp)
      demo_supply p.1 p.2 (by rw [hp])
  exact ⟨p.1, p.2, blocks, by rw [hp], h1, h2⟩

/-- C2 counterexample: a concrete single-invoice run with two line items
in which the parent-level column `invoice_price_tax_inclusive` (outside
the identifier / line-item prefix sets, and present in every row) is
blank on *every* row of the group — the non-blank count is 0, not 1
(the 30% gate left the template's `""` in place). -/
theorem invoice_parent_field_count_counterexample :
    ∃ (rows : List Row) (s' : List Nat),
      generate_invoice_rows 20000 1 (some ["ACC1"]) "AUD" "TPL" none none
        (some demo_item_config) none demo_supply = .ok (rows, s') ∧
      rows.length = 2 ∧
      rows.map (fun r => r.getk "invoice_id")
        = [some (.s "CSV-INV-199999"), some (.s "CSV-INV-199999")] ∧
      invoice_parent_exempt "invoice_price_tax_inclusive" = false ∧
      (∀ r ∈ rows, "invoice_price_tax_inclusive" ∈ r.keys) ∧
      count_nonblank rows "invoice_price_tax_inclusive" = 0 := by
  refine ⟨_, _, rfl, ?_, ?_, ?_, ?_, ?_⟩ <;> decide

/-- C2 amended: for every parent group and every parent-level field
outside the identifier / line-item prefix sets, *at most* one row of the
group (necessarily the first) has a non-blank value — the count is 1
when the parent row carries a value there and 0 when it is blank. -/
theorem invoice_parent_field_nonblank_at_most_once (today : Int)
    (invoice_count : Nat) (account_ids : Option (List String))
    (default_currency : String) (custom_form_template : String)
    (tax_config : Option TaxConfig) (custom_attributes : Option (List Attr))
    (item_config : Option ItemConfig)
    (line_item_custom_attributes : Option (List Attr))
    (hcu : ∀ a ∈ custom_attributes.getD [],
      strHasPre "ca_" a.column_name = true)
    (hli : ∀ a ∈ line_item_custom_attributes.getD [],
      strHasPre "ca_" a.column_name = true)
    (s : List Nat) (rows : List Row) (s' : List Nat)
    (hrun : generate_invoice_rows today invoice_count account_ids
        default_currency custom_form_template tax_config custom_attributes
        item_config line_item_custom_attributes s = .ok (rows, s')) :
    ∃ blocks : List (List Row),
      rows = blocks.flatten ∧ blocks.length = invoice_count ∧
      ∀ b ∈ blocks, ∀ k : String, invoice_parent_exempt k = false →
        count_nonblank b k ≤ 1 := by
  obtain ⟨blocks, hflat, hblen, hball⟩ :=
    generate_invoice_rows_sat today invoice_count account_ids
      default_currency custom_form_template tax_config custom_attributes
      item_config line_item_custom_attributes hcu hli s rows s' hrun
  refine ⟨blocks, hflat, hblen, ?_⟩
  intro b hb k hex
  obtain ⟨j, hj⟩ := List.mem_iff_get.mp hb
  rw [← hj]
  refine count_nonblank_le_one _ k ?_
  intro i hi hpos
  have hbl := (hball j.1 j.2).2.2.2.1 i hi hpos
  unfold row_nonblank
  by_cases hmem : k ∈ ((blocks.get j).get ⟨i, hi⟩).keys
  · rw [hbl k hmem hex]
    simp
  · rw [Row.getk_eq_none_of_not_mem hmem]

/-- Witness for the at-most-once theorem at a concrete run. -/
theorem invoice_parent_field_nonblank_at_most_once_witness :
    ∃ (rows : List Row) (s' : List Nat) (blocks : List (List Row)),
      generate_invoice_rows 20000 1 (some ["ACC1"]) "AUD" "TPL" none none
        (some demo_item_config) none demo_supply = .ok (rows, s') ∧
      rows = blocks.flatten ∧
      ∀ b ∈ blocks, count_nonblank b "invoice_price_tax_inclusive" ≤ 1 := by
  obtain ⟨p, hp⟩ : ∃ p, generate_invoice_rows 20000 1 (some ["ACC1"]) "AUD"
      "TPL" none none (some demo_item_config) none demo_supply
        = Except.ok p := ⟨_, rfl⟩
  obtain ⟨blocks, h1, _, h3⟩ :=
    invoice_parent_field_nonblank_at_most_once 20000 1 (some ["ACC1"])
      "AUD" "TPL" none none (some demo_item_config) none (by simp) (by simp)
      demo_supply p.1 p.2 (by rw [hp])
  exact ⟨p.1, p.2, blocks, by rw [hp], h1,
    fun b hb => h3 b hb "invoice_price_tax_inclusive" (by decide)⟩

/-- C5: with both include flags false, `generate_invoice_rows` behaves
exactly as if `include_line_items` were true (the flag is forced before
the loop); the clamped minimum item count is at least 1 and the clamped
maximum at least the minimum; and on every successful run every parent's
block has between `min` and `max` rows, in particular at least one. -/
theorem invoice_force_line_items_and_clamp (today : Int)
    (invoice_count : Nat) (account_ids : Option (List String))
    (default_currency : String) (custom_form_template : String)
    (tax_config : Option TaxConfig) (custom_attributes : Option (List Attr))
    (line_item_custom_attributes : Option (List Attr))
    (si : Option (List String)) (mi ma : Option Int)
    (item_config : Option ItemConfig)
    (hcu : ∀ a ∈ custom_attributes.getD [],
      strHasPre "ca_" a.column_name = true)
    (hli : ∀ a ∈ line_item_custom_attributes.getD [],
      strHasPre "ca_" a.column_name = true) :
    (generate_invoice_rows today invoice_count account_ids default_currency
        custom_form_template tax_config custom_attributes
        (some { include_system_items := some false
                include_line_items := some false
                system_identifiers := si
                min_items_per_invoice := mi
                max_items_per_invoice := ma })
        line_item_custom_attributes
      = generate_invoice_rows today invoice_count account_ids
          default_currency custom_form_template tax_config custom_attributes
          (some { include_system_items := some false
                  include_line_items := some true
                  system_identifiers := si
                  min_items_per_invoice := mi
                  max_items_per_invoice := ma })
          line_item_custom_attributes) ∧
    1 ≤ invoice_min_items item_config ∧
    invoice_min_items item_config ≤ invoice_max_items item_config ∧
    (∀ (s : List Nat) (rows : List Row) (s' : List Nat),
      generate_invoice_rows today invoice_count account_ids default_currency
          custom_form_template tax_config custom_attributes item_config
          line_item_custom_attributes s = .ok (rows, s') →
      ∃ blocks : List (List Row),
        rows = blocks.flatten ∧ blocks.length = invoice_count ∧
        ∀ b ∈ blocks,
          (invoice_min_items item_config).toNat ≤ b.length ∧
          b.length ≤ (invoice_max_items item_config).toNat ∧ b ≠ []) := by
  refine ⟨rfl, le_max_left _ _, le_max_left _ _, ?_⟩
  intro s rows s' hrun
  obtain ⟨blocks, hflat, hblen, hball⟩ :=
    generate_invoice_rows_sat today invoice_count account_ids
      default_currency custom_form_template tax_config custom_attributes
      item_config line_item_custom_attributes hcu hli s rows s' hrun
  refine ⟨blocks, hflat, hblen, ?_⟩
  intro b hb
  obtain ⟨j, hj⟩ := List.mem_iff_get.mp hb
  have hp := hball j.1 j.2
  rw [hj] at hp
  have h1 : (1 : Int) ≤ invoice_min_items item_config := le_max_left _ _
  have := Int.toNat_le_toNat h1
  refine ⟨hp.1, hp.2.1, ?_⟩
  intro hnil
  rw [hnil] at hp
  simp at hp
  omega

/-- Witness for the force-and-clamp theorem at a concrete run. -/
theorem invoice_force_line_items_and_clamp_witness :
    1 ≤ invoice_min_items (some demo_item_config) ∧
    ∃ (rows : List Row) (s' : List Nat) (blocks : List (List Row)),
      generate_invoice_rows 20000 1 (some ["ACC1"]) "AUD" "TPL" none none
        (some demo_item_config) none demo_supply = .ok (rows, s') ∧
      rows = blocks.flatten ∧ ∀ b ∈ blocks, b ≠ [] := by
  obtain ⟨p, hp⟩ : ∃ p, generate_invoice_rows 20000 1 (some ["ACC1"]) "AUD"
      "TPL" none none (some demo_item_config) none demo_supply
        = Except.ok p := ⟨_, rfl⟩
  obtain ⟨_, hmin, _, hrunprop⟩ :=
    invoice_force_line_items_and_clamp 20000 1 (some ["ACC1"]) "AUD" "TPL"
      none none none none none none (some demo_item_config)
      (by simp) (by simp)
  obtain ⟨blocks, h1, _, h3⟩ := hrunprop demo_supply p.1 p.2 (by rw [hp])
  exact ⟨hmin, p.1, p.2, blocks, by rw [hp], h1,
    fun b hb => (h3 b hb).2.2⟩

theorem natDigitsGo_append :
    ∀ (fuel n : Nat) (acc : List Char),
      natDigitsGo fuel n acc = natDigitsGo fuel n [] ++ acc
  | 0, n, acc => rfl
  | fuel + 1, n, acc => by
      by_cases h : n < 10
      · simp [natDigitsGo, h]
      · simp only [natDigitsGo, if_neg h]
        rw [natDigitsGo_append fuel (n / 10)
            (Char.ofNat ('0'.toNat + n % 10) :: acc),
          natDigitsGo_append fuel (n / 10)
            [Char.ofNat ('0'.toNat + n % 10)]]
        simp

/-- One unfolding step, in last-digit form, valid whenever the fuel
covers `n`. -/
theorem natDigitsGo_unfold (fuel n : Nat) (hn : n ≤ fuel) :
    natDigitsGo fuel n []
      = (if n < 10 then [] else natDigitsGo (fuel - 1) (n / 10) [])
        ++ [Char.ofNat ('0'.toNat + n % 10)] := by
  cases fuel with
  | zero =>
      have : n = 0 := by omega
      subst this
      simp [natDigitsGo]
  | succ f =>
      by_cases h : n < 10
      · simp [natDigitsGo, h]
      · simp only [natDigitsGo, if_neg h, Nat.succ_sub_one]
        exact natDigitsGo_append f (n / 10) _

/-- Fuel irrelevance: any fuel at least `n` gives the same digits. -/
theorem natDigitsGo_fuel (n : Nat) :
    ∀ (f1 f2 : Nat), n ≤ f1 → n ≤ f2 →
      natDigitsGo f1 n [] = natDigitsGo f2 n [] := by
  induction n using Nat.strong_induction_on with
  | _ n ih =>
      intro f1 f2 h1 h2
      rw [natDigitsGo_unfold f1 n h1, natDigitsGo_unfold f2 n h2]
      by_cases h : n < 10
      · simp [h]
      · simp only [if_neg h]
        congr 1
        exact ih (n / 10) (Nat.div_lt_self (by omega) (by omega))
          (f1 - 1) (f2 - 1) (by omega) (by omega)

theorem digitsVal_append_digit (cs : List Char) (c : Char) :
    digitsVal (cs ++ [c]) = digitsVal cs * 10 + (c.toNat - '0'.toNat) := by
  simp [digitsVal, List.foldl_append]

theorem digit_char_toNat (d : Nat) (h : d < 10) :
    (Char.ofNat ('0'.toNat + d)).toNat = '0'.toNat + d := by
  interval_cases d <;> decide

/-- Reading the digits back recovers the number. -/
theorem digitsVal_natDigitsGo (n : Nat) :
    ∀ fuel : Nat, n ≤ fuel → digitsVal (natDigitsGo fuel n []) = n := by
  induction n using Nat.strong_induction_on with
  | _ n ih =>
      intro fuel hn
      rw [natDigitsGo_unfold fuel n hn]
      have hlt : n % 10 < 10 := Nat.mod_lt _ (by omega)
      have hc := digit_char_toNat (n % 10) hlt
      by_cases h : n < 10
      · simp only [if_pos h, List.nil_append]
        simp only [digitsVal, List.foldl_cons, List.foldl_nil]
        rw [hc]
        omega
      · simp only [if_neg h]
        rw [digitsVal_append_digit,
          ih (n / 10) (Nat.div_lt_self (by omega) (by omega)) (fuel - 1)
            (by omega), hc]
        omega

theorem natToStr_inj {m n : Nat} (h : natToStr m = natToStr n) : m = n := by
  have hd : natDigitsGo m m [] = natDigitsGo n n [] := by
    have := congrArg String.data h
    simpa [natToStr, natDigits] using this
  have hm := digitsVal_natDigitsGo m m le_rfl
  have hn := digitsVal_natDigitsGo n n le_rfl
  rw [hd, hn] at hm
  exact hm.symm

/-- The digit list is nonempty and, for positive `n`, starts with a
non-`'0'` character. -/
theorem natDigitsGo_head (n : Nat) :
    ∀ fuel : Nat, n ≤ fuel → ∃ c cs, natDigitsGo fuel n [] = c :: cs ∧
      (0 < n → c ≠ '0') := by
  induction n using Nat.strong_induction_on with
  | _ n ih =>
      intro fuel hn
      rw [natDigitsGo_unfold fuel n hn]
      by_cases h : n < 10
      · refine ⟨Char.ofNat ('0'.toNat + n % 10), [], by simp [h], ?_⟩
        intro hpos
        have h1 : n % 10 = n := Nat.mod_eq_of_lt h
        rw [h1]
        interval_cases n <;> decide
      · obtain ⟨c, cs, hcs, hc⟩ :=
          ih (n / 10) (Nat.div_lt_self (by omega) (by omega)) (fuel - 1)
            (by omega)
        refine ⟨c, cs ++ [Char.ofNat ('0'.toNat + n % 10)], ?_, ?_⟩
        · simp [if_neg h, hcs]
        · intro _
          exact hc (by omega)

/-- Every character of the digit list is a decimal digit. -/
theorem natDigitsGo_digits (n : Nat) :
    ∀ fuel : Nat, n ≤ fuel → ∀ c ∈ natDigitsGo fuel n [],
      '0'.toNat ≤ c.toNat ∧ c.toNat ≤ '9'.toNat := by
  induction n using Nat.strong_induction_on with
  | _ n ih =>
      intro fuel hn c hc
      rw [natDigitsGo_unfold fuel n hn] at hc
      rcases List.mem_append.mp hc with h1 | h1
      · by_cases h : n < 10
        · simp [h] at h1
        · simp only [if_neg h] at h1
          exact ih (n / 10) (Nat.div_lt_self (by omega) (by omega))
            (fuel - 1) (by omega) c h1
      · rw [List.mem_singleton] at h1
        subst h1
        have hlt : n % 10 < 10 := Nat.mod_lt _ (by omega)
        rw [digit_char_toNat (n % 10) hlt]
        refine ⟨Nat.le_add_right _ _, ?_⟩
        show 48 + n % 10 ≤ 57
        omega

theorem string_data_append (a b : String) :
    (a ++ b).data = a.data ++ b.data := by
  cases a
  cases b
  rfl

theorem string_eq_of_data {a b : String} (h : a.data = b.data) : a = b := by
  cases a
  cases b
  exact congrArg String.mk h

theorem zfill_data (s : String) (w : Nat) :
    (zfill s w).data = List.replicate (w - s.length) '0' ++ s.data := by
  unfold zfill
  by_cases h : w ≤ s.length
  · rw [if_pos h]
    have h0 : w - s.length = 0 := by omega
    simp [h0]
  · rw [if_neg h, string_data_append]

/-- Two zero-padded digit runs that agree are the same run, provided
neither starts with `'0'`. -/
theorem pad_zero_inj :
    ∀ (i j : Nat) (a b : List Char),
      (∀ c cs, a = c :: cs → c ≠ '0') →
      (∀ c cs, b = c :: cs → c ≠ '0') →
      List.replicate i '0' ++ a = List.replicate j '0' ++ b → a = b
  | 0, 0, a, b, _, _, h => by simpa using h
  | 0, j + 1, a, b, ha, _, h => by
      simp only [List.replicate_zero, List.nil_append, List.replicate_succ,
        List.cons_append] at h
      exact absurd rfl (ha '0' _ h)
  | i + 1, 0, a, b, _, hb, h => by
      simp only [List.replicate_zero, List.nil_append, List.replicate_succ,
        List.cons_append] at h
      exact absurd rfl (hb '0' _ h.symm)
  | i + 1, j + 1, a, b, ha, hb, h => by
      simp only [List.replicate_succ, List.cons_append, List.cons.injEq] at h
      exact pad_zero_inj i j a b ha hb h.2

theorem natToStr_head_ne_zero {n : Nat} (hn : 0 < n) :
    ∀ c cs, (natToStr n).data = c :: cs → c ≠ '0' := by
  intro c cs hc
  obtain ⟨c', cs', h1, h2⟩ := natDigitsGo_head n n le_rfl
  have hdata : (natToStr n).data = natDigitsGo n n [] := rfl
  rw [hdata, h1] at hc
  cases hc
  exact h2 hn

/-- Payment ids are injective on positive row numbers: `zfill(3)` of two
distinct decimal representations (never zero-leading) cannot agree. -/
theorem generate_payment_id_inj {m n : Nat} (hm : 0 < m) (hn : 0 < n)
    (h : generate_payment_id m = generate_payment_id n) : m = n := by
  have hdata := congrArg String.data h
  unfold generate_payment_id at hdata
  rw [string_data_append, string_data_append] at hdata
  have h2 : (zfill (natToStr m) 3).data = (zfill (natToStr n) 3).data :=
    List.append_cancel_left hdata
  rw [zfill_data, zfill_data] at h2
  have h3 : (natToStr m).data = (natToStr n).data :=
    pad_zero_inj _ _ _ _ (natToStr_head_ne_zero hm)
      (natToStr_head_ne_zero hn) h2
  exact natToStr_inj (string_eq_of_data h3)

/-! ### Totality of attribute value generation -/

theorem fake_word_total : GenTotal fake_word :=
  GenTotal.bind_tot GenTotal.draw_tot (fun _ => GenTotal.pure_tot _)

theorem fake_sentence_total : GenTotal fake_sentence :=
  GenTotal.bind_tot GenTotal.draw_tot (fun _ => GenTotal.pure_tot _)

/-- `_random_value_for_attr` never raises: every choice pool it consults
is non-empty whenever it draws from it, every `randint` range is
non-empty, and every `sample` size is within the population. -/
theorem random_value_for_attr_total (today : Int) (attr : Attr) :
    GenTotal (random_value_for_attr today attr) := by
  unfold random_value_for_attr
  by_cases h1 : attr.type = "bool"
  · rw [if_pos h1]
    exact GenTotal.bind_tot (GenTotal.choice_tot (by simp))
      (fun _ => GenTotal.pure_tot _)
  rw [if_neg h1]
  by_cases h2 : attr.type = "checkboxes"
  · rw [if_pos h2]
    by_cases hopt : attr.options ≠ []
    · rw [if_pos hopt]
      have hlen : 0 < attr.options.length := List.length_pos.mpr hopt
      refine GenTotal.bind_sat
        (GenTotal.randint_tot (by exact_mod_cast hlen))
        (GenSat.randint_intro (by exact_mod_cast hlen)) (fun k hk => ?_)
      refine GenTotal.bind_tot (GenTotal.sample_tot ?_)
        (fun _ => GenTotal.pure_tot _)
      omega
    · rw [if_neg hopt]
      exact GenTotal.pure_tot _
  rw [if_neg h2]
  by_cases h3 : attr.type = "date"
  · rw [if_pos h3]
    exact GenTotal.bind_tot (GenTotal.randint_tot (by omega))
      (fun _ => GenTotal.pure_tot _)
  rw [if_neg h3]
  by_cases h4 : attr.type = "dropdown"
  · rw [if_pos h4]
    by_cases hopt : attr.options ≠ []
    · rw [if_pos hopt]
      exact GenTotal.bind_tot (GenTotal.choice_tot hopt)
        (fun _ => GenTotal.pure_tot _)
    · rw [if_neg hopt]
      exact GenTotal.pure_tot _
  rw [if_neg h4]
  by_cases h5 : attr.type = "dropdown_multi"
  · rw [if_pos h5]
    by_cases hopt : attr.options ≠ []
    · rw [if_pos hopt]
      have hlen : 0 < attr.options.length := List.length_pos.mpr hopt
      refine GenTotal.bind_sat
        (GenTotal.randint_tot (by exact_mod_cast hlen))
        (GenSat.randint_intro (by exact_mod_cast hlen)) (fun k hk => ?_)
      refine GenTotal.bind_tot (GenTotal.sample_tot ?_)
        (fun _ => GenTotal.pure_tot _)
      omega
    · rw [if_neg hopt]
      exact GenTotal.pure_tot _
  rw [if_neg h5]
  by_cases h6 : attr.type = "money"
  · rw [if_pos h6]
    exact GenTotal.bind_tot (GenTotal.uniform_tot _ _)
      (fun _ => GenTotal.pure_tot _)
  rw [if_neg h6]
  by_cases h7 : attr.type = "quantity"
  · rw [if_pos h7]
    refine GenTotal.bind_tot (GenTotal.randint_tot ?_)
      (fun _ => GenTotal.pure_tot _)
    by_cases hq :
        pyOrInt attr.quantity_max 50 < pyOrInt attr.quantity_min 1 <;>
      simp [hq] <;> omega
  rw [if_neg h7]
  by_cases h8 : attr.type = "number"
  · rw [if_pos h8]
    exact GenTotal.bind_tot (GenTotal.randint_tot (by omega))
      (fun _ => GenTotal.pure_tot _)
  rw [if_neg h8]
  by_cases h9 : attr.type = "string"
  · rw [if_pos h9]
    exact GenTotal.bind_tot fake_word_total (fun _ => GenTotal.pure_tot _)
  rw [if_neg h9]
  by_cases h10 : attr.type = "radio"
  · rw [if_pos h10]
    by_cases hopt : attr.options ≠ []
    · rw [if_pos hopt]
      exact GenTotal.bind_tot (GenTotal.choice_tot hopt)
        (fun _ => GenTotal.pure_tot _)
    · rw [if_neg hopt]
      exact GenTotal.pure_tot _
  rw [if_neg h10]
  by_cases h11 : attr.type = "text"
  · rw [if_pos h11]
    exact GenTotal.bind_tot fake_sentence_total
      (fun _ => GenTotal.pure_tot _)
  rw [if_neg h11]
  exact GenTotal.pure_tot _

theorem GenErrIn.pure_errin {α : Type} (a : α) : GenErrIn (pure a : Gen α) :=
  fun _ _ h => by cases h

theorem GenErrIn.draw_errin : GenErrIn Gen.draw :=
  fun _ _ h => by cases h

theorem GenErrIn.bind_errin {α β : Type} {m : Gen α} {f : α → Gen β}
    (hm : GenErrIn m) (hf : ∀ a, GenErrIn (f a)) : GenErrIn (m >>= f) := by
  intro s e hc
  have hc' : (Bind.bind m f) s = .error e := hc
  unfold Bind.bind instMonadGen at hc'
  simp only at hc'
  cases hma : m s with
  | error e' =>
      rw [hma] at hc'
      cases hc'
      exact hm s e hma
  | ok v =>
      rw [hma] at hc'
      exact hf v.1 v.2 e hc'

theorem GenErrIn.randint_errin (a b : Int) : GenErrIn (Gen.randint a b) := by
  unfold Gen.randint
  by_cases h : a ≤ b
  · rw [if_pos h]
    exact GenErrIn.bind_errin GenErrIn.draw_errin
      (fun _ => GenErrIn.pure_errin _)
  · rw [if_neg h]
    intro s e hc
    cases hc
    simp [prim_msgs]

theorem GenErrIn.randomFloat_errin : GenErrIn Gen.randomFloat :=
  GenErrIn.bind_errin GenErrIn.draw_errin (fun _ => GenErrIn.pure_errin _)

theorem GenErrIn.uniform_errin (a b : PyFloat) :
    GenErrIn (Gen.uniform a b) :=
  GenErrIn.bind_errin GenErrIn.randomFloat_errin
    (fun _ => GenErrIn.pure_errin _)

theorem GenErrIn.choice_errin {α : Type} (l : List α) :
    GenErrIn (Gen.choice l) := by
  refine GenErrIn.bind_errin GenErrIn.draw_errin (fun n => ?_)
  cases l.get? (n % l.length) with
  | some x => exact GenErrIn.pure_errin x
  | none =>
      intro s e hc
      cases hc
      simp [prim_msgs]

theorem GenErrIn.sampleAux_errin {α : Type} :
    ∀ (k : Nat) (l : List α), GenErrIn (Gen.sampleAux l k)
  | 0, _ => GenErrIn.pure_errin []
  | k + 1, l => by
      unfold Gen.sampleAux
      refine GenErrIn.bind_errin GenErrIn.draw_errin (fun n => ?_)
      cases l.get? (n % l.length) with
      | some x =>
          exact GenErrIn.bind_errin (GenErrIn.sampleAux_errin k _)
            (fun _ => GenErrIn.pure_errin _)
      | none =>
          intro s e hc
          cases hc
          simp [prim_msgs]

theorem GenErrIn.sample_errin {α : Type} (l : List α) (k : Nat) :
    GenErrIn (Gen.sample l k) := by
  unfold Gen.sample
  by_cases h : k ≤ l.length
  · rw [if_pos h]
    exact GenErrIn.sampleAux_errin k l
  · rw [if_neg h]
    intro s e hc
    cases hc
    simp [prim_msgs]

theorem GenErrIn.to_avoids {α : Type} {m : Gen α} (h : GenErrIn m)
    {msg : String} (hmsg : msg ∉ prim_msgs) : GenAvoids m msg :=
  fun s hc => hmsg (h s msg hc)

theorem GenFails.bind_left {α β : Type} {m : Gen α} {f : α → Gen β}
    {msg : String} (hm : GenFails m msg) : GenFails (m >>= f) msg := by
  intro s
  show (Bind.bind m f) s = .error msg
  unfold Bind.bind instMonadGen
  simp only
  rw [hm s]

/-! ### Error-message walks over both pipelines -/

theorem fake_word_errs : GenErrIn fake_word :=
  GenErrIn.bind_errin GenErrIn.draw_errin (fun _ => GenErrIn.pure_errin _)

theorem fake_sentence_errs : GenErrIn fake_sentence :=
  GenErrIn.bind_errin GenErrIn.draw_errin (fun _ => GenErrIn.pure_errin _)

theorem random_value_for_attr_errs (today : Int) (attr : Attr) :
    GenErrIn (random_value_for_attr today attr) := by
  unfold random_value_for_attr
  by_cases h1 : attr.type = "bool"
  · rw [if_pos h1]
    exact GenErrIn.bind_errin (GenErrIn.choice_errin _)
      (fun _ => GenErrIn.pure_errin _)
  rw [if_neg h1]
  by_cases h2 : attr.type = "checkboxes"
  · rw [if_pos h2]
    by_cases hopt : attr.options ≠ []
    · rw [if_pos hopt]
      exact GenErrIn.bind_errin (GenErrIn.randint_errin _ _)
        (fun k => GenErrIn.bind_errin (GenErrIn.sample_errin _ _)
          (fun _ => GenErrIn.pure_errin _))
    · rw [if_neg hopt]
      exact GenErrIn.pure_errin _
  rw [if_neg h2]
  by_cases h3 : attr.type = "date"
  · rw [if_pos h3]
    exact GenErrIn.bind_errin (GenErrIn.randint_errin _ _)
      (fun _ => GenErrIn.pure_errin _)
  rw [if_neg h3]
  by_cases h4 : attr.type = "dropdown"
  · rw [if_pos h4]
    by_cases hopt : attr.options ≠ []
    · rw [if_pos hopt]
      exact GenErrIn.bind_errin (GenErrIn.choice_errin _)
        (fun _ => GenErrIn.pure_errin _)
    · rw [if_neg hopt]
      exact GenErrIn.pure_errin _
  rw [if_neg h4]
  by_cases h5 : attr.type = "dropdown_multi"
  · rw [if_pos h5]
    by_cases hopt : attr.options ≠ []
    · rw [if_pos hopt]
      exact GenErrIn.bind_errin (GenErrIn.randint_errin _ _)
        (fun k => GenErrIn.bind_errin (GenErrIn.sample_errin _ _)
          (fun _ => GenErrIn.pure_errin _))
    · rw [if_neg hopt]
      exact GenErrIn.pure_errin _
  rw [if_neg h5]
  by_cases h6 : attr.type = "money"
  · rw [if_pos h6]
    exact GenErrIn.bind_errin (GenErrIn.uniform_errin _ _)
      (fun _ => GenErrIn.pure_errin _)
  rw [if_neg h6]
  by_cases h7 : attr.type = "quantity"
  · rw [if_pos h7]
    exact GenErrIn.bind_errin (GenErrIn.randint_errin _ _)
      (fun _ => GenErrIn.pure_errin _)
  rw [if_neg h7]
  by_cases h8 : attr.type = "number"
  · rw [if_pos h8]
    exact GenErrIn.bind_errin (GenErrIn.randint_errin _ _)
      (fun _ => GenErrIn.pure_errin _)
  rw [if_neg h8]
  by_cases h9 : attr.type = "string"
  · rw [if_pos h9]
    exact GenErrIn.bind_errin fake_word_errs (fun _ => GenErrIn.pure_errin _)
  rw [if_neg h9]
  by_cases h10 : attr.type = "radio"
  · rw [if_pos h10]
    by_cases hopt : attr.options ≠ []
    · rw [if_pos hopt]
      exact GenErrIn.bind_errin (GenErrIn.choice_errin _)
        (fun _ => GenErrIn.pure_errin _)
    · rw [if_neg hopt]
      exact GenErrIn.pure_errin _
  rw [if_neg h10]
  by_cases h11 : attr.type = "text"
  · rw [if_pos h11]
    exact GenErrIn.bind_errin fake_sentence_errs
      (fun _ => GenErrIn.pure_errin _)
  rw [if_neg h11]
  exact GenErrIn.pure_errin _

theorem apply_attrs_errs (today : Int) :
    ∀ (attrs : List Attr) (r : Row),
      GenErrIn (apply_attrs today attrs r)
  | [], _ => GenErrIn.pure_errin _
  | attr :: rest, r =>
      GenErrIn.bind_errin (random_value_for_attr_errs today attr)
        (fun v => apply_attrs_errs today rest _)

theorem generate_issue_date_errs (today : Int) :
    GenErrIn (generate_issue_date today) :=
  GenErrIn.bind_errin (GenErrIn.randint_errin _ _)
    (fun _ => GenErrIn.pure_errin _)

theorem generate_due_date_errs (d : Int) : GenErrIn (generate_due_date d) :=
  GenErrIn.bind_errin (GenErrIn.randint_errin _ _)
    (fun _ => GenErrIn.pure_errin _)

theorem generate_invoice_id_errs : GenErrIn generate_invoice_id :=
  GenErrIn.bind_errin (GenErrIn.randint_errin _ _)
    (fun _ => GenErrIn.pure_errin _)

theorem generate_line_item_name_errs : GenErrIn generate_line_item_name :=
  GenErrIn.bind_errin (GenErrIn.choice_errin _)
    (fun _ => GenErrIn.bind_errin (GenErrIn.choice_errin _)
      (fun _ => GenErrIn.pure_errin _))

theorem generate_line_item_price_errs : GenErrIn generate_line_item_price :=
  GenErrIn.bind_errin (GenErrIn.uniform_errin _ _)
    (fun _ => GenErrIn.pure_errin _)

theorem generate_invoice_note_errs : GenErrIn generate_invoice_note :=
  GenErrIn.choice_errin _

theorem build_invoice_template_errs (ctx : InvoiceCtx) (idx : Nat) :
    GenErrIn (build_invoice_template ctx idx) := by
  unfold build_invoice_template
  refine GenErrIn.bind_errin (GenErrIn.choice_errin _) (fun ac => ?_)
  refine GenErrIn.bind_errin (generate_issue_date_errs _) (fun issue => ?_)
  refine GenErrIn.bind_errin (generate_due_date_errs _) (fun due => ?_)
  refine GenErrIn.bind_errin generate_invoice_id_errs (fun inv_id => ?_)
  refine GenErrIn.bind_errin generate_invoice_note_errs (fun note => ?_)
  exact GenErrIn.bind_errin GenErrIn.randomFloat_errin
    (fun q => GenErrIn.pure_errin _)

theorem draw_is_system_errs (ctx : InvoiceCtx) :
    GenErrIn (draw_is_system ctx) := by
  unfold draw_is_system
  split_ifs <;>
    solve_by_elim [GenErrIn.bind_errin, GenErrIn.pure_errin,
      GenErrIn.randomFloat_errin]

theorem set_line_item_identity_errs (ctx : InvoiceCtx) (r0 : Row)
    (is_system : Bool) :
    GenErrIn (set_line_item_identity ctx r0 is_system) := by
  unfold set_line_item_identity
  split_ifs <;>
    solve_by_elim [GenErrIn.bind_errin, GenErrIn.pure_errin,
      GenErrIn.choice_errin, generate_line_item_name_errs]

theorem set_flat_discount_errs (r2 : Row) (price : PyFloat) :
    GenErrIn (set_flat_discount r2 price) := by
  unfold set_flat_discount
  refine GenErrIn.bind_errin GenErrIn.randomFloat_errin (fun q1 => ?_)
  split_ifs <;>
    solve_by_elim [GenErrIn.bind_errin, GenErrIn.pure_errin,
      GenErrIn.uniform_errin]

theorem set_tax_fields_errs (ctx : InvoiceCtx) (r3 : Row) :
    GenErrIn (set_tax_fields ctx r3) := by
  unfold set_tax_fields
  split_ifs <;>
    solve_by_elim [GenErrIn.bind_errin, GenErrIn.pure_errin,
      GenErrIn.choice_errin]

theorem build_invoice_item_row_errs (ctx : InvoiceCtx) (template : Row)
    (item_idx : Nat) :
    GenErrIn (build_invoice_item_row ctx template item_idx) := by
  unfold build_invoice_item_row
  refine GenErrIn.bind_errin (draw_is_system_errs ctx) (fun is_system => ?_)
  refine GenErrIn.bind_errin (set_line_item_identity_errs ctx template _)
    (fun r1 => ?_)
  refine GenErrIn.bind_errin (GenErrIn.randint_errin _ _) (fun qty => ?_)
  refine GenErrIn.bind_errin generate_line_item_price_errs (fun price => ?_)
  refine GenErrIn.bind_errin (GenErrIn.choice_errin _) (fun note => ?_)
  refine GenErrIn.bind_errin (GenErrIn.choice_errin _) (fun acct => ?_)
  refine GenErrIn.bind_errin (set_flat_discount_errs _ _) (fun r3 => ?_)
  refine GenErrIn.bind_errin (set_tax_fields_errs ctx _) (fun r4 => ?_)
  refine GenErrIn.bind_errin GenErrIn.randomFloat_errin (fun q2 => ?_)
  refine GenErrIn.bind_errin GenErrIn.randomFloat_errin (fun q3 => ?_)
  refine GenErrIn.bind_errin (apply_attrs_errs ctx.today _ _) (fun r7 => ?_)
  exact GenErrIn.bind_errin (apply_attrs_errs ctx.today _ _)
    (fun r8 => GenErrIn.pure_errin _)

theorem invoice_items_loop_errs (ctx : InvoiceCtx) (template : Row) :
    ∀ (k start : Nat), GenErrIn (invoice_items_loop ctx template start k)
  | 0, _ => GenErrIn.pure_errin _
  | k + 1, start =>
      GenErrIn.bind_errin (build_invoice_item_row_errs ctx template start)
        (fun _ => GenErrIn.bind_errin
          (invoice_items_loop_errs ctx template k (start + 1))
          (fun _ => GenErrIn.pure_errin _))

theorem gen_one_invoice_errs (ctx : InvoiceCtx) (idx : Nat) :
    GenErrIn (gen_one_invoice ctx idx) := by
  unfold gen_one_invoice
  refine GenErrIn.bind_errin (build_invoice_template_errs ctx idx)
    (fun template => ?_)
  exact GenErrIn.bind_errin (GenErrIn.randint_errin _ _)
    (fun total => invoice_items_loop_errs ctx template total.toNat 0)

theorem invoice_rows_loop_errs (ctx : InvoiceCtx) :
    ∀ (k start : Nat), GenErrIn (invoice_rows_loop ctx start k)
  | 0, _ => GenErrIn.pure_errin _
  | k + 1, start =>
      GenErrIn.bind_errin (gen_one_invoice_errs ctx start)
        (fun _ => GenErrIn.bind_errin (invoice_rows_loop_errs ctx k (start + 1))
          (fun _ => GenErrIn.pure_errin _))

theorem fallback_ids_loop_errs : ∀ k : Nat, GenErrIn (fallback_ids_loop k)
  | 0 => GenErrIn.pure_errin _
  | k + 1 =>
      GenErrIn.bind_errin (GenErrIn.randint_errin _ _)
        (fun _ => GenErrIn.bind_errin (fallback_ids_loop_errs k)
          (fun _ => GenErrIn.pure_errin _))

theorem resolve_system_identifiers_errs (b : Bool) (sys0 : List String) :
    GenErrIn (resolve_system_identifiers b sys0) := by
  unfold resolve_system_identifiers
  split_ifs <;>
    solve_by_elim [fallback_ids_loop_errs, GenErrIn.pure_errin]

theorem generate_payment_origin_errs : GenErrIn generate_payment_origin :=
  GenErrIn.bind_errin (GenErrIn.choice_errin _)
    (fun _ => GenErrIn.bind_errin (GenErrIn.randint_errin _ _)
      (fun _ => GenErrIn.pure_errin _))

theorem generate_payment_alternate_date_errs (today : Int) :
    GenErrIn (generate_payment_alternate_date today) := by
  unfold generate_payment_alternate_date
  refine GenErrIn.bind_errin GenErrIn.randomFloat_errin (fun q => ?_)
  split_ifs
  · exact GenErrIn.pure_errin _
  · exact GenErrIn.bind_errin (GenErrIn.randint_errin _ _)
      (fun _ => GenErrIn.pure_errin _)

theorem generate_payment_amount_errs (a b : PyFloat) :
    GenErrIn (generate_payment_amount a b) :=
  GenErrIn.bind_errin (GenErrIn.uniform_errin _ _)
    (fun _ => GenErrIn.pure_errin _)

theorem payment_attr_value_errs (today : Int) (attr : Attr) :
    GenErrIn (payment_attr_value today attr) := by
  unfold payment_attr_value
  split_ifs
  · exact GenErrIn.pure_errin _
  · exact random_value_for_attr_errs today attr

theorem gen_payment_attrs_errs (today : Int) :
    ∀ (attrs : List Attr) (acc : Row),
      GenErrIn (gen_payment_attrs today attrs acc)
  | [], _ => GenErrIn.pure_errin _
  | attr :: rest, acc =>
      GenErrIn.bind_errin (payment_attr_value_errs today attr)
        (fun v => gen_payment_attrs_errs today rest _)

theorem select_invoices_errs (multi : Bool) (choices : List String) :
    GenErrIn (select_invoices multi choices) := by
  unfold select_invoices
  split_ifs
  · exact GenErrIn.bind_errin (GenErrIn.randint_errin _ _)
      (fun num => GenErrIn.sample_errin _ _)
  · exact GenErrIn.bind_errin (GenErrIn.choice_errin _)
      (fun _ => GenErrIn.pure_errin _)

theorem gen_one_payment_errs (ctx : PaymentCtx) (num : Nat) :
    GenErrIn (gen_one_payment ctx num) := by
  unfold gen_one_payment
  refine GenErrIn.bind_errin generate_payment_origin_errs (fun origin => ?_)
  refine GenErrIn.bind_errin (generate_payment_alternate_date_errs _)
    (fun alt => ?_)
  refine GenErrIn.bind_errin (GenErrIn.choice_errin _) (fun proc => ?_)
  refine GenErrIn.bind_errin (generate_payment_amount_errs _ _)
    (fun amount => ?_)
  refine GenErrIn.bind_errin (GenErrIn.choice_errin _) (fun note => ?_)
  refine GenErrIn.bind_errin (gen_payment_attrs_errs ctx.today _ _)
    (fun attrs => ?_)
  exact GenErrIn.bind_errin (select_invoices_errs _ _)
    (fun selected => GenErrIn.pure_errin _)

theorem payments_loop_errs (ctx : PaymentCtx) :
    ∀ (k start : Nat), GenErrIn (payments_loop ctx start k)
  | 0, _ => GenErrIn.pure_errin _
  | k + 1, start =>
      GenErrIn.bind_errin (gen_one_payment_errs ctx start)
        (fun _ => GenErrIn.bind_errin (payments_loop_errs ctx k (start + 1))
          (fun _ => GenErrIn.pure_errin _))

/-! ### Payment postconditions -/

/-- `randint` bounds, valid unconditionally (an empty range never
succeeds). -/
theorem GenSat.randint_bounds (a b : Int) :
    GenSat (Gen.randint a b) (fun x => a ≤ x ∧ x ≤ b) := by
  by_cases hab : a ≤ b
  · exact GenSat.randint_intro hab
  · unfold Gen.randint
    rw [if_neg hab]
    exact GenSat.raise_intro _

theorem GenSat.sampleAux_mem {α : Type} :
    ∀ (k : Nat) (l : List α),
      GenSat (Gen.sampleAux l k)
        (fun r => r.length = k ∧ ∀ x ∈ r, x ∈ l)
  | 0, _ => GenSat.pure_intro (by simp)
  | k + 1, l => by
      unfold Gen.sampleAux
      refine GenSat.bind_any (fun n => ?_)
      cases hg : l.get? (n % l.length) with
      | none => exact GenSat.raise_intro _
      | some x =>
          refine GenSat.bind_post _
            (GenSat.sampleAux_mem k (l.eraseIdx (n % l.length)))
            (fun rest hrest => ?_)
          refine GenSat.pure_intro ⟨by simp [hrest.1], ?_⟩
          intro y hy
          rcases List.mem_cons.mp hy with h | h
          · exact h ▸ List.get?_mem hg
          · exact mem_of_eraseIdx _ _ _ (hrest.2 y h)

theorem GenSat.sample_mem {α : Type} (l : List α) (k : Nat) :
    GenSat (Gen.sample l k) (fun r => r.length = k ∧ ∀ x ∈ r, x ∈ l) := by
  unfold Gen.sample
  by_cases hk : k ≤ l.length
  · rw [if_pos hk]; exact GenSat.sampleAux_mem k l
  · rw [if_neg hk]; exact GenSat.raise_intro _

theorem Row.keys_setk (r : Row) (k : String) (v : PyVal) :
    (Row.setk r k v).keys = if k ∈ r.keys then r.keys else r.keys ++ [k] := by
  induction r with
  | nil => simp [Row.setk, Row.keys]
  | cons hd t ih =>
      obtain ⟨k0, v0⟩ := hd
      by_cases hk : k0 = k
      · subst hk
        simp [Row.setk, Row.keys]
      · have hset : Row.setk ((k0, v0) :: t) k v
            = (k0, v0) :: Row.setk t k v := by
          simp [Row.setk, hk]
        rw [hset]
        have hcond : (k ∈ Row.keys ((k0, v0) :: t)) ↔ k ∈ Row.keys t := by
          simp only [Row.keys, List.map_cons, List.mem_cons]
          constructor
          · rintro (h1 | h1)
            · exact absurd h1.symm hk
            · exact h1
          · exact Or.inr
        by_cases hmem : k ∈ Row.keys t
        · rw [if_pos (hcond.mpr hmem)]
          simp only [Row.keys, List.map_cons]
          congr 1
          simp only [Row.keys] at ih
          rw [ih, if_pos (by simpa [Row.keys] using hmem)]
        · rw [if_neg (fun hc => hmem (hcond.mp hc))]
          simp only [Row.keys, List.map_cons, List.cons_append]
          congr 1
          simp only [Row.keys] at ih
          rw [ih, if_neg (by simpa [Row.keys] using hmem)]

theorem Row.keys_nodup_setk {r : Row} (h : r.keys.Nodup) (k : String)
    (v : PyVal) : (Row.setk r k v).keys.Nodup := by
  rw [Row.keys_setk]
  by_cases hmem : k ∈ r.keys
  · rw [if_pos hmem]; exact h
  · rw [if_neg hmem]
    simpa using List.Nodup.append h (by simp) (by simpa using hmem)

/-- `gen_payment_attrs` only writes the attributes' columns. -/
theorem gen_payment_attrs_getk (today : Int) :
    ∀ (attrs : List Attr) (acc : Row),
      GenSat (gen_payment_attrs today attrs acc)
        (fun u => ∀ k : String, (∀ a ∈ attrs, a.column_name ≠ k) →
          u.getk k = acc.getk k)
  | [], _ => GenSat.pure_intro (fun _ _ => rfl)
  | attr :: rest, acc => by
      unfold gen_payment_attrs
      refine GenSat.bind_any (fun v => ?_)
      refine GenSat.mono (gen_payment_attrs_getk today rest
        (Row.setk acc attr.column_name v)) ?_
      intro u h k hk
      rw [h k (fun a ha => hk a (List.mem_cons_of_mem _ ha)),
        Row.getk_setk_ne _ _ (hk attr (List.mem_cons_self _ _))]

/-- Every key of the built attribute dict is an attribute column name
(starting from the empty accumulator). -/
theorem gen_payment_attrs_keys (today : Int) :
    ∀ (attrs : List Attr) (acc : Row),
      GenSat (gen_payment_attrs today attrs acc)
        (fun u => ∀ k ∈ u.keys,
          k ∈ acc.keys ∨ ∃ a ∈ attrs, a.column_name = k)
  | [], _ => GenSat.pure_intro (fun k hk => Or.inl hk)
  | attr :: rest, acc => by
      unfold gen_payment_attrs
      refine GenSat.bind_any (fun v => ?_)
      refine GenSat.mono (gen_payment_attrs_keys today rest
        (Row.setk acc attr.column_name v)) ?_
      intro u h k hk
      rcases h k hk with h1 | h1
      · rcases (Row.mem_keys_setk acc k attr.column_name v).mp h1 with h2 | h2
        · exact Or.inl h2
        · exact Or.inr ⟨attr, List.mem_cons_self _ _, h2.symm⟩
      · obtain ⟨a, ha, hac⟩ := h1
        exact Or.inr ⟨a, List.mem_cons_of_mem _ ha, hac⟩

/-- The built attribute dict has no duplicate keys. -/
theorem gen_payment_attrs_nodup (today : Int) :
    ∀ (attrs : List Attr) (acc : Row), acc.keys.Nodup →
      GenSat (gen_payment_attrs today attrs acc) (fun u => u.keys.Nodup)
  | [], _, h => GenSat.pure_intro h
  | attr :: rest, acc, h => by
      unfold gen_payment_attrs
      refine GenSat.bind_any (fun v => ?_)
      exact gen_payment_attrs_nodup today rest _ (Row.keys_nodup_setk h _ _)

/-- A constant attribute with a non-`None` value ends up in the dict
with exactly that value (given distinct column names). -/
theorem gen_payment_attrs_const (today : Int) :
    ∀ (attrs : List Attr) (acc : Row) (a : Attr) (v : PyVal),
      a ∈ attrs → a.constant = true → a.value = some v →
      (attrs.map Attr.column_name).Nodup →
      GenSat (gen_payment_attrs today attrs acc)
        (fun u => u.getk a.column_name = some v)
  | [], _, a, v, ha, _, _, _ => absurd ha (List.not_mem_nil a)
  | attr :: rest, acc, a, v, ha, hconst, hv, hnd => by
      unfold gen_payment_attrs
      rcases List.mem_cons.mp ha with heq | hmem
      · subst heq
        have hval : payment_attr_value today a = pure v := by
          unfold payment_attr_value
          rw [if_pos (by simp [hconst, hv]), hv]
          rfl
        rw [hval]
        refine GenSat.bind_post (fun x => x = v) (GenSat.pure_intro rfl)
          (fun x hx => ?_)
        rw [← hx]
        refine GenSat.mono (gen_payment_attrs_getk today rest
          (Row.setk acc a.column_name x)) ?_
        intro u h
        have hnd2 : (a.column_name :: rest.map Attr.column_name).Nodup := hnd
        have hne : ∀ b ∈ rest, b.column_name ≠ a.column_name := by
          intro b hb hc
          exact (List.nodup_cons.mp hnd2).1
            (hc ▸ List.mem_map_of_mem Attr.column_name hb)
        rw [h a.column_name hne, Row.getk_setk_self]
      · refine GenSat.bind_any (fun x => ?_)
        have hnd2 : (attr.column_name :: rest.map Attr.column_name).Nodup :=
          hnd
        exact gen_payment_attrs_const today rest _ a v hmem hconst hv
          (List.nodup_cons.mp hnd2).2

/-- `row.update(upd)` leaves keys outside `upd` unchanged. -/
theorem row_update_getk_notin :
    ∀ (upd r : Row) (k : String), (∀ kv ∈ upd, kv.1 ≠ k) →
      (row_update r upd).getk k = r.getk k
  | [], _, _, _ => rfl
  | kv :: rest, r, k, h => by
      unfold row_update
      rw [List.foldl_cons]
      have := row_update_getk_notin rest (Row.setk r kv.1 kv.2) k
        (fun kv' hkv' => h kv' (List.mem_cons_of_mem _ hkv'))
      unfold row_update at this
      rw [this, Row.getk_setk_ne _ _ (h kv (List.mem_cons_self _ _))]

/-- `row.update(upd)` takes `upd`'s value on `upd`'s keys (for a dict
`upd`, i.e. with distinct keys). -/
theorem row_update_getk_mem :
    ∀ (upd r : Row) (k : String), upd.keys.Nodup → k ∈ upd.keys →
      (row_update r upd).getk k = upd.getk k
  | [], _, _, _, hmem => absurd hmem (by simp [Row.keys])
  | (k0, v0) :: rest, r, k, hnd, hmem => by
      unfold row_update
      rw [List.foldl_cons]
      have hnd2 : (k0 :: Row.keys rest).Nodup := hnd
      have hnd' := List.nodup_cons.mp hnd2
      by_cases hk : k0 = k
      · subst hk
        have hnotin : ∀ kv ∈ rest, kv.1 ≠ k0 := by
          intro kv hkv hc
          exact hnd'.1 (hc ▸ (List.mem_map_of_mem Prod.fst hkv))
        have := row_update_getk_notin rest (Row.setk r k0 v0) k0 hnotin
        unfold row_update at this
        rw [this, Row.getk_setk_self]
        simp [Row.getk]
      · have hmem' : k ∈ Row.keys rest := by
          have hmem2 : k ∈ k0 :: Row.keys rest := hmem
          rcases List.mem_cons.mp hmem2 with h1 | h1
          · exact absurd h1.symm hk
          · exact h1
        have := row_update_getk_mem rest (Row.setk r k0 v0) k hnd'.2 hmem'
        unfold row_update at this
        rw [this]
        simp [Row.getk, hk]

theorem Row.mem_keys_of_getk {r : Row} {k : String} {v : PyVal}
    (h : r.getk k = some v) : k ∈ r.keys := by
  induction r with
  | nil => cases h
  | cons hd t ih =>
      obtain ⟨k0, v0⟩ := hd
      by_cases hk : k0 = k
      · subst hk
        simp [Row.keys]
      · simp only [Row.getk, if_neg hk] at h
        simp only [Row.keys, List.map_cons, List.mem_cons]
        exact Or.inr (ih h)

theorem select_invoices_sat (multi : Bool) (choices : List String) :
    GenSat (select_invoices multi choices) (fun sel =>
      (∀ x ∈ sel, x ∈ choices) ∧
      (multi = false → sel.length = 1) ∧
      (multi = true → 2 ≤ sel.length ∧
        (sel.length : Int) ≤ min 5 (choices.length : Int) ∧
        (choices.Nodup → sel.Nodup))) := by
  unfold select_invoices
  cases multi with
  | false =>
      rw [if_neg (by simp)]
      refine GenSat.bind_post (fun c => c ∈ choices)
        (GenSat.choice_intro choices) (fun c hc => ?_)
      refine GenSat.pure_intro ⟨by simpa using hc, fun _ => rfl, ?_⟩
      intro h
      cases h
  | true =>
      rw [if_pos rfl]
      refine GenSat.bind_post
        (fun num => 2 ≤ num ∧ num ≤ min 5 (choices.length : Int))
        (GenSat.randint_bounds _ _) (fun num hnum => ?_)
      have hnum' : 2 ≤ num ∧ num ≤ min 5 (choices.length : Int) := hnum
      have h5 := le_min_iff.mp hnum'.2
      by_cases hnd : choices.Nodup
      · refine GenSat.mono (GenSat.sample_intro choices num.toNat hnd) ?_
        intro sel hsel
        obtain ⟨hlen, hselnd, hmem⟩ := hsel
        refine ⟨hmem, ?_, ?_⟩
        · intro h
          exact absurd h (by decide)
        · intro _
          refine ⟨by omega, ?_, fun _ => hselnd⟩
          rw [hlen]
          refine le_min_iff.mpr ⟨by omega, by omega⟩
      · refine GenSat.mono (GenSat.sample_mem choices num.toNat) ?_
        intro sel hsel
        obtain ⟨hlen, hmem⟩ := hsel
        refine ⟨hmem, ?_, ?_⟩
        · intro h
          exact absurd h (by decide)
        · intro _
          refine ⟨by omega, ?_, fun h => absurd h hnd⟩
          rw [hlen]
          refine le_min_iff.mpr ⟨by omega, by omega⟩

/-- Blockwise postcondition of the payment loop. -/
theorem payments_loop_sat (ctx : PaymentCtx) (P : Nat → List Row → Prop)
    (h : ∀ num, GenSat (gen_one_payment ctx num) (P num)) :
    ∀ (k start : Nat),
      GenSat (payments_loop ctx start k)
        (fun rows => ∃ blocks : List (List Row),
          rows = blocks.flatten ∧ blocks.length = k ∧
          ∀ j (hj : j < blocks.length), P (start + j) (blocks.get ⟨j, hj⟩))
  | 0, _ => GenSat.pure_intro ⟨[], by simp⟩
  | k + 1, start => by
      unfold payments_loop
      refine GenSat.bind_post (P start) (h start) (fun block hblock => ?_)
      refine GenSat.bind_post _
        (payments_loop_sat ctx P h k (start + 1)) (fun rest hrest => ?_)
      refine GenSat.pure_intro ?_
      obtain ⟨blocks, hflat, hblen, hball⟩ := hrest
      refine ⟨block :: blocks, by simp [hflat], by simp [hblen], ?_⟩
      intro j hj
      cases j with
      | zero => simpa using hblock
      | succ j' =>
          have hj' : j' < blocks.length := by
            simpa using Nat.lt_of_succ_lt_succ (by simpa using hj)
          have hp := hball j' hj'
          have harith : start + (j' + 1) = start + 1 + j' := by omega
          rw [harith]
          simpa using hp

/-- Shape of one payment's block of rows: all rows share the payment's
sequential id, date, alternate date and amount, and the `i`-th row
carries the `i`-th selected invoice id; the selection obeys the
single/multi policy. Custom attributes are assumed not to shadow the
fixed payment columns. -/
theorem gen_one_payment_sat (ctx : PaymentCtx) (num : Nat)
    (hca : ∀ a ∈ ctx.custom_attributes,
      a.column_name ≠ "payment_id" ∧ a.column_name ≠ "payment_date" ∧
      a.column_name ≠ "payment_alternate_date" ∧
      a.column_name ≠ "payment_amount" ∧
      a.column_name ≠ "payment_invoice_id") :
    GenSat (gen_one_payment ctx num) (fun block =>
      ∃ sel : List String, ∃ amount : PyFloat, ∃ alt : String,
        block.length = sel.length ∧
        (∀ x ∈ sel, x ∈ ctx.invoice_choices) ∧
        (ctx.multi = false → sel.length = 1) ∧
        (ctx.multi = true → 2 ≤ sel.length ∧
          (sel.length : Int) ≤ min 5 (ctx.invoice_choices.length : Int) ∧
          (ctx.invoice_choices.Nodup → sel.Nodup)) ∧
        (∀ i (hi : i < block.length) (hi' : i < sel.length),
          (block.get ⟨i, hi⟩).getk "payment_id"
              = some (.s (generate_payment_id num)) ∧
          (block.get ⟨i, hi⟩).getk "payment_date"
              = some (.s (generate_payment_date ctx.today)) ∧
          (block.get ⟨i, hi⟩).getk "payment_alternate_date"
              = some (.s alt) ∧
          (block.get ⟨i, hi⟩).getk "payment_amount" = some (.q amount) ∧
          (block.get ⟨i, hi⟩).getk "payment_invoice_id"
              = some (.s (sel.get ⟨i, hi'⟩)))) := by
  unfold gen_one_payment
  refine GenSat.bind_any (fun origin => ?_)
  refine GenSat.bind_any (fun alt => ?_)
  refine GenSat.bind_any (fun processor => ?_)
  refine GenSat.bind_any (fun amount => ?_)
  refine GenSat.bind_any (fun note => ?_)
  refine GenSat.bind_post
    (fun u => ∀ k ∈ u.keys, ∃ a ∈ ctx.custom_attributes, a.column_name = k)
    (GenSat.mono (gen_payment_attrs_keys ctx.today ctx.custom_attributes [])
      ?_) (fun attrs hattrs => ?_)
  · intro u h k hk
    rcases h k hk with h1 | h1
    · exact absurd h1 (by simp [Row.keys])
    · exact h1
  · refine GenSat.bind_post _
      (select_invoices_sat ctx.multi ctx.invoice_choices)
      (fun sel hsel => ?_)
    obtain ⟨hselmem, hfalse, htrue⟩ := hsel
    have hnotin : ∀ k : String,
        (∀ a ∈ ctx.custom_attributes, a.column_name ≠ k) →
        ∀ kv ∈ attrs, kv.1 ≠ k := by
      intro k hk kv hkv hc
      obtain ⟨a, ha, hak⟩ :=
        hattrs kv.1 (List.mem_map_of_mem Prod.fst hkv)
      exact hk a ha (hak.trans hc)
    refine GenSat.pure_intro ?_
    refine ⟨sel, amount, alt, by simp, hselmem, hfalse, htrue, ?_⟩
    intro i hi hi'
    simp only [List.get_eq_getElem, List.getElem_map]
    refine ⟨?_, ?_, ?_, ?_, ?_⟩
    · rw [row_update_getk_notin attrs _ _
        (hnotin "payment_id" (fun a ha => (hca a ha).1))]
      rfl
    · rw [row_update_getk_notin attrs _ _
        (hnotin "payment_date" (fun a ha => (hca a ha).2.1))]
      rfl
    · rw [row_update_getk_notin attrs _ _
        (hnotin "payment_alternate_date" (fun a ha => (hca a ha).2.2.1))]
      rfl
    · rw [row_update_getk_notin attrs _ _
        (hnotin "payment_amount" (fun a ha => (hca a ha).2.2.2.1))]
      rfl
    · rw [row_update_getk_notin attrs _ _
        (hnotin "payment_invoice_id" (fun a ha => (hca a ha).2.2.2.2))]
      rfl

/-! ### Payment totality and the multi-invoice failure mode -/

theorem payment_attr_value_total (today : Int) (attr : Attr) :
    GenTotal (payment_attr_value today attr) := by
  unfold payment_attr_value
  by_cases h : attr.constant && attr.value.isSome
  · rw [if_pos h]
    exact GenTotal.pure_tot _
  · rw [if_neg h]
    exact random_value_for_attr_total today attr

theorem gen_payment_attrs_total (today : Int) :
    ∀ (attrs : List Attr) (acc : Row),
      GenTotal (gen_payment_attrs today attrs acc)
  | [], acc => GenTotal.pure_tot acc
  | attr :: rest, acc => by
      unfold gen_payment_attrs
      exact GenTotal.bind_tot (payment_attr_value_total today attr)
        (fun v => gen_payment_attrs_total today rest _)

theorem generate_payment_origin_total : GenTotal generate_payment_origin := by
  unfold generate_payment_origin
  exact GenTotal.bind_tot (GenTotal.choice_tot (by simp))
    (fun t => GenTotal.bind_tot (GenTotal.randint_tot (by norm_num))
      (fun n => GenTotal.pure_tot _))

theorem generate_payment_alternate_date_total (today : Int) :
    GenTotal (generate_payment_alternate_date today) := by
  unfold generate_payment_alternate_date
  refine GenTotal.bind_tot GenTotal.randomFloat_tot (fun q => ?_)
  by_cases h : pyLt q ⟨1, 2⟩
  · rw [if_pos h]
    exact GenTotal.pure_tot _
  · rw [if_neg h]
    exact GenTotal.bind_tot (GenTotal.randint_tot (by norm_num))
      (fun d => GenTotal.pure_tot _)

theorem generate_payment_amount_total (a b : PyFloat) :
    GenTotal (generate_payment_amount a b) := by
  unfold generate_payment_amount
  exact GenTotal.bind_tot (GenTotal.uniform_tot a b)
    (fun q => GenTotal.pure_tot _)

theorem generate_payment_note_total : GenTotal generate_payment_note := by
  unfold generate_payment_note
  exact GenTotal.choice_tot (by simp [payment_note_pool])

/-- The single-invoice branch succeeds whenever at least one invoice id
is available. -/
theorem select_invoices_total_single (choices : List String)
    (h : choices ≠ []) : GenTotal (select_invoices false choices) := by
  unfold select_invoices
  rw [if_neg (by simp)]
  exact GenTotal.bind_tot (GenTotal.choice_tot h)
    (fun c => GenTotal.pure_tot _)

/-- The multi-invoice branch succeeds whenever at least two invoice ids
are available. -/
theorem select_invoices_total_multi (choices : List String)
    (h : 2 ≤ choices.length) : GenTotal (select_invoices true choices) := by
  unfold select_invoices
  rw [if_pos rfl]
  refine GenTotal.bind_sat
    (GenTotal.randint_tot (le_min_iff.mpr ⟨by norm_num, by exact_mod_cast h⟩))
    (GenSat.randint_bounds _ _) (fun num hnum => ?_)
  have hnum' : 2 ≤ num ∧ num ≤ min 5 (choices.length : Int) := hnum
  have h5 := le_min_iff.mp hnum'.2
  exact GenTotal.sample_tot (by omega)

/-- The multi-invoice branch raises `randint`'s `ValueError` on every
supply when fewer than two invoice ids are available. -/
theorem select_invoices_fails_multi (choices : List String)
    (h : choices.length < 2) :
    GenFails (select_invoices true choices)
      "ValueError: empty range in randrange" := by
  unfold select_invoices
  rw [if_pos rfl]
  have hr : Gen.randint 2 (min 5 (choices.length : Int)) =
      Gen.raiseErr "ValueError: empty range in randrange" := by
    unfold Gen.randint
    rw [if_neg ?_]
    refine fun hc => absurd (le_min_iff.mp hc).2 (by push_neg; exact_mod_cast h)
  rw [hr]
  exact GenFails.bind_left (GenFails.raise_fail _)

theorem gen_one_payment_total (ctx : PaymentCtx) (num : Nat)
    (hproc : ctx.payment_processors ≠ [])
    (hsel : GenTotal (select_invoices ctx.multi ctx.invoice_choices)) :
    GenTotal (gen_one_payment ctx num) := by
  unfold gen_one_payment
  refine GenTotal.bind_tot generate_payment_origin_total (fun origin => ?_)
  refine GenTotal.bind_tot (generate_payment_alternate_date_total ctx.today)
    (fun alt => ?_)
  refine GenTotal.bind_tot (GenTotal.choice_tot hproc) (fun proc => ?_)
  refine GenTotal.bind_tot (generate_payment_amount_total _ _)
    (fun amount => ?_)
  refine GenTotal.bind_tot generate_payment_note_total (fun note => ?_)
  refine GenTotal.bind_tot (gen_payment_attrs_total ctx.today _ [])
    (fun attrs => ?_)
  exact GenTotal.bind_tot hsel (fun sel => GenTotal.pure_tot _)

/-- One payment raises `randint`'s `ValueError` on every supply when
multi-invoice is enabled with fewer than two available invoice ids. -/
theorem gen_one_payment_fails (ctx : PaymentCtx) (num : Nat)
    (hproc : ctx.payment_processors ≠ [])
    (hmulti : ctx.multi = true)
    (hlen : ctx.invoice_choices.length < 2) :
    GenFails (gen_one_payment ctx num)
      "ValueError: empty range in randrange" := by
  unfold gen_one_payment
  refine GenFails.bind_total generate_payment_origin_total (fun origin => ?_)
  refine GenFails.bind_total (generate_payment_alternate_date_total ctx.today)
    (fun alt => ?_)
  refine GenFails.bind_total (GenTotal.choice_tot hproc) (fun proc => ?_)
  refine GenFails.bind_total (generate_payment_amount_total _ _)
    (fun amount => ?_)
  refine GenFails.bind_total generate_payment_note_total (fun note => ?_)
  refine GenFails.bind_total (gen_payment_attrs_total ctx.today _ [])
    (fun attrs => ?_)
  rw [hmulti]
  exact GenFails.bind_left (select_invoices_fails_multi _ hlen)

theorem payments_loop_total (ctx : PaymentCtx)
    (hproc : ctx.payment_processors ≠ [])
    (hsel : GenTotal (select_invoices ctx.multi ctx.invoice_choices)) :
    ∀ (k start : Nat), GenTotal (payments_loop ctx start k)
  | 0, _ => GenTotal.pure_tot []
  | k + 1, start => by
      unfold payments_loop
      refine GenTotal.bind_tot (gen_one_payment_total ctx start hproc hsel)
        (fun block => ?_)
      exact GenTotal.bind_tot (payments_loop_total ctx hproc hsel k (start + 1))
        (fun rest => GenTotal.pure_tot _)

theorem payments_loop_fails (ctx : PaymentCtx)
    (hproc : ctx.payment_processors ≠ [])
    (hmulti : ctx.multi = true)
    (hlen : ctx.invoice_choices.length < 2) (k start : Nat) :
    GenFails (payments_loop ctx start (k + 1))
      "ValueError: empty range in randrange" := by
  unfold payments_loop
  exact GenFails.bind_left (gen_one_payment_fails ctx start hproc hmulti hlen)

/-- C10: with multi-invoice enabled, `generate_payment_rows` is total
only when at least two invoice ids are available: with exactly one it
raises `randint(2, 1)`'s uncaught `ValueError` on every supply before
producing any row; with at least two, every payment's block selects
between 2 and `min(5, number available)` distinct invoice ids and emits
one row per selected invoice, all sharing the payment's id, date,
alternate date and amount. -/
theorem payment_multi_invoice_totality (today : Int) (count : Nat)
    (invoice_csv_ids invoice_ids : Option (List String))
    (custom_attributes : Option (List Attr))
    (min_amount max_amount : PyFloat)
    (payment_processors : Option (List String))
    (choices : List String)
    (hch : get_invoice_choices invoice_csv_ids invoice_ids = choices)
    (hca : ∀ a ∈ custom_attributes.getD [],
      a.column_name ≠ "payment_id" ∧ a.column_name ≠ "payment_date" ∧
      a.column_name ≠ "payment_alternate_date" ∧
      a.column_name ≠ "payment_amount" ∧
      a.column_name ≠ "payment_invoice_id") :
    (choices.length = 1 → 1 ≤ count →
      GenFails (generate_payment_rows today count invoice_csv_ids invoice_ids
        custom_attributes true min_amount max_amount payment_processors)
        "ValueError: empty range in randrange") ∧
    (2 ≤ choices.length →
      GenTotal (generate_payment_rows today count invoice_csv_ids invoice_ids
        custom_attributes true min_amount max_amount payment_processors) ∧
      GenSat (generate_payment_rows today count invoice_csv_ids invoice_ids
        custom_attributes true min_amount max_amount payment_processors)
        (fun rows => ∃ blocks : List (List Row),
          rows = blocks.flatten ∧ blocks.length = count ∧
          ∀ j (hj : j < blocks.length),
            ∃ sel : List String, ∃ amount : PyFloat, ∃ alt : String,
              (blocks.get ⟨j, hj⟩).length = sel.length ∧
              2 ≤ sel.length ∧
              (sel.length : Int) ≤ min 5 (choices.length : Int) ∧
              (∀ x ∈ sel, x ∈ choices) ∧
              (choices.Nodup → sel.Nodup) ∧
              ∀ i (hi : i < (blocks.get ⟨j, hj⟩).length)
                  (hi' : i < sel.length),
                ((blocks.get ⟨j, hj⟩).get ⟨i, hi⟩).getk "payment_id"
                    = some (.s (generate_payment_id (1 + j))) ∧
                ((blocks.get ⟨j, hj⟩).get ⟨i, hi⟩).getk "payment_date"
                    = some (.s (generate_payment_date today)) ∧
                ((blocks.get ⟨j, hj⟩).get ⟨i, hi⟩).getk
                    "payment_alternate_date" = some (.s alt) ∧
                ((blocks.get ⟨j, hj⟩).get ⟨i, hi⟩).getk "payment_amount"
                    = some (.q amount) ∧
                ((blocks.get ⟨j, hj⟩).get ⟨i, hi⟩).getk "payment_invoice_id"
                    = some (.s (sel.get ⟨i, hi'⟩)))) := by
  subst hch
  have hproc : (match payment_processors with
      | some (p :: ps) => p :: ps
      | _ => ["Cash"]) ≠ [] := by
    cases payment_processors with
    | none => simp
    | some l => cases l <;> simp
  constructor
  · intro h1 hcount
    unfold generate_payment_rows
    rw [if_neg (by
      intro hc
      rw [hc] at h1
      simp at h1)]
    obtain ⟨k, rfl⟩ : ∃ k, count = k + 1 := ⟨count - 1, by omega⟩
    exact payments_loop_fails _ hproc rfl
      (show (get_invoice_choices invoice_csv_ids invoice_ids).length < 2
        by omega) k 1
  · intro h2
    unfold generate_payment_rows
    rw [if_neg (by
      intro hc
      rw [hc] at h2
      simp at h2)]
    constructor
    · exact payments_loop_total _ hproc
        (select_invoices_total_multi _ h2) count 1
    · refine GenSat.mono
        (payments_loop_sat _ _ (fun num => gen_one_payment_sat _ num hca)
          count 1) ?_
      intro rows hrows
      obtain ⟨blocks, hflat, hlen, hall⟩ := hrows
      refine ⟨blocks, hflat, hlen, ?_⟩
      intro j hj
      obtain ⟨sel, amount, alt, hleneq, hmem, hfalse, htrue, hfields⟩ :=
        hall j hj
      obtain ⟨h2le, hmin, hnodup⟩ := htrue rfl
      exact ⟨sel, amount, alt, hleneq, h2le, hmin, hmem, hnodup, hfields⟩

/-- Witness for C10 at a concrete configuration with three invoice ids
passed as the parameter list. -/
theorem payment_multi_invoice_totality_witness :
    get_invoice_choices none (some ["INV-A", "INV-B", "INV-C"])
        = ["INV-A", "INV-B", "INV-C"] ∧
    (((["INV-A", "INV-B", "INV-C"] : List String).length = 1 → 1 ≤ 1 →
      GenFails (generate_payment_rows 20000 1 none
        (some ["INV-A", "INV-B", "INV-C"]) none true ⟨100, 1⟩ ⟨50000, 1⟩
        none) "ValueError: empty range in randrange") ∧
    (2 ≤ (["INV-A", "INV-B", "INV-C"] : List String).length →
      GenTotal (generate_payment_rows 20000 1 none
        (some ["INV-A", "INV-B", "INV-C"]) none true ⟨100, 1⟩ ⟨50000, 1⟩
        none) ∧
      GenSat (generate_payment_rows 20000 1 none
        (some ["INV-A", "INV-B", "INV-C"]) none true ⟨100, 1⟩ ⟨50000, 1⟩
        none)
        (fun rows => ∃ blocks : List (List Row),
          rows = blocks.flatten ∧ blocks.length = 1 ∧
          ∀ j (hj : j < blocks.length),
            ∃ sel : List String, ∃ amount : PyFloat, ∃ alt : String,
              (blocks.get ⟨j, hj⟩).length = sel.length ∧
              2 ≤ sel.length ∧
              (sel.length : Int) ≤
                min 5 ((["INV-A", "INV-B", "INV-C"] : List String).length
                  : Int) ∧
              (∀ x ∈ sel, x ∈ (["INV-A", "INV-B", "INV-C"] :
                List String)) ∧
              ((["INV-A", "INV-B", "INV-C"] : List String).Nodup →
                sel.Nodup) ∧
              ∀ i (hi : i < (blocks.get ⟨j, hj⟩).length)
                  (hi' : i < sel.length),
                ((blocks.get ⟨j, hj⟩).get ⟨i, hi⟩).getk "payment_id"
                    = some (.s (generate_payment_id (1 + j))) ∧
                ((blocks.get ⟨j, hj⟩).get ⟨i, hi⟩).getk "payment_date"
                    = some (.s (generate_payment_date 20000)) ∧
                ((blocks.get ⟨j, hj⟩).get ⟨i, hi⟩).getk
                    "payment_alternate_date" = some (.s alt) ∧
                ((blocks.get ⟨j, hj⟩).get ⟨i, hi⟩).getk "payment_amount"
                    = some (.q amount) ∧
                ((blocks.get ⟨j, hj⟩).get ⟨i, hi⟩).getk "payment_invoice_id"
                    = some (.s (sel.get ⟨i, hi'⟩))))) :=
  ⟨rfl, payment_multi_invoice_totality 20000 1 none
    (some ["INV-A", "INV-B", "INV-C"]) none ⟨100, 1⟩ ⟨50000, 1⟩ none
    ["INV-A", "INV-B", "INV-C"] rfl (by simp)⟩

/-- C7 (amended): payment ids are sequential and deterministic, not
random: on every successful run of `generate_payment_rows`, every row
of the `j`-th payment's block carries `payment_id
= "CSV-PMT-" ++ zfill (j+1) 3`, and rows of distinct payments always
carry distinct payment ids — no sequence of random draws can make two
payments collide (contrary to the claim's "may collide under
adversarial random seeds"). -/
theorem payment_ids_sequential (today : Int) (count : Nat)
    (invoice_csv_ids invoice_ids : Option (List String))
    (custom_attributes : Option (List Attr))
    (multi : Bool) (min_amount max_amount : PyFloat)
    (payment_processors : Option (List String))
    (hca : ∀ a ∈ custom_attributes.getD [],
      a.column_name ≠ "payment_id" ∧ a.column_name ≠ "payment_date" ∧
      a.column_name ≠ "payment_alternate_date" ∧
      a.column_name ≠ "payment_amount" ∧
      a.column_name ≠ "payment_invoice_id") :
    GenSat (generate_payment_rows today count invoice_csv_ids invoice_ids
      custom_attributes multi min_amount max_amount payment_processors)
      (fun rows => ∃ blocks : List (List Row),
        rows = blocks.flatten ∧ blocks.length = count ∧
        (∀ j (hj : j < blocks.length), ∀ r ∈ blocks.get ⟨j, hj⟩,
          r.getk "payment_id" = some (.s (generate_payment_id (1 + j)))) ∧
        ∀ i j (hi : i < blocks.length) (hj : j < blocks.length), i ≠ j →
          ∀ r ∈ blocks.get ⟨i, hi⟩, ∀ r' ∈ blocks.get ⟨j, hj⟩,
            r.getk "payment_id" ≠ r'.getk "payment_id") := by
  unfold generate_payment_rows
  by_cases hch : get_invoice_choices invoice_csv_ids invoice_ids = []
  · rw [if_pos hch]
    exact GenSat.raise_intro _
  · rw [if_neg hch]
    refine GenSat.mono
      (payments_loop_sat _ _ (fun num => gen_one_payment_sat _ num hca)
        count 1) ?_
    intro rows hrows
    obtain ⟨blocks, hflat, hlen, hall⟩ := hrows
    have hid : ∀ j (hj : j < blocks.length), ∀ r ∈ blocks.get ⟨j, hj⟩,
        r.getk "payment_id" = some (.s (generate_payment_id (1 + j))) := by
      intro j hj r hr
      obtain ⟨sel, amount, alt, hleneq, hmem, hfalse, htrue, hfields⟩ :=
        hall j hj
      obtain ⟨⟨i, hi⟩, hget⟩ := List.mem_iff_get.mp hr
      have hi' : i < sel.length := hleneq ▸ hi
      rw [← hget]
      exact (hfields i hi hi').1
    refine ⟨blocks, hflat, hlen, hid, ?_⟩
    intro i j hi hj hij r hr r' hr' heq
    rw [hid i hi r hr, hid j hj r' hr'] at heq
    have heq2 : generate_payment_id (1 + i) = generate_payment_id (1 + j) := by
      simpa using heq
    have := generate_payment_id_inj (by omega) (by omega) heq2
    omega

/-- Witness for C7's amended theorem at a concrete configuration. -/
theorem payment_ids_sequential_witness :
    GenSat (generate_payment_rows 20000 2 none (some ["INV-A"]) none false
      ⟨100, 1⟩ ⟨50000, 1⟩ none)
      (fun rows => ∃ blocks : List (List Row),
        rows = blocks.flatten ∧ blocks.length = 2 ∧
        (∀ j (hj : j < blocks.length), ∀ r ∈ blocks.get ⟨j, hj⟩,
          r.getk "payment_id" = some (.s (generate_payment_id (1 + j)))) ∧
        ∀ i j (hi : i < blocks.length) (hj : j < blocks.length), i ≠ j →
          ∀ r ∈ blocks.get ⟨i, hi⟩, ∀ r' ∈ blocks.get ⟨j, hj⟩,
            r.getk "payment_id" ≠ r'.getk "payment_id") :=
  payment_ids_sequential 20000 2 none (some ["INV-A"]) none false
    ⟨100, 1⟩ ⟨50000, 1⟩ none (by simp)

/-- C7 counterexample to the claimed collision: at a two-payment batch
over one invoice id, NO sequence of random draws produces two rows of
distinct positions with equal payment ids. -/
theorem payment_id_collision_counterexample :
    ¬ ∃ (s : List Nat) (rows : List Row) (s' : List Nat)
        (i j : Nat) (hi : i < rows.length) (hj : j < rows.length),
      generate_payment_rows 20000 2 none (some ["INV-A"]) none false
        ⟨100, 1⟩ ⟨50000, 1⟩ none s = .ok (rows, s') ∧
      i ≠ j ∧
      (rows.get ⟨i, hi⟩).getk "payment_id"
        = (rows.get ⟨j, hj⟩).getk "payment_id" := by
  rintro ⟨s, rows, s', i, j, hi, hj, hrun, hij, heq⟩
  have hrw : generate_payment_rows 20000 2 none (some ["INV-A"]) none false
      ⟨100, 1⟩ ⟨50000, 1⟩ none
      = payments_loop
        { today := 20000, invoice_choices := ["INV-A"],
          custom_attributes := [], multi := false,
          min_amount := ⟨100, 1⟩, max_amount := ⟨50000, 1⟩,
          payment_processors := ["Cash"] } 1 2 := rfl
  rw [hrw] at hrun
  have hsat := payments_loop_sat _ _
    (fun num => gen_one_payment_sat _ num (by simp)) 2 1 s rows s' hrun
  obtain ⟨blocks, hflat, hlen, hall⟩ := hsat
  obtain ⟨b0, b1, rfl⟩ := List.length_eq_two.mp hlen
  obtain ⟨sel0, am0, alt0, hleneq0, hmem0, hfalse0, htrue0, hfields0⟩ :=
    hall 0 (by simp)
  obtain ⟨sel1, am1, alt1, hleneq1, hmem1, hfalse1, htrue1, hfields1⟩ :=
    hall 1 (by simp)
  have hs0 : sel0.length = 1 := hfalse0 rfl
  have hs1 : sel1.length = 1 := hfalse1 rfl
  simp only [List.get] at hleneq0 hleneq1
  obtain ⟨r0, rfl⟩ := List.length_eq_one.mp (by omega : b0.length = 1)
  obtain ⟨r1, rfl⟩ := List.length_eq_one.mp (by omega : b1.length = 1)
  have hrows : rows = [r0, r1] := by simpa using hflat
  subst hrows
  have hid0 : r0.getk "payment_id" = some (.s (generate_payment_id 1)) := by
    have := (hfields0 0 (by simp) (by omega)).1
    simpa using this
  have hid1 : r1.getk "payment_id" = some (.s (generate_payment_id 2)) := by
    have := (hfields1 0 (by simp) (by omega)).1
    simpa using this
  have hne : generate_payment_id 1 ≠ generate_payment_id 2 := by
    intro hc
    have := generate_payment_id_inj (by omega) (by omega) hc
    omega
  have hlt2 : i < 2 := by simpa using hi
  have hlt2' : j < 2 := by simpa using hj
  clear hrw hrun
  interval_cases i <;> interval_cases j
  · exact hij rfl
  · have h0 : ([r0, r1].get ⟨0, hi⟩) = r0 := rfl
    have h1 : ([r0, r1].get ⟨1, hj⟩) = r1 := rfl
    rw [h0, h1, hid0, hid1] at heq
    exact hne (by simpa using heq)
  · have h0 : ([r0, r1].get ⟨1, hi⟩) = r1 := rfl
    have h1 : ([r0, r1].get ⟨0, hj⟩) = r0 := rfl
    rw [h0, h1, hid0, hid1] at heq
    exact hne (by simpa using heq.symm)
  · exact hij rfl

/-- C6 (amended): `generate_invoice_rows` raises its `ValueError` iff
the provided account ids contain no entry that is non-empty after
stripping, and on success never raises that message; `generate_payment_rows`
raises its `ValueError` iff `_get_invoice_choices` returns no ids, and
otherwise never raises that message.  The payment condition is NOT "no
invoice IDs available from its parameter or CSV sources": a truthy
`invoice_ids` parameter is used exclusively, so an all-blank parameter
list raises even when the CSV source has usable ids (see the
counterexample). -/
theorem availability_value_errors (today : Int)
    (invoice_count payment_count : Nat)
    (account_ids : Option (List String)) (default_currency : String)
    (custom_form_template : String) (tax_config : Option TaxConfig)
    (custom_attributes : Option (List Attr))
    (item_config : Option ItemConfig)
    (line_item_custom_attributes : Option (List Attr))
    (invoice_csv_ids invoice_ids : Option (List String))
    (pay_attrs : Option (List Attr)) (multi : Bool)
    (min_amount max_amount : PyFloat)
    (payment_processors : Option (List String)) :
    (derive_account_choices account_ids default_currency = [] ↔
      ∀ a ∈ account_ids.getD [], pyStrip a = "") ∧
    (derive_account_choices account_ids default_currency = [] →
      GenFails (generate_invoice_rows today invoice_count account_ids
        default_currency custom_form_template tax_config custom_attributes
        item_config line_item_custom_attributes)
        "No account IDs available to associate with invoices.") ∧
    (derive_account_choices account_ids default_currency ≠ [] →
      GenAvoids (generate_invoice_rows today invoice_count account_ids
        default_currency custom_form_template tax_config custom_attributes
        item_config line_item_custom_attributes)
        "No account IDs available to associate with invoices.") ∧
    (get_invoice_choices invoice_csv_ids invoice_ids = [] →
      GenFails (generate_payment_rows today payment_count invoice_csv_ids
        invoice_ids pay_attrs multi min_amount max_amount
        payment_processors)
        "No invoice IDs available for payment generation.") ∧
    (get_invoice_choices invoice_csv_ids invoice_ids ≠ [] →
      GenAvoids (generate_payment_rows today payment_count invoice_csv_ids
        invoice_ids pay_attrs multi min_amount max_amount
        payment_processors)
        "No invoice IDs available for payment generation.") := by
  refine ⟨?_, ?_, ?_, ?_, ?_⟩
  · cases account_ids with
    | none => simp [derive_account_choices]
    | some ids =>
        unfold derive_account_choices
        constructor
        · intro h a ha
          have hmem := List.mem_map_of_mem pyStrip ha
          have := List.filterMap_eq_nil.mp h (pyStrip a) hmem
          by_cases hb : pyStrip a = ""
          · exact hb
          · rw [if_neg hb] at this
            cases this
        · intro h
          refine List.filterMap_eq_nil.mpr ?_
          intro b hb
          obtain ⟨a, ha, rfl⟩ := List.mem_map.mp hb
          rw [if_pos (h a ha)]
  · intro h
    unfold generate_invoice_rows
    rw [if_pos h]
    exact GenFails.raise_fail _
  · intro h
    unfold generate_invoice_rows
    rw [if_neg h]
    refine GenErrIn.to_avoids ?_ (by decide)
    exact GenErrIn.bind_errin (resolve_system_identifiers_errs _ _)
      (fun sys => invoice_rows_loop_errs _ invoice_count 0)
  · intro h
    unfold generate_payment_rows
    rw [if_pos h]
    exact GenFails.raise_fail _
  · intro h
    unfold generate_payment_rows
    rw [if_neg h]
    exact GenErrIn.to_avoids (payments_loop_errs _ payment_count 1)
      (by decide)

/-- C6 counterexample: the CSV source holds a usable invoice id, yet an
all-blank `invoice_ids` parameter makes `generate_payment_rows` raise —
the parameter list is consulted exclusively once truthy, so ids ARE
available from the CSV source and the run still fails. -/
theorem payment_availability_counterexample :
    pyStrip "CSV-INV-123456" ≠ "" ∧
    get_invoice_choices (some ["CSV-INV-123456"]) (some [" "]) = [] ∧
    generate_payment_rows 20000 1 (some ["CSV-INV-123456"]) (some [" "])
      none false ⟨100, 1⟩ ⟨50000, 1⟩ none (List.replicate 60 999999)
      = .error "No invoice IDs available for payment generation." :=
  ⟨by decide, rfl, rfl⟩

/-- Every row of one payment's block carries a constant attribute's
fixed value (the payment generator checks the `constant` flag). -/
theorem gen_one_payment_const (ctx : PaymentCtx) (num : Nat)
    (a : Attr) (v : PyVal) (ha : a ∈ ctx.custom_attributes)
    (hconst : a.constant = true) (hv : a.value = some v)
    (hnd : (ctx.custom_attributes.map Attr.column_name).Nodup) :
    GenSat (gen_one_payment ctx num)
      (fun block => ∀ r ∈ block, r.getk a.column_name = some v) := by
  unfold gen_one_payment
  refine GenSat.bind_any (fun origin => ?_)
  refine GenSat.bind_any (fun alt => ?_)
  refine GenSat.bind_any (fun processor => ?_)
  refine GenSat.bind_any (fun amount => ?_)
  refine GenSat.bind_any (fun note => ?_)
  have hand : GenSat (gen_payment_attrs ctx.today ctx.custom_attributes [])
      (fun u => u.getk a.column_name = some v ∧ u.keys.Nodup) :=
    GenSat.and_intro
      (gen_payment_attrs_const ctx.today ctx.custom_attributes [] a v
        ha hconst hv hnd)
      (gen_payment_attrs_nodup ctx.today ctx.custom_attributes []
        (by simp [Row.keys]))
  refine GenSat.bind_post
    (fun u => u.getk a.column_name = some v ∧ u.keys.Nodup)
    hand (fun attrs hattrs => ?_)
  refine GenSat.bind_any (fun sel => ?_)
  refine GenSat.pure_intro ?_
  intro r hr
  obtain ⟨inv, hinv, rfl⟩ := List.mem_map.mp hr
  rw [row_update_getk_mem attrs _ a.column_name hattrs.2
    (Row.mem_keys_of_getk hattrs.1)]
  exact hattrs.1

/-- C3 (amended): the payment generator honors the `constant` flag —
every output row carries the fixed value in a constant attribute's
column.  The invoice generator does NOT: its `_random_value_for_attr`
never consults `constant`, so a constant invoice attribute is drawn
randomly (see the counterexample, where a constant dropdown comes out
`""` instead of its fixed value). -/
theorem payment_constant_attr_honored (today : Int) (count : Nat)
    (invoice_csv_ids invoice_ids : Option (List String))
    (attrs : List Attr) (multi : Bool) (min_amount max_amount : PyFloat)
    (payment_processors : Option (List String))
    (a : Attr) (v : PyVal) (ha : a ∈ attrs) (hconst : a.constant = true)
    (hv : a.value = some v)
    (hnd : (attrs.map Attr.column_name).Nodup) :
    GenSat (generate_payment_rows today count invoice_csv_ids invoice_ids
      (some attrs) multi min_amount max_amount payment_processors)
      (fun rows => ∀ r ∈ rows, r.getk a.column_name = some v) := by
  unfold generate_payment_rows
  by_cases hch : get_invoice_choices invoice_csv_ids invoice_ids = []
  · rw [if_pos hch]
    exact GenSat.raise_intro _
  · rw [if_neg hch]
    refine GenSat.mono
      (payments_loop_sat _ (fun _ block => ∀ r ∈ block,
          r.getk a.column_name = some v)
        (fun num => gen_one_payment_const _ num a v ha hconst hv hnd)
        count 1) ?_
    intro rows hrows
    obtain ⟨blocks, hflat, hlen, hall⟩ := hrows
    intro r hr
    rw [hflat] at hr
    obtain ⟨b, hb, hrb⟩ := List.mem_flatten.mp hr
    obtain ⟨⟨j, hj⟩, hget⟩ := List.mem_iff_get.mp hb
    exact hall j hj r (hget ▸ hrb)

/-- Witness for C3's amended theorem: a constant dropdown attribute on
a concrete payment run. -/
theorem payment_constant_attr_honored_witness :
    ({ column_name := "ca_pay_level", type := "dropdown",
       constant := true, value := some (.s "GOLD") } : Attr) ∈
      [({ column_name := "ca_pay_level", type := "dropdown",
          constant := true, value := some (.s "GOLD") } : Attr)] ∧
    GenSat (generate_payment_rows 20000 2 none (some ["INV-A"])
      (some [{ column_name := "ca_pay_level", type := "dropdown",
               constant := true, value := some (.s "GOLD") }]) false
      ⟨100, 1⟩ ⟨50000, 1⟩ none)
      (fun rows => ∀ r ∈ rows,
        r.getk "ca_pay_level" = some (.s "GOLD")) :=
  ⟨by simp, payment_constant_attr_honored 20000 2 none (some ["INV-A"])
    [{ column_name := "ca_pay_level", type := "dropdown",
       constant := true, value := some (.s "GOLD") }] false
    ⟨100, 1⟩ ⟨50000, 1⟩ none
    { column_name := "ca_pay_level", type := "dropdown",
      constant := true, value := some (.s "GOLD") }
    (.s "GOLD") (by simp) rfl rfl (by simp)⟩

/-- C3 counterexample: the invoice generator ignores the `constant`
flag — a constant dropdown attribute with fixed value `"FIXED"` and no
options is drawn as `""` on every row of a concrete run, and the fixed
value never appears. -/
theorem invoice_constant_attr_counterexample :
    ∃ (rows : List Row) (s' : List Nat),
      generate_invoice_rows 20000 1 (some ["ACC1"]) "AUD" "TPL" none
        (some [{ column_name := "ca_invoice_attr_K", type := "dropdown",
                 constant := true, value := some (.s "FIXED") }])
        (some demo_item_config) none demo_supply = .ok (rows, s') ∧
      rows.map (fun r => r.getk "ca_invoice_attr_K")
        = [some (.s ""), some (.s "")] ∧
      (∀ r ∈ rows, r.getk "ca_invoice_attr_K" ≠ some (.s "FIXED")) := by
  refine ⟨_, _, rfl, ?_, ?_⟩ <;> decide

/-- Decimal length: a number in `[10^k, 10^(k+1))` has `k + 1` digits. -/
theorem natDigitsGo_length (n : Nat) :
    ∀ fuel, n ≤ fuel → ∀ k, 10 ^ k ≤ n → n < 10 ^ (k + 1) →
      (natDigitsGo fuel n []).length = k + 1 := by
  induction n using Nat.strong_induction_on with
  | _ n ih =>
      intro fuel hn k hk1 hk2
      rw [natDigitsGo_unfold fuel n hn]
      by_cases h : n < 10
      · have hk0 : k = 0 := by
          by_contra hne
          have h10 : (10 : Nat) ≤ 10 ^ k := by
            calc (10 : Nat) = 10 ^ 1 := by norm_num
            _ ≤ 10 ^ k := Nat.pow_le_pow_right (by norm_num) (by omega)
          omega
        subst hk0
        simp [h]
      · simp only [if_neg h, List.length_append, List.length_singleton]
        have hk0 : k ≠ 0 := by
          intro hk0
          subst hk0
          norm_num at hk2
          omega
        obtain ⟨k', rfl⟩ : ∃ k', k = k' + 1 := ⟨k - 1, by omega⟩
        have hdiv1 : 10 ^ k' ≤ n / 10 := by
          rw [Nat.le_div_iff_mul_le (by norm_num)]
          calc 10 ^ k' * 10 = 10 ^ (k' + 1) := by ring
          _ ≤ n := hk1
        have hdiv2 : n / 10 < 10 ^ (k' + 1) := by
          rw [Nat.div_lt_iff_lt_mul (by norm_num)]
          calc n < 10 ^ (k' + 1 + 1) := hk2
          _ = 10 ^ (k' + 1) * 10 := by ring
        rw [ih (n / 10) (Nat.div_lt_self (by omega) (by omega)) (fuel - 1)
          (by omega) k' hdiv1 hdiv2]

theorem natToStr_length_five {n : Nat} (h1 : 10000 ≤ n) (h2 : n ≤ 99999) :
    (natToStr n).length = 5 := by
  show (natDigitsGo n n []).length = 5
  have := natDigitsGo_length n n le_rfl 4 (by norm_num; omega)
    (by norm_num; omega)
  simpa using this

theorem intToStr_nonneg {i : Int} (h : 0 ≤ i) :
    intToStr i = natToStr i.toNat := by
  unfold intToStr
  rw [if_neg (by omega)]
  have h2 : i.natAbs = i.toNat := by omega
  rw [h2]
  refine string_eq_of_data ?_
  rw [string_data_append]
  rfl

/-- Every generated account id is `CSV-ACC-` + five digits + `-CUS` or
`-SUP`. -/
theorem generate_account_id_sat :
    GenSat generate_account_id (fun id => ∃ n : Nat, ∃ sfx : String,
      10000 ≤ n ∧ n ≤ 99999 ∧ (sfx = "CUS" ∨ sfx = "SUP") ∧
      id = "CSV-ACC-" ++ natToStr n ++ "-" ++ sfx ∧
      (natToStr n).length = 5 ∧
      ∀ c ∈ (natToStr n).data,
        '0'.toNat ≤ c.toNat ∧ c.toNat ≤ '9'.toNat) := by
  unfold generate_account_id
  refine GenSat.bind_post (fun x => 10000 ≤ x ∧ x ≤ 99999)
    (GenSat.randint_bounds _ _) (fun number hnum => ?_)
  refine GenSat.bind_post (fun s => s ∈ ["CUS", "SUP"])
    (GenSat.choice_intro _) (fun sfx hsfx => ?_)
  refine GenSat.pure_intro ?_
  refine ⟨number.toNat, sfx, by omega, by omega, by simpa using hsfx,
    ?_, natToStr_length_five (by omega) (by omega), ?_⟩
  · rw [intToStr_nonneg (by omega)]
  · intro c hc
    exact natDigitsGo_digits number.toNat number.toNat le_rfl c hc

/-- Whenever the retry loop yields an id, it is fresh and satisfies any
postcondition of `generate_account_id`. -/
theorem account_id_retry_sat (P : String → Prop)
    (hgen : GenSat generate_account_id P) (used : List String) :
    ∀ fuel, GenSat (account_id_retry used fuel) (fun res =>
      ∀ id, res = some id → id ∉ used ∧ P id)
  | 0 => GenSat.pure_intro (fun id h => by cases h)
  | fuel + 1 => by
      unfold account_id_retry
      refine GenSat.bind_post P hgen (fun id hid => ?_)
      by_cases hmem : id ∈ used
      · rw [if_pos hmem]
        exact account_id_retry_sat P hgen used fuel
      · rw [if_neg hmem]
        refine GenSat.pure_intro ?_
        intro id' h
        cases h
        exact ⟨hmem, hid⟩

/-- Whenever the batch id loop yields a list, the ids are pairwise
distinct, disjoint from `used`, and all satisfy any postcondition of
`generate_account_id`. -/
theorem account_ids_loop_sat (P : String → Prop)
    (hgen : GenSat generate_account_id P) (fuel : Nat) :
    ∀ (k : Nat) (used : List String),
      GenSat (account_ids_loop fuel used k) (fun res =>
        ∀ ids, res = some ids → ids.length = k ∧ ids.Nodup ∧
          (∀ id ∈ ids, id ∉ used) ∧ ∀ id ∈ ids, P id)
  | 0, used => GenSat.pure_intro (fun ids h => by cases h; simp)
  | k + 1, used => by
      unfold account_ids_loop
      refine GenSat.bind_post _ (account_id_retry_sat P hgen used fuel)
        (fun r hr => ?_)
      cases r with
      | none => exact GenSat.pure_intro (fun ids h => by cases h)
      | some id =>
          obtain ⟨hfresh, hP⟩ := hr id rfl
          refine GenSat.bind_post _
            (account_ids_loop_sat P hgen fuel k (id :: used))
            (fun rest hrest => ?_)
          cases rest with
          | none => exact GenSat.pure_intro (fun ids h => by cases h)
          | some ids =>
              obtain ⟨hlen, hnd, hnotin, hPs⟩ := hrest ids rfl
              refine GenSat.pure_intro ?_
              intro ids' h
              cases h
              refine ⟨by simp [hlen], ?_, ?_, ?_⟩
              · rw [List.nodup_cons]
                refine ⟨?_, hnd⟩
                intro hc
                exact hnotin id hc (List.mem_cons_self _ _)
              · intro id' hid'
                rcases List.mem_cons.mp hid' with h1 | h1
                · exact h1 ▸ hfresh
                · intro hc
                  exact hnotin id' h1 (List.mem_cons_of_mem _ hc)
              · intro id' hid'
                rcases List.mem_cons.mp hid' with h1 | h1
                · exact h1 ▸ hP
                · exact hPs id' h1

/-- C4: every list of account ids the batch loop produces consists of
ids matching `CSV-ACC-<5 digits>-(CUS|SUP)`, pairwise distinct within
the batch — uniqueness coming from the generate-and-retry loop. -/
theorem account_ids_unique_pattern (fuel k : Nat) :
    GenSat (account_ids_loop fuel [] k) (fun res =>
      ∀ ids, res = some ids → ids.length = k ∧ ids.Nodup ∧
        ∀ id ∈ ids, ∃ n : Nat, ∃ sfx : String,
          10000 ≤ n ∧ n ≤ 99999 ∧ (sfx = "CUS" ∨ sfx = "SUP") ∧
          id = "CSV-ACC-" ++ natToStr n ++ "-" ++ sfx ∧
          (natToStr n).length = 5 ∧
          ∀ c ∈ (natToStr n).data,
            '0'.toNat ≤ c.toNat ∧ c.toNat ≤ '9'.toNat) := by
  refine GenSat.mono
    (account_ids_loop_sat _ generate_account_id_sat fuel k []) ?_
  intro res hres ids hids
  obtain ⟨hlen, hnd, _, hPs⟩ := hres ids hids
  exact ⟨hlen, hnd, hPs⟩

/-- Any valid date's ordinal within its year lies in `[1, 366]`. -/
theorem dayOfYear_bounds (y : Int) {m d : Int} (hm1 : 1 ≤ m)
    (hm2 : m ≤ 12) (hd1 : 1 ≤ d) (hd2 : d ≤ daysInMonth y m) :
    1 ≤ dayOfYear y m d ∧ dayOfYear y m d ≤ 366 := by
  by_cases hleap : isLeapYear y <;>
    (interval_cases m <;>
      simp_all [dayOfYear, daysBeforeMonth, daysInMonth] <;> omega)

theorem account_date_attr_sat (num_rows : Nat) (ty tm td : Int)
    (hm1 : 1 ≤ tm) (hm2 : tm ≤ 12) (hd1 : 1 ≤ td)
    (hd2 : td ≤ daysInMonth ty tm) :
    GenSat (account_date_attr_value num_rows ty tm) (fun s =>
      ∃ m d : Int, 1 ≤ m ∧ m ≤ tm ∧ 1 ≤ d ∧ d ≤ daysInMonth ty m ∧
        s = isoDate ty m d ∧
        -365 ≤ dayOfYear ty m d - dayOfYear ty tm td ∧
        dayOfYear ty m d - dayOfYear ty tm td ≤ 365) := by
  unfold account_date_attr_value
  have hmonth : GenSat
      (if num_rows ≤ 30 ∨ tm = 1 then pure tm else Gen.randint 1 tm)
      (fun month => 1 ≤ month ∧ month ≤ tm) := by
    split_ifs
    · exact GenSat.pure_intro ⟨hm1, le_refl tm⟩
    · exact GenSat.randint_bounds 1 tm
  refine GenSat.bind_post _ hmonth (fun month hmon => ?_)
  refine GenSat.bind_post _ (GenSat.randint_bounds 1 (daysInMonth ty month))
    (fun day hday => ?_)
  refine GenSat.pure_intro ?_
  have hb1 := dayOfYear_bounds ty (by omega : 1 ≤ month)
    (by omega : month ≤ 12) hday.1 hday.2
  have hb2 := dayOfYear_bounds ty hm1 hm2 hd1 hd2
  exact ⟨month, day, hmon.1, hmon.2, hday.1, hday.2, rfl,
    by omega, by omega⟩

/-- C8: a non-constant `date` custom attribute is rendered in ISO
`%Y-%m-%d` form within 365 days of generation time in both attribute
pipelines: the shared `_random_value_for_attr` draws
`today + randint(-365, 365)`, and the account generator draws a
current-year date no earlier than January 1st (at most 365 days back)
and no later than the end of the current month (at most 365 days
ahead). -/
theorem date_attr_within_year (today : Int) (attr : Attr)
    (num_rows : Nat) (ty tm td : Int)
    (hdate : attr.type = "date")
    (hm1 : 1 ≤ tm) (hm2 : tm ≤ 12) (hd1 : 1 ≤ td)
    (hd2 : td ≤ daysInMonth ty tm) :
    GenSat (random_value_for_attr today attr) (fun v =>
      ∃ off : Int, -365 ≤ off ∧ off ≤ 365 ∧
        v = .s (isoOfOrdinal (today + off))) ∧
    GenSat (account_date_attr_value num_rows ty tm) (fun s =>
      ∃ m d : Int, s = isoDate ty m d ∧
        -365 ≤ dayOfYear ty m d - dayOfYear ty tm td ∧
        dayOfYear ty m d - dayOfYear ty tm td ≤ 365) := by
  constructor
  · unfold random_value_for_attr
    rw [if_neg (by rw [hdate]; decide), if_neg (by rw [hdate]; decide),
      if_pos hdate]
    refine GenSat.bind_post _ (GenSat.randint_bounds (-365) 365)
      (fun off hoff => ?_)
    exact GenSat.pure_intro ⟨off, hoff.1, hoff.2, rfl⟩
  · refine GenSat.mono
      (account_date_attr_sat num_rows ty tm td hm1 hm2 hd1 hd2) ?_
    intro s hs
    obtain ⟨m, d, _, _, _, _, hiso, hlo, hhi⟩ := hs
    exact ⟨m, d, hiso, hlo, hhi⟩

/-- Witness for C8 at a concrete date attribute and a concrete
generation date (2026-10-12). -/
theorem date_attr_within_year_witness :
    ({ column_name := "ca_d", type := "date" } : Attr).type = "date" ∧
    (GenSat (random_value_for_attr 20000
        { column_name := "ca_d", type := "date" }) (fun v =>
      ∃ off : Int, -365 ≤ off ∧ off ≤ 365 ∧
        v = .s (isoOfOrdinal (20000 + off))) ∧
    GenSat (account_date_attr_value 100 2026 10) (fun s =>
      ∃ m d : Int, s = isoDate 2026 m d ∧
        -365 ≤ dayOfYear 2026 m d - dayOfYear 2026 10 12 ∧
        dayOfYear 2026 m d - dayOfYear 2026 10 12 ≤ 365)) :=
  ⟨rfl, date_attr_within_year 20000 { column_name := "ca_d", type := "date" }
    100 2026 10 12 rfl (by decide) (by decide) (by decide) (by decide)⟩

theorem skipWs_cons {c : Char} (cs : List Char) (h : isWs c = false) :
    skipWs (c :: cs) = c :: cs := by
  simp [skipWs, h]

theorem escapeString_length :
    ∀ cs : List Char, cs.length ≤ (escapeString cs).length
  | [] => le_refl 0
  | c :: cs => by
      have ih := escapeString_length cs
      have hc : 1 ≤ (escapeChar c).length := by
        unfold escapeChar
        split_ifs <;> simp
      simp only [escapeString, List.length_append, List.length_cons]
      omega

theorem parseStringBody_escape :
    ∀ (s : List Char) (fuel : Nat) (rest : List Char), s.length < fuel →
      parseStringBody fuel (escapeString s ++ ('"' :: rest))
        = some (s, rest)
  | [], fuel, rest, h => by
      obtain ⟨f, rfl⟩ : ∃ f, fuel = f + 1 := ⟨fuel - 1, by omega⟩
      simp [escapeString, parseStringBody]
  | c :: cs, fuel, rest, h => by
      obtain ⟨f, rfl⟩ : ∃ f, fuel = f + 1 := ⟨fuel - 1, by omega⟩
      have hcs : cs.length < f := by
        simp only [List.length_cons] at h
        omega
      have ih := parseStringBody_escape cs f rest hcs
      by_cases h1 : c = '"'
      · subst h1
        simp [escapeString, escapeChar, parseStringBody, escDecode, ih]
      · by_cases h2 : c = '\\'
        · subst h2
          simp [escapeString, escapeChar, parseStringBody, escDecode, ih]
        · by_cases h3 : c = '\n'
          · subst h3
            simp [escapeString, escapeChar, parseStringBody, escDecode, ih]
          · by_cases h4 : c = '\t'
            · subst h4
              simp [escapeString, escapeChar, parseStringBody, escDecode,
                ih]
            · by_cases h5 : c = '\r'
              · subst h5
                simp [escapeString, escapeChar, parseStringBody, escDecode,
                  ih]
              · by_cases h6 : c = '\x08'
                · subst h6
                  simp [escapeString, escapeChar, parseStringBody,
                    escDecode, ih]
                · by_cases h7 : c = '\x0C'
                  · subst h7
                    simp [escapeString, escapeChar, parseStringBody,
                      escDecode, ih]
                  · have hec : escapeChar c = [c] := by
                      unfold escapeChar
                      rw [if_neg h1, if_neg h2, if_neg h3, if_neg h4,
                        if_neg h5, if_neg h6, if_neg h7]
                    simp [escapeString, hec, parseStringBody, h1, h2, ih]

theorem takeDigits_all :
    ∀ (ds rest : List Char), (∀ c ∈ ds, isDigitChar c = true) →
      headNotDigit rest = true → takeDigits (ds ++ rest) = (ds, rest)
  | [], rest, _, hr => by
      cases rest with
      | nil => rfl
      | cons c cs =>
          simp only [headNotDigit, Bool.not_eq_true'] at hr
          simp [takeDigits, hr]
  | d :: ds, rest, hds, hr => by
      have ih := takeDigits_all ds rest
        (fun c hc => hds c (List.mem_cons_of_mem _ hc)) hr
      simp [takeDigits, hds d (List.mem_cons_self _ _), ih]

theorem natDigits_all_digits (n : Nat) :
    ∀ c ∈ natDigits n, isDigitChar c = true := by
  intro c hc
  have := natDigitsGo_digits n n le_rfl c hc
  unfold isDigitChar
  rw [if_pos]
  exact this

theorem natDigits_ne_nil (n : Nat) : natDigits n ≠ [] := by
  obtain ⟨c, cs, h, _⟩ := natDigitsGo_head n n le_rfl
  unfold natDigits
  rw [h]
  simp

/-- `48 ≤ toNat ≤ 57` pins a digit character away from the parser's
structural characters. -/
theorem digit_char_facts {c : Char} (h1 : 48 ≤ c.toNat)
    (h2 : c.toNat ≤ 57) :
    isWs c = false ∧ c ≠ ']' ∧ c ≠ '}' ∧ c ≠ '-' ∧ c ≠ 'n' ∧ c ≠ 't' ∧
      c ≠ 'f' ∧ c ≠ '"' ∧ c ≠ '[' ∧ c ≠ '{' := by
  refine ⟨?_, ?_, ?_, ?_, ?_, ?_, ?_, ?_, ?_, ?_⟩
  · unfold isWs
    rw [if_neg]
    rintro (rfl | rfl | rfl | rfl)
    · exact absurd h1 (by decide)
    · exact absurd h1 (by decide)
    · exact absurd h1 (by decide)
    · exact absurd h1 (by decide)
  · intro h
    subst h
    exact absurd h2 (by decide)
  · intro h
    subst h
    exact absurd h2 (by decide)
  · intro h
    subst h
    exact absurd h1 (by decide)
  · intro h
    subst h
    exact absurd h2 (by decide)
  · intro h
    subst h
    exact absurd h2 (by decide)
  · intro h
    subst h
    exact absurd h2 (by decide)
  · intro h
    subst h
    exact absurd h1 (by decide)
  · intro h
    subst h
    exact absurd h2 (by decide)
  · intro h
    subst h
    exact absurd h2 (by decide)

theorem headNotDigit_cons {c : Char} (l : List Char)
    (h : isDigitChar c = false) : headNotDigit (c :: l) = true := by
  simp [headNotDigit, h]

theorem numBoundary_cons {c : Char} (l : List Char)
    (h1 : isDigitChar c = false) (h2 : c ≠ '.') :
    numBoundary (c :: l) = true := by
  simp [numBoundary, h1, h2]

theorem numBoundary_cons_elim {c : Char} {cs : List Char}
    (h : numBoundary (c :: cs) = true) :
    isDigitChar c = false ∧ c ≠ '.' := by
  simp only [numBoundary] at h
  by_cases hd : isDigitChar c = true ∨ c = '.'
  · rw [if_pos hd] at h
    cases h
  · push_neg at hd
    refine ⟨?_, hd.2⟩
    cases hfc : isDigitChar c
    · rfl
    · exact absurd hfc hd.1

theorem numBoundary_headNotDigit {l : List Char}
    (h : numBoundary l = true) : headNotDigit l = true := by
  cases l with
  | nil => rfl
  | cons c cs =>
      have := (numBoundary_cons_elim h).1
      simp [headNotDigit, this]

theorem digitsVal_replicate_zero :
    ∀ (k : Nat) (ds : List Char),
      digitsVal (List.replicate k '0' ++ ds) = digitsVal ds
  | 0, ds => by simp
  | k + 1, ds => by
      simp only [List.replicate_succ, List.cons_append]
      simp only [digitsVal, List.foldl_cons]
      rw [show (0 * 10 + ('0'.toNat - '0'.toNat)) = 0 from by decide]
      exact digitsVal_replicate_zero k ds

/-- Decimal length upper bound: `n < 10^k` has at most `k` digits. -/
theorem natDigitsGo_length_le (n : Nat) :
    ∀ (fuel k : Nat), n ≤ fuel → 1 ≤ k → n < 10 ^ k →
      (natDigitsGo fuel n []).length ≤ k := by
  induction n using Nat.strong_induction_on with
  | _ n ih =>
      intro fuel k hn hk1 hk
      rw [natDigitsGo_unfold fuel n hn]
      by_cases h : n < 10
      · simpa [h] using hk1
      · simp only [if_neg h, List.length_append, List.length_singleton]
        have hk2 : 2 ≤ k := by
          by_contra hlt
          have hke : k = 1 := by omega
          subst hke
          norm_num at hk
          omega
        have hdiv : n / 10 < 10 ^ (k - 1) := by
          rw [Nat.div_lt_iff_lt_mul (by norm_num)]
          calc n < 10 ^ k := hk
          _ = 10 ^ (k - 1) * 10 := by
              rw [← pow_succ]
              congr 1
              omega
        have := ih (n / 10) (Nat.div_lt_self (by omega) (by omega))
          (fuel - 1) (k - 1) (by omega) (by omega) hdiv
        omega

theorem fracDigits_facts (b e : Nat) (hb : b < 10 ^ (e + 1)) :
    (∀ c ∈ fracDigits b e, isDigitChar c = true) ∧
    (fracDigits b e).length = e + 1 ∧
    digitsVal (fracDigits b e) = b ∧ fracDigits b e ≠ [] := by
  have hlen : (natDigits b).length ≤ e + 1 :=
    natDigitsGo_length_le b b (e + 1) le_rfl (by omega) hb
  refine ⟨?_, ?_, ?_, ?_⟩
  · intro c hc
    unfold fracDigits at hc
    rcases List.mem_append.mp hc with h | h
    · have hc0 : c = '0' := List.eq_of_mem_replicate h
      subst hc0
      decide
    · exact natDigits_all_digits b c h
  · unfold fracDigits
    simp only [List.length_append, List.length_replicate]
    omega
  · unfold fracDigits
    rw [digitsVal_replicate_zero]
    exact digitsVal_natDigitsGo b b le_rfl
  · unfold fracDigits
    intro hc
    have hlc := congrArg List.length hc
    simp only [List.length_append, List.length_replicate,
      List.length_nil] at hlc
    exact natDigits_ne_nil b (List.length_eq_zero.mp (by omega))

theorem parseUNum_nat (n : Nat) (rest : List Char)
    (hr : numBoundary rest = true) :
    parseUNum (natDigits n ++ rest) = some (.i (n : Int), rest) := by
  have hdv : digitsVal (natDigits n) = n :=
    digitsVal_natDigitsGo n n le_rfl
  cases rest with
  | nil =>
      have htake : takeDigits (natDigits n ++ []) = (natDigits n, []) :=
        takeDigits_all _ _ (natDigits_all_digits n) rfl
      simp only [parseUNum, htake]
      rw [if_neg (natDigits_ne_nil n), hdv]
  | cons c2 cs2 =>
      have hel := numBoundary_cons_elim hr
      have htake : takeDigits (natDigits n ++ (c2 :: cs2))
          = (natDigits n, c2 :: cs2) :=
        takeDigits_all _ _ (natDigits_all_digits n)
          (headNotDigit_cons _ hel.1)
      simp only [parseUNum, htake]
      rw [if_neg (natDigits_ne_nil n), if_neg hel.2, hdv]

theorem parseUNum_float (n e : Nat) (rest : List Char)
    (hr : numBoundary rest = true) :
    parseUNum ((natDigits (n / 10 ^ (e + 1))
        ++ ('.' :: fracDigits (n % 10 ^ (e + 1)) e)) ++ rest)
      = some (.f (n : Int) e, rest) := by
  have hb : n % 10 ^ (e + 1) < 10 ^ (e + 1) :=
    Nat.mod_lt _ (by positivity)
  obtain ⟨hfd, hflen, hfval, hfne⟩ := fracDigits_facts _ e hb
  have htake2 : takeDigits (fracDigits (n % 10 ^ (e + 1)) e ++ rest)
      = (fracDigits (n % 10 ^ (e + 1)) e, rest) :=
    takeDigits_all _ _ hfd (numBoundary_headNotDigit hr)
  have htake1 : takeDigits (natDigits (n / 10 ^ (e + 1))
      ++ ('.' :: (fracDigits (n % 10 ^ (e + 1)) e ++ rest)))
      = (natDigits (n / 10 ^ (e + 1)),
        '.' :: (fracDigits (n % 10 ^ (e + 1)) e ++ rest)) :=
    takeDigits_all _ _ (natDigits_all_digits _)
      (headNotDigit_cons _ (by decide))
  simp only [List.append_assoc, List.cons_append]
  simp only [parseUNum, htake1]
  rw [if_neg (natDigits_ne_nil _), if_pos trivial]
  simp only [htake2]
  rw [if_neg hfne]
  have hdvi : digitsVal (natDigits (n / 10 ^ (e + 1)))
      = n / 10 ^ (e + 1) := digitsVal_natDigitsGo _ _ le_rfl
  rw [hdvi, hfval, hflen]
  have harith : n / 10 ^ (e + 1) * 10 ^ (e + 1) + n % 10 ^ (e + 1)
      = n := by
    rw [mul_comm]
    exact Nat.div_add_mod n (10 ^ (e + 1))
  rw [harith, Nat.add_sub_cancel]

theorem parseNum_render (v : Int) (rest : List Char)
    (hr : numBoundary rest = true) :
    parseNum ((intToStr v).data ++ rest) = some (.i v, rest) := by
  by_cases hv : v < 0
  · have hdata : (intToStr v).data = '-' :: (natToStr v.natAbs).data := by
      unfold intToStr
      rw [if_pos hv, string_data_append]
      rfl
    rw [hdata]
    simp only [List.cons_append]
    simp only [parseNum]
    rw [if_pos trivial]
    have hnd : (natToStr v.natAbs).data = natDigits v.natAbs := rfl
    rw [hnd, parseUNum_nat v.natAbs rest hr]
    simp only [negNum]
    have hcast : -((v.natAbs : Nat) : Int) = v := by omega
    rw [hcast]
  · rw [intToStr_nonneg (by omega)]
    obtain ⟨c, cs, hcs, _⟩ := natDigitsGo_head v.toNat v.toNat le_rfl
    have hb := natDigitsGo_digits v.toNat v.toNat le_rfl c
      (by rw [show natDigitsGo v.toNat v.toNat [] = c :: cs from hcs]
          exact List.mem_cons_self _ _)
    have hfacts := digit_char_facts hb.1 hb.2
    have hnd : (natToStr v.toNat).data = c :: cs := hcs
    rw [hnd]
    simp only [List.cons_append]
    simp only [parseNum]
    rw [if_neg hfacts.2.2.2.1]
    have hback : c :: (cs ++ rest) = natDigits v.toNat ++ rest := by
      rw [show natDigits v.toNat = c :: cs from hcs]
      simp
    rw [hback, parseUNum_nat v.toNat rest hr]
    have hcast : ((v.toNat : Nat) : Int) = v := by omega
    rw [hcast]

theorem parseFloat_render (m : Int) (e : Nat) (rest : List Char)
    (hr : numBoundary rest = true) :
    parseNum (renderFloat m e ++ rest) = some (.f m e, rest) := by
  by_cases hm : m < 0
  · unfold renderFloat
    rw [if_pos hm]
    simp only [List.cons_append, List.nil_append]
    simp only [parseNum]
    rw [if_pos trivial]
    rw [parseUNum_float m.natAbs e rest hr]
    simp only [negNum]
    have hcast : -((m.natAbs : Nat) : Int) = m := by omega
    rw [hcast]
  · unfold renderFloat
    rw [if_neg hm]
    simp only [List.nil_append]
    obtain ⟨c, cs, hcs, _⟩ := natDigitsGo_head
      (m.natAbs / 10 ^ (e + 1)) (m.natAbs / 10 ^ (e + 1)) le_rfl
    have hb := natDigitsGo_digits (m.natAbs / 10 ^ (e + 1))
      (m.natAbs / 10 ^ (e + 1)) le_rfl c
      (by rw [hcs]; exact List.mem_cons_self _ _)
    have hfacts := digit_char_facts hb.1 hb.2
    have hshape : (natDigits (m.natAbs / 10 ^ (e + 1))
        ++ ('.' :: fracDigits (m.natAbs % 10 ^ (e + 1)) e)) ++ rest
        = c :: ((cs ++ ('.' :: fracDigits (m.natAbs % 10 ^ (e + 1)) e))
          ++ rest) := by
      rw [show natDigits (m.natAbs / 10 ^ (e + 1)) = c :: cs from hcs]
      simp
    rw [hshape]
    simp only [parseNum]
    rw [if_neg hfacts.2.2.2.1, ← hshape,
      parseUNum_float m.natAbs e rest hr]
    have hcast : ((m.natAbs : Nat) : Int) = m := by omega
    rw [hcast]

/-- Every rendered value starts with a non-whitespace character that is
neither a closing bracket nor a closing brace. -/
theorem renderJson_head (v : Json) :
    ∃ c cs, renderJson v = c :: cs ∧ isWs c = false ∧ c ≠ ']' ∧
      c ≠ '}' := by
  cases v with
  | null => exact ⟨'n', ['u', 'l', 'l'], by simp [renderJson], by decide,
      by decide, by decide⟩
  | b bv =>
      cases bv with
      | true => exact ⟨'t', ['r', 'u', 'e'], by simp [renderJson],
          by decide, by decide, by decide⟩
      | false => exact ⟨'f', ['a', 'l', 's', 'e'], by simp [renderJson],
          by decide, by decide, by decide⟩
  | i v =>
      by_cases hv : v < 0
      · refine ⟨'-', (natToStr v.natAbs).data, ?_, by decide, by decide,
          by decide⟩
        simp only [renderJson]
        unfold intToStr
        rw [if_pos hv, string_data_append]
        rfl
      · obtain ⟨c, cs, hcs, _⟩ := natDigitsGo_head v.toNat v.toNat le_rfl
        have hb := natDigitsGo_digits v.toNat v.toNat le_rfl c
          (by rw [hcs]; exact List.mem_cons_self _ _)
        have hf := digit_char_facts hb.1 hb.2
        refine ⟨c, cs, ?_, hf.1, hf.2.1, hf.2.2.1⟩
        simp only [renderJson]
        rw [intToStr_nonneg (by omega)]
        exact hcs
  | f m e =>
      by_cases hm : m < 0
      · refine ⟨'-', natDigits (m.natAbs / 10 ^ (e + 1))
            ++ ('.' :: fracDigits (m.natAbs % 10 ^ (e + 1)) e),
          ?_, by decide, by decide, by decide⟩
        simp only [renderJson]
        unfold renderFloat
        rw [if_pos hm]
        rfl
      · obtain ⟨c, cs, hcs, _⟩ := natDigitsGo_head
          (m.natAbs / 10 ^ (e + 1)) (m.natAbs / 10 ^ (e + 1)) le_rfl
        have hb := natDigitsGo_digits (m.natAbs / 10 ^ (e + 1))
          (m.natAbs / 10 ^ (e + 1)) le_rfl c
          (by rw [hcs]; exact List.mem_cons_self _ _)
        have hf := digit_char_facts hb.1 hb.2
        refine ⟨c, cs ++ ('.' :: fracDigits (m.natAbs % 10 ^ (e + 1)) e),
          ?_, hf.1, hf.2.1, hf.2.2.1⟩
        simp only [renderJson]
        unfold renderFloat
        rw [if_neg hm,
          show natDigits (m.natAbs / 10 ^ (e + 1)) = c :: cs from hcs]
        simp
  | s v => exact ⟨'"', escapeString v.data ++ ['"'],
      by simp [renderJson, renderString], by decide, by decide, by decide⟩
  | arr vs => exact ⟨'[', renderArr vs ++ [']'], by simp [renderJson],
      by decide, by decide, by decide⟩
  | obj kvs => exact ⟨'{', renderObj kvs ++ ['}'], by simp [renderJson],
      by decide, by decide, by decide⟩

theorem parseJson_null (fuel : Nat) (rest : List Char) :
    parseJson (fuel + 1) (renderJson .null ++ rest) = some (.null, rest) := by
  simp [renderJson, parseJson, skipWs, isWs, dropPrefix]

theorem parseJson_bool (fuel : Nat) (bv : Bool) (rest : List Char) :
    parseJson (fuel + 1) (renderJson (.b bv) ++ rest)
      = some (.b bv, rest) := by
  cases bv <;> simp [renderJson, parseJson, skipWs, isWs, dropPrefix]

theorem parseJson_int (fuel : Nat) (v : Int) (rest : List Char)
    (hrest : numBoundary rest = true) :
    parseJson (fuel + 1) (renderJson (.i v) ++ rest) = some (.i v, rest) := by
  obtain ⟨c, cs, hc, hws, hbr, hbr2⟩ := renderJson_head (.i v)
  simp only [renderJson] at hc
  have hpn := parseNum_render v rest hrest
  rw [hc] at hpn
  have hcd : isDigitChar c = true ∨ c = '-' := by
    by_cases hv : v < 0
    · right
      have hneg : (intToStr v).data = '-' :: (natToStr v.natAbs).data := by
        unfold intToStr
        rw [if_pos hv, string_data_append]
        rfl
      rw [hneg] at hc
      injection hc with h1 h2
      exact h1.symm
    · left
      rw [intToStr_nonneg (by omega)] at hc
      have hb := natDigitsGo_digits v.toNat v.toNat le_rfl c
        (by rw [show natDigitsGo v.toNat v.toNat [] = c :: cs from hc]
            exact List.mem_cons_self _ _)
      have hb2 : 48 ≤ c.toNat ∧ c.toNat ≤ 57 := hb
      unfold isDigitChar
      rw [if_pos hb2]
  have hfacts : c ≠ 'n' ∧ c ≠ 't' ∧ c ≠ 'f' ∧ c ≠ '"' ∧ c ≠ '[' ∧
      c ≠ '{' := by
    rcases hcd with h | h
    · have hb : 48 ≤ c.toNat ∧ c.toNat ≤ 57 := by
        unfold isDigitChar at h
        by_cases hb : 48 ≤ c.toNat ∧ c.toNat ≤ 57
        · exact hb
        · rw [if_neg hb] at h
          cases h
      have := digit_char_facts hb.1 hb.2
      exact ⟨this.2.2.2.2.1, this.2.2.2.2.2.1, this.2.2.2.2.2.2.1,
        this.2.2.2.2.2.2.2.1, this.2.2.2.2.2.2.2.2.1,
        this.2.2.2.2.2.2.2.2.2⟩
    · subst h
      exact ⟨by decide, by decide, by decide, by decide, by decide,
        by decide⟩
  simp only [renderJson]
  rw [hc]
  simp only [parseJson, List.cons_append]
  rw [skipWs_cons _ hws]
  simp only [if_neg hfacts.1, if_neg hfacts.2.1, if_neg hfacts.2.2.1,
    if_neg hfacts.2.2.2.1, if_neg hfacts.2.2.2.2.1,
    if_neg hfacts.2.2.2.2.2]
  exact hpn

theorem parseJson_float (fuel : Nat) (m : Int) (e : Nat)
    (rest : List Char) (hrest : numBoundary rest = true) :
    parseJson (fuel + 1) (renderJson (.f m e) ++ rest)
      = some (.f m e, rest) := by
  obtain ⟨c, cs, hc, hws, hbr, hbr2⟩ := renderJson_head (.f m e)
  simp only [renderJson] at hc
  have hpn := parseFloat_render m e rest hrest
  rw [hc] at hpn
  have hcd : isDigitChar c = true ∨ c = '-' := by
    by_cases hm : m < 0
    · right
      unfold renderFloat at hc
      rw [if_pos hm] at hc
      have hcc : '-' :: (natDigits (m.natAbs / 10 ^ (e + 1))
          ++ ('.' :: fracDigits (m.natAbs % 10 ^ (e + 1)) e))
          = c :: cs := hc
      injection hcc with h1 h2
      exact h1.symm
    · left
      unfold renderFloat at hc
      rw [if_neg hm] at hc
      simp only [List.nil_append] at hc
      obtain ⟨c0, cs0, hc0, _⟩ := natDigitsGo_head
        (m.natAbs / 10 ^ (e + 1)) (m.natAbs / 10 ^ (e + 1)) le_rfl
      rw [show natDigits (m.natAbs / 10 ^ (e + 1)) = c0 :: cs0 from hc0]
        at hc
      simp only [List.cons_append] at hc
      injection hc with h1 h2
      have hb := natDigitsGo_digits (m.natAbs / 10 ^ (e + 1))
        (m.natAbs / 10 ^ (e + 1)) le_rfl c0
        (by rw [hc0]; exact List.mem_cons_self _ _)
      rw [← h1]
      have hb2 : 48 ≤ c0.toNat ∧ c0.toNat ≤ 57 := hb
      unfold isDigitChar
      rw [if_pos hb2]
  have hfacts : c ≠ 'n' ∧ c ≠ 't' ∧ c ≠ 'f' ∧ c ≠ '"' ∧ c ≠ '[' ∧
      c ≠ '{' := by
    rcases hcd with h | h
    · have hb : 48 ≤ c.toNat ∧ c.toNat ≤ 57 := by
        unfold isDigitChar at h
        by_cases hb : 48 ≤ c.toNat ∧ c.toNat ≤ 57
        · exact hb
        · rw [if_neg hb] at h
          cases h
      have := digit_char_facts hb.1 hb.2
      exact ⟨this.2.2.2.2.1, this.2.2.2.2.2.1, this.2.2.2.2.2.2.1,
        this.2.2.2.2.2.2.2.1, this.2.2.2.2.2.2.2.2.1,
        this.2.2.2.2.2.2.2.2.2⟩
    · subst h
      exact ⟨by decide, by decide, by decide, by decide, by decide,
        by decide⟩
  simp only [renderJson]
  rw [hc]
  simp only [parseJson, List.cons_append]
  rw [skipWs_cons _ hws]
  simp only [if_neg hfacts.1, if_neg hfacts.2.1, if_neg hfacts.2.2.1,
    if_neg hfacts.2.2.2.1, if_neg hfacts.2.2.2.2.1,
    if_neg hfacts.2.2.2.2.2]
  exact hpn

theorem parseJson_str (fuel : Nat) (v : String) (rest : List Char) :
    parseJson (fuel + 1) (renderJson (.s v) ++ rest) = some (.s v, rest) := by
  simp only [renderJson, renderString]
  simp only [parseJson, List.cons_append, List.append_assoc,
    List.nil_append]
  rw [skipWs_cons _ (by decide)]
  simp only [if_neg (show ('"' : Char) ≠ 'n' from by decide),
    if_neg (show ('"' : Char) ≠ 't' from by decide),
    if_neg (show ('"' : Char) ≠ 'f' from by decide), if_pos rfl]
  have hlen1 : v.data.length ≤ (escapeString v.data).length :=
    escapeString_length v.data
  have hb := parseStringBody_escape v.data
    ((escapeString v.data ++ ('"' :: rest)).length + 1) rest
    (by simp only [List.length_append, List.length_cons]; omega)
  rw [hb, if_pos trivial]

/-- Parsing inverts rendering: the parser recovers any rendered value,
any rendered array-element list, and any rendered object-member list,
given fuel beyond the rendered length. -/
theorem parse_render_ok :
    ∀ fuel : Nat,
      (∀ (v : Json) (rest : List Char), (renderJson v).length < fuel →
        numBoundary rest = true →
        parseJson fuel (renderJson v ++ rest) = some (v, rest)) ∧
      (∀ (vs : List Json) (rest : List Char), vs ≠ [] →
        (renderArr vs).length + 1 < fuel →
        parseArrElems fuel (renderArr vs ++ (']' :: rest))
          = some (vs, rest)) ∧
      (∀ (kvs : List (String × Json)) (rest : List Char), kvs ≠ [] →
        (renderObj kvs).length + 1 < fuel →
        parseObjMembers fuel (renderObj kvs ++ ('}' :: rest))
          = some (kvs, rest)) := by
  intro fuel
  induction fuel with
  | zero =>
      refine ⟨fun v rest h _ => absurd h (by omega),
        fun vs rest _ h => absurd h (by omega),
        fun kvs rest _ h => absurd h (by omega)⟩
  | succ fuel ih =>
      obtain ⟨ihJ, ihA, ihO⟩ := ih
      refine ⟨?_, ?_, ?_⟩
      · intro v rest hlen hrest
        cases v with
        | null => exact parseJson_null fuel rest
        | b bv => exact parseJson_bool fuel bv rest
        | i n => exact parseJson_int fuel n rest hrest
        | f m e => exact parseJson_float fuel m e rest hrest
        | s str => exact parseJson_str fuel str rest
        | arr vs =>
            cases vs with
            | nil => simp [renderJson, renderArr, parseJson, skipWs, isWs]
            | cons v0 vs' =>
                obtain ⟨c, cs, hc, hws, hbr, hbr2⟩ := renderJson_head v0
                have hsplit : ∃ t, renderArr (v0 :: vs') = c :: t := by
                  cases vs' with
                  | nil => exact ⟨cs, by simp [renderArr, hc]⟩
                  | cons w ws =>
                      exact ⟨cs ++ (',' :: renderArr (w :: ws)),
                        by simp [renderArr, hc]⟩
                obtain ⟨t, ht⟩ := hsplit
                have hlen' : (renderArr (v0 :: vs')).length + 1 < fuel := by
                  simp only [renderJson, List.length_cons,
                    List.length_append, List.length_singleton] at hlen
                  omega
                simp only [renderJson]
                simp only [parseJson, List.cons_append, List.append_assoc,
                  List.nil_append]
                rw [skipWs_cons _ (by decide)]
                simp only [if_neg (show ('[' : Char) ≠ 'n' from by decide),
                  if_neg (show ('[' : Char) ≠ 't' from by decide),
                  if_neg (show ('[' : Char) ≠ 'f' from by decide),
                  if_neg (show ('[' : Char) ≠ '"' from by decide),
                  if_pos (show ('[' : Char) = '[' from rfl)]
                have hskip : skipWs (renderArr (v0 :: vs') ++ (']' :: rest))
                    = c :: (t ++ (']' :: rest)) := by
                  rw [ht, List.cons_append]
                  exact skipWs_cons _ hws
                simp only [hskip, if_neg hbr,
                  ihA (v0 :: vs') rest (by simp) hlen']
                rw [if_pos trivial]
        | obj kvs =>
            cases kvs with
            | nil => simp [renderJson, renderObj, parseJson, skipWs, isWs]
            | cons kv kvs' =>
                have hsplit : ∃ t, renderObj (kv :: kvs') = '"' :: t := by
                  obtain ⟨k, v0⟩ := kv
                  cases kvs' with
                  | nil =>
                      exact ⟨escapeString k.data ++ ['"']
                          ++ (':' :: renderJson v0),
                        by simp [renderObj, renderString]⟩
                  | cons w ws =>
                      exact ⟨escapeString k.data ++ ['"']
                          ++ (':' :: renderJson v0)
                          ++ (',' :: renderObj (w :: ws)),
                        by simp [renderObj, renderString]⟩
                obtain ⟨t, ht⟩ := hsplit
                have hlen' : (renderObj (kv :: kvs')).length + 1 < fuel := by
                  simp only [renderJson, List.length_cons,
                    List.length_append, List.length_singleton] at hlen
                  omega
                simp only [renderJson]
                simp only [parseJson, List.cons_append, List.append_assoc,
                  List.nil_append]
                rw [skipWs_cons _ (by decide)]
                simp only [if_neg (show ('{' : Char) ≠ 'n' from by decide),
                  if_neg (show ('{' : Char) ≠ 't' from by decide),
                  if_neg (show ('{' : Char) ≠ 'f' from by decide),
                  if_neg (show ('{' : Char) ≠ '"' from by decide),
                  if_neg (show ('{' : Char) ≠ '[' from by decide),
                  if_pos (show ('{' : Char) = '{' from rfl)]
                have hskip : skipWs (renderObj (kv :: kvs') ++ ('}' :: rest))
                    = '"' :: (t ++ ('}' :: rest)) := by
                  rw [ht, List.cons_append]
                  exact skipWs_cons _ (by decide)
                simp only [hskip,
                  if_neg (show ('"' : Char) ≠ '}' from by decide),
                  ihO (kv :: kvs') rest (by simp) hlen']
                rw [if_pos trivial]
      · intro vs rest hne hlen
        cases vs with
        | nil => exact absurd rfl hne
        | cons v0 vs' =>
            cases vs' with
            | nil =>
                have hL : renderArr [v0] = renderJson v0 := by
                  simp [renderArr]
                rw [hL] at hlen ⊢
                have hJ := ihJ v0 (']' :: rest) (by omega)
                  (numBoundary_cons _ (by decide) (by decide))
                simp only [parseArrElems, hJ]
                rw [skipWs_cons _ (by decide)]
                simp only [if_neg (show (']' : Char) ≠ ',' from by decide),
                  if_pos (show (']' : Char) = ']' from rfl)]
                rw [if_pos trivial]
            | cons v1 vs'' =>
                have hL : renderArr (v0 :: v1 :: vs'')
                    = renderJson v0 ++ (',' :: renderArr (v1 :: vs'')) := by
                  simp [renderArr]
                rw [hL] at hlen ⊢
                have hlens : (renderArr (v0 :: v1 :: vs'')).length
                    = (renderJson v0).length + 1
                      + (renderArr (v1 :: vs'')).length := by
                  rw [hL]
                  simp
                  omega
                simp only [List.length_append, List.length_cons] at hlen
                simp only [List.append_assoc, List.cons_append]
                have hJ := ihJ v0
                  (',' :: (renderArr (v1 :: vs'') ++ (']' :: rest)))
                  (by omega) (numBoundary_cons _ (by decide) (by decide))
                simp only [parseArrElems, hJ]
                rw [skipWs_cons _ (by decide)]
                simp only [if_pos (show (',' : Char) = ',' from rfl)]
                have hA := ihA (v1 :: vs'') rest (by simp) (by omega)
                simp only [hA]
                rw [if_pos trivial]
      · intro kvs rest hne hlen
        cases kvs with
        | nil => exact absurd rfl hne
        | cons kv kvs' =>
            obtain ⟨k, v0⟩ := kv
            have hlen1 : k.data.length ≤ (escapeString k.data).length :=
              escapeString_length k.data
            cases kvs' with
            | nil =>
                have hL : renderObj [(k, v0)]
                    = renderString k ++ (':' :: renderJson v0) := by
                  simp [renderObj]
                rw [hL] at hlen ⊢
                simp only [renderString, List.length_append,
                  List.length_cons, List.length_singleton] at hlen
                simp only [renderString, List.cons_append,
                  List.append_assoc, List.nil_append]
                simp only [parseObjMembers]
                rw [skipWs_cons _ (by decide)]
                simp only [if_pos (show ('"' : Char) = '"' from rfl)]
                have hb := parseStringBody_escape k.data
                  ((escapeString k.data
                    ++ ('"' :: (':' :: (renderJson v0
                      ++ ('}' :: rest))))).length + 1)
                  (':' :: (renderJson v0 ++ ('}' :: rest)))
                  (by simp only [List.length_append, List.length_cons]
                      omega)
                simp only [hb]
                rw [skipWs_cons _ (by decide)]
                simp only [if_pos (show (':' : Char) = ':' from rfl)]
                have hJ := ihJ v0 ('}' :: rest) (by omega)
                  (numBoundary_cons _ (by decide) (by decide))
                simp only [hJ]
                rw [skipWs_cons _ (by decide)]
                simp only [if_neg (show ('}' : Char) ≠ ',' from by decide),
                  if_pos (show ('}' : Char) = '}' from rfl)]
                rw [show String.mk k.data = k from string_eq_of_data rfl,
                  if_pos trivial, if_pos trivial, if_pos trivial]
            | cons kv1 kvs'' =>
                have hL : renderObj ((k, v0) :: kv1 :: kvs'')
                    = renderString k ++ (':' :: renderJson v0)
                      ++ (',' :: renderObj (kv1 :: kvs'')) := by
                  simp [renderObj]
                rw [hL] at hlen ⊢
                simp only [renderString, List.length_append,
                  List.length_cons, List.length_singleton] at hlen
                simp only [renderString, List.cons_append,
                  List.append_assoc, List.nil_append]
                simp only [parseObjMembers]
                rw [skipWs_cons _ (by decide)]
                simp only [if_pos (show ('"' : Char) = '"' from rfl)]
                have hb := parseStringBody_escape k.data
                  ((escapeString k.data
                    ++ ('"' :: (':' :: (renderJson v0
                      ++ (',' :: (renderObj (kv1 :: kvs'')
                        ++ ('}' :: rest))))))).length + 1)
                  (':' :: (renderJson v0
                    ++ (',' :: (renderObj (kv1 :: kvs'')
                      ++ ('}' :: rest)))))
                  (by simp only [List.length_append, List.length_cons]
                      omega)
                simp only [hb]
                rw [skipWs_cons _ (by decide)]
                simp only [if_pos (show (':' : Char) = ':' from rfl)]
                have hJ := ihJ v0
                  (',' :: (renderObj (kv1 :: kvs'') ++ ('}' :: rest)))
                  (by omega) (numBoundary_cons _ (by decide) (by decide))
                simp only [hJ]
                rw [skipWs_cons _ (by decide)]
                simp only [if_pos (show (',' : Char) = ',' from rfl)]
                have hO := ihO (kv1 :: kvs'') rest (by simp) (by omega)
                simp only [hO]
                rw [show String.mk k.data = k from string_eq_of_data rfl,
                  if_pos trivial, if_pos trivial, if_pos trivial]

/-- C9: saving a JSON-representable generation config with
`save_generation_config` and reloading it with
`load_generation_config` from the same path yields the original
mapping. -/
theorem config_roundtrip (path : String) (config : Json)
    (store : String → Option String) :
    load_generation_config path (save_generation_config path config store)
      = some config := by
  unfold load_generation_config save_generation_config
  rw [if_pos rfl]
  have hP := (parse_render_ok ((renderJson config).length + 1)).1 config []
    (by omega) rfl
  rw [List.append_nil] at hP
  have hdata : (String.mk (renderJson config)).data = renderJson config :=
    rfl
  simp only [hdata]
  rw [hP]
  simp [skipWs]

end CsvScripts
